import Mathlib

/-!
Verification of the turtle-toolkit assembler/simulator core against its
natural-language specification.

The Python sources are shallowly embedded: pure functions become Lean
functions, stateful modules become explicit state passing, machine integers
become `Nat`/`Int` with explicit wrapping, and fallible code returns
`Except`.  Two code bases coexist in the repository: `turtle_toolkit`
(current) and `simulator` (older revision, source of the ALU cited by the
spec); both are embedded below in separate namespaces.
-/

namespace TurtleToolkit

/-- Modelled from the spec: `turtle_toolkit/common/config.yml` is not in the
source tree; §3 of the spec fixes `data_width = 8`. -/
def DATA_WIDTH : Nat := 8

/-- Modelled from the spec: §3 fixes `instruction_width = 16`. -/
def INSTRUCTION_WIDTH : Nat := 16

/-- Modelled from the spec: §3 fixes `data_address_width = 16`. -/
def DATA_ADDRESS_WIDTH : Nat := 16

/-- Modelled from the spec: §3 fixes `instruction_address_width = 16`. -/
def INSTRUCTION_ADDRESS_WIDTH : Nat := 16

/-- `np.uint16(i)`: the 16-bit unsigned wrap of an integer. -/
def np_uint16 (i : Int) : Nat := (i % 65536).toNat

/-- `np.int16(i)`: the 16-bit two's-complement wrap of an integer. -/
def np_int16 (i : Int) : Int := (i + 32768) % 65536 - 32768

/-- `data_types.BusValue` of bus width `w` (`w` is 8 for the data bus and 16
for the two address buses).  The Python object stores the sign-extended
`np.uint16`; every observation (`unsigned_value`, `signed_value`, `__eq__`,
arithmetic) first masks to the bus width, so we store the masked unsigned
representative directly. -/
structure BusValue (w : Nat) where
  u : Nat
deriving DecidableEq

/-- `BusValue.__post_init__`: bound check (performed on the `np.int16` view
of the value, as in the source) and reduction to the stored representative.
Returns `Except` because out-of-range construction raises `ValueError`. -/
def BusValue.make (w : Nat) (i : Int) : Except String (BusValue w) :=
  if np_int16 i < -(2 ^ (w - 1) : Int) then
    .error "Value is less than the minimum signed value"
  else if np_int16 i > (2 ^ w - 1 : Int) then
    .error "Value is greater than the maximum unsigned value"
  else
    .ok ⟨np_uint16 i % 2 ^ w⟩

/-- `BusValue.unsigned_value`: `np.uint16(self.value) & BUS_WIDTH_MASK`. -/
def BusValue.unsigned_value {w : Nat} (v : BusValue w) : Nat := v.u % 2 ^ w

/-- `BusValue.signed_value`: `np.int16(SIGN_BIT_MASK ^ val) - np.int16(SIGN_BIT_MASK)`. -/
def BusValue.signed_value {w : Nat} (v : BusValue w) : Int :=
  ((2 ^ (w - 1) ^^^ v.unsigned_value : Nat) : Int) - (2 ^ (w - 1) : Int)

/-- `BusValue.is_negative`. -/
def BusValue.is_negative {w : Nat} (v : BusValue w) : Bool :=
  v.signed_value < 0

/-- `BusValue.__add__`: `(unsigned + unsigned) & BUS_WIDTH_MASK`. -/
def BusValue.add {w : Nat} (a b : BusValue w) : BusValue w :=
  ⟨(a.unsigned_value + b.unsigned_value) % 2 ^ w⟩

/-- `BusValue.__sub__`: `(signed - signed) & BUS_WIDTH_MASK` (numpy int16
subtraction followed by the width mask equals the difference mod `2^w`). -/
def BusValue.sub {w : Nat} (a b : BusValue w) : BusValue w :=
  ⟨((a.signed_value - b.signed_value).emod (2 ^ w)).toNat⟩

abbrev DataBusValue := BusValue DATA_WIDTH
abbrev DataAddressBusValue := BusValue DATA_ADDRESS_WIDTH
abbrev InstructionAddressBusValue := BusValue INSTRUCTION_ADDRESS_WIDTH

/-- `instruction_data.Opcode`. -/
inductive Opcode
  | ARITH_LOGIC_IMM
  | ARITH_LOGIC
  | REG_MEMORY
  | JUMP_IMM
  | JUMP_REG
deriving DecidableEq

def Opcode.value : Opcode → Nat
  | .ARITH_LOGIC_IMM => 0b000
  | .ARITH_LOGIC => 0b001
  | .REG_MEMORY => 0b010
  | .JUMP_IMM => 0b100
  | .JUMP_REG => 0b111

/-- `instruction_data.ArithLogicFunction`. -/
inductive ArithLogicFunction
  | ADD
  | SUB
  | AND
  | OR
  | XOR
  | INV
deriving DecidableEq

def ArithLogicFunction.value : ArithLogicFunction → Nat
  | .ADD => 0b0000
  | .SUB => 0b0001
  | .AND => 0b0010
  | .OR => 0b0100
  | .XOR => 0b0101
  | .INV => 0b0111

/-- `ArithLogicFunction(n)`: Python enum lookup by value; raises `ValueError`
on any value not in the enum (3, 6 and everything above 7 are absent). -/
def ArithLogicFunction.ofValue : Nat → Except String ArithLogicFunction
  | 0 => .ok .ADD
  | 1 => .ok .SUB
  | 2 => .ok .AND
  | 4 => .ok .OR
  | 5 => .ok .XOR
  | 7 => .ok .INV
  | _ => .error "is not a valid ArithLogicFunction"

/-- `instruction_data.RegMemoryFunction`. -/
inductive RegMemoryFunction
  | LOAD
  | STORE
  | GET
  | PUT
  | SET
deriving DecidableEq

def RegMemoryFunction.value : RegMemoryFunction → Nat
  | .LOAD => 0b0000
  | .STORE => 0b0001
  | .GET => 0b0010
  | .PUT => 0b0011
  | .SET => 0b0100

/-- `instruction_data.JumpFunction`. -/
inductive JumpFunction
  | JUMP_RELATIVE
  | JUMP_ABSOLUTE
deriving DecidableEq

def JumpFunction.value : JumpFunction → Nat
  | .JUMP_RELATIVE => 0b0000
  | .JUMP_ABSOLUTE => 0b0001

/-- `instruction_data.BranchCondition`. -/
inductive BranchCondition
  | ZERO
  | NOT_ZERO
  | POSITIVE
  | NEGATIVE
  | CARRY_SET
  | CARRY_CLEARED
  | OVERFLOW_SET
  | OVERFLOW_CLEARED
deriving DecidableEq

def BranchCondition.value : BranchCondition → Nat
  | .ZERO => 0b000
  | .NOT_ZERO => 0b001
  | .POSITIVE => 0b010
  | .NEGATIVE => 0b011
  | .CARRY_SET => 0b100
  | .CARRY_CLEARED => 0b101
  | .OVERFLOW_SET => 0b110
  | .OVERFLOW_CLEARED => 0b111

/-- `BranchCondition(n)`: enum lookup by value. -/
def BranchCondition.ofValue : Nat → Except String BranchCondition
  | 0 => .ok .ZERO
  | 1 => .ok .NOT_ZERO
  | 2 => .ok .POSITIVE
  | 3 => .ok .NEGATIVE
  | 4 => .ok .CARRY_SET
  | 5 => .ok .CARRY_CLEARED
  | 6 => .ok .OVERFLOW_SET
  | 7 => .ok .OVERFLOW_CLEARED
  | _ => .error "is not a valid BranchCondition"

/-- `instruction_data.RegisterIndex`.  Values 0b1011 and 0b1100 are absent
from the enum. -/
inductive RegisterIndex
  | R0
  | R1
  | R2
  | R3
  | R4
  | R5
  | R6
  | R7
  | ACC
  | DBAR
  | DOFF
  | IBAR
  | IOFF
  | STATUS
deriving DecidableEq

def RegisterIndex.value : RegisterIndex → Nat
  | .R0 => 0b0000
  | .R1 => 0b0001
  | .R2 => 0b0010
  | .R3 => 0b0011
  | .R4 => 0b0100
  | .R5 => 0b0101
  | .R6 => 0b0110
  | .R7 => 0b0111
  | .ACC => 0b1000
  | .DBAR => 0b1001
  | .DOFF => 0b1010
  | .IBAR => 0b1101
  | .IOFF => 0b1110
  | .STATUS => 0b1111

/-- `RegisterIndex(n)`: enum lookup by value; 11 and 12 raise `ValueError`. -/
def RegisterIndex.ofValue : Nat → Except String RegisterIndex
  | 0 => .ok .R0
  | 1 => .ok .R1
  | 2 => .ok .R2
  | 3 => .ok .R3
  | 4 => .ok .R4
  | 5 => .ok .R5
  | 6 => .ok .R6
  | 7 => .ok .R7
  | 8 => .ok .ACC
  | 9 => .ok .DBAR
  | 10 => .ok .DOFF
  | 13 => .ok .IBAR
  | 14 => .ok .IOFF
  | 15 => .ok .STATUS
  | _ => .error "is not a valid RegisterIndex"

/-- `decoder.DecodedInstruction`. -/
structure DecodedInstruction where
  halt_instruction : Bool
  branch_instruction : Bool
  branch_condition : BranchCondition
  immediate_address_value : InstructionAddressBusValue
  alu_instruction : Bool
  alu_immediate_instruction : Bool
  alu_function : Option ArithLogicFunction
  register_index : RegisterIndex
  immediate_data_value : DataBusValue
  register_file_instruction : Bool
  register_file_set : Bool
  register_file_get : Bool
  register_file_put : Bool
  memory_instruction : Bool
  memory_load : Bool
  memory_store : Bool
  jump_instruction : Bool
  immediate_jump : Bool
  relative_jump : Bool
deriving DecidableEq

/-- `DecodeUnit.decode`, applied to the 16-bit word
`inst = int.from_bytes(instruction_binary.data, byteorder="little")`.
The `Except` carries the `ValueError`s that the Python enum lookups and
bus-value constructors can raise, sequenced in Python argument-evaluation
order (branch condition, address immediate, ALU function, register index,
data immediate). -/
def DecodeUnit.decode (inst : Nat) : Except String DecodedInstruction := do
  let branch_field := (inst >>> 0) &&& 0x01
  let branch_cond_field := (inst >>> 1) &&& 0b111
  let op_field := (inst >>> 1) &&& 0b111
  let addr_imm_field := (inst >>> 4) &&& 0xFFF
  let func_field := (inst >>> 4) &&& 0xF
  let reg_idx_field := (inst >>> 8) &&& 0xF
  let data_imm_field := (inst >>> 8) &&& 0xFF
  let branch_condition ← BranchCondition.ofValue branch_cond_field
  let immediate_address_value ←
    BusValue.make INSTRUCTION_ADDRESS_WIDTH (addr_imm_field : Int)
  let is_alu : Bool := branch_field == 0 &&
    (op_field == Opcode.ARITH_LOGIC_IMM.value || op_field == Opcode.ARITH_LOGIC.value)
  let alu_function ← if is_alu then do
      let f ← ArithLogicFunction.ofValue func_field
      pure (some f)
    else
      pure none
  let register_index ← RegisterIndex.ofValue reg_idx_field
  let immediate_data_value ← BusValue.make DATA_WIDTH (data_imm_field : Int)
  .ok {
    halt_instruction := branch_field == 0 && op_field == Opcode.JUMP_IMM.value &&
      addr_imm_field == 0
    branch_instruction := branch_field == 1
    branch_condition := branch_condition
    immediate_address_value := immediate_address_value
    alu_instruction := is_alu
    alu_immediate_instruction := op_field == Opcode.ARITH_LOGIC_IMM.value
    alu_function := alu_function
    register_index := register_index
    immediate_data_value := immediate_data_value
    register_file_instruction := branch_field == 0 && op_field == Opcode.REG_MEMORY.value &&
      func_field != RegMemoryFunction.LOAD.value && func_field != RegMemoryFunction.STORE.value
    register_file_set := func_field == RegMemoryFunction.SET.value
    register_file_get := func_field == RegMemoryFunction.GET.value
    register_file_put := func_field == RegMemoryFunction.PUT.value
    memory_instruction := branch_field == 0 && op_field == Opcode.REG_MEMORY.value &&
      (func_field == RegMemoryFunction.LOAD.value || func_field == RegMemoryFunction.STORE.value)
    memory_load := func_field == RegMemoryFunction.LOAD.value
    memory_store := func_field == RegMemoryFunction.STORE.value
    jump_instruction := branch_field == 0 &&
      (op_field == Opcode.JUMP_IMM.value || op_field == Opcode.JUMP_REG.value)
    immediate_jump := op_field == Opcode.JUMP_IMM.value
    relative_jump := func_field == JumpFunction.JUMP_RELATIVE.value
  }

/-- `DecodeUnit.decode` on the two little-endian bytes of an `InstructionBinary`. -/
def DecodeUnit.decode_bytes (b0 b1 : Nat) : Except String DecodedInstruction :=
  DecodeUnit.decode (b0 + 256 * b1)

lemma np_int16_ofNat_small (i : Nat) (h : i < 32768) :
    np_int16 (i : Int) = (i : Int) := by
  unfold np_int16; omega

lemma BusValue.make8_ofNat (i : Nat) (h : i < 256) :
    BusValue.make 8 (i : Int) = .ok ⟨i⟩ := by
  unfold BusValue.make np_int16 np_uint16
  norm_num
  rw [if_neg (by omega), if_neg (by omega)]
  congr 1
  congr 1
  omega

lemma BusValue.make16_ofNat (i : Nat) (h : i < 65536) :
    BusValue.make 16 (i : Int) = .ok ⟨i⟩ := by
  unfold BusValue.make np_int16 np_uint16
  norm_num
  rw [if_neg (by omega), if_neg (by omega)]
  congr 1
  congr 1
  omega

lemma BranchCondition.ofValue_total (n : Nat) (h : n < 8) :
    ∃ c, BranchCondition.ofValue n = .ok c := by
  interval_cases n <;> exact ⟨_, rfl⟩

lemma and7_lt (x : Nat) : x &&& 7 < 8 := Nat.lt_succ_of_le Nat.and_le_right

lemma and15_lt (x : Nat) : x &&& 15 < 16 := Nat.lt_succ_of_le Nat.and_le_right

lemma and255_lt (x : Nat) : x &&& 255 < 256 := Nat.lt_succ_of_le Nat.and_le_right

lemma and4095_lt (x : Nat) : x &&& 4095 < 4096 := Nat.lt_succ_of_le Nat.and_le_right

lemma BusValue.is_negative_of_lt_2048_16 (a : Nat) (h : a < 4096) :
    (BusValue.is_negative (⟨a⟩ : BusValue 16)) = false := by
  have ha : a % 2 ^ 16 = a := Nat.mod_eq_of_lt (by omega)
  have hbit : ((2 ^ 15 : Nat) ^^^ a).testBit 15 = true := by
    rw [Nat.testBit_xor, Nat.testBit_two_pow_self,
      Nat.testBit_lt_two_pow (show a < 2 ^ 15 by omega)]
    rfl
  have hge : (2 ^ 15 : Nat) ≤ 2 ^ 15 ^^^ a := Nat.testBit_implies_ge hbit
  have h15 : (2 ^ 15 : Nat) = 32768 := by norm_num
  unfold BusValue.is_negative BusValue.signed_value BusValue.unsigned_value
  rw [show (16 - 1) = 15 from rfl, ha]
  simp only [decide_eq_false_iff_not, not_lt]
  have h15i : ((2 : Int) ^ 15) = 32768 := by norm_num
  rw [h15i, h15]
  rw [h15] at hge
  omega

/-- C1, counterexample: the 16-bit word 0x0B00 is an ADDI instruction whose
register-index field (bits 8..11) is 0b1011, a value absent from
`RegisterIndex`; `decode` raises `ValueError` on it instead of returning a
`DecodedInstruction`, so `decode` is not total in the register-index field. -/
theorem decode_raises_on_register_field_11 :
    DecodeUnit.decode 0x0B00 = .error "is not a valid RegisterIndex" := by
  rfl

/-- C1, amended: `decode` returns a `DecodedInstruction` exactly when the
register-index field (bits 8..11) is a valid `RegisterIndex` value (11 and 12
are not) and, for ALU instructions, the function field (bits 4..7) is a valid
`ArithLogicFunction` value (3, 6 and 8..15 are not); on all other words it
raises `ValueError`. -/
theorem decode_isOk_iff_fields_valid (inst : Nat) :
    (DecodeUnit.decode inst).isOk = true ↔
      ((RegisterIndex.ofValue ((inst >>> 8) &&& 0xF)).isOk = true ∧
        (((inst >>> 0) &&& 0x01 = 0 ∧
            ((inst >>> 1) &&& 0b111 = Opcode.ARITH_LOGIC_IMM.value ∨
             (inst >>> 1) &&& 0b111 = Opcode.ARITH_LOGIC.value)) →
          (ArithLogicFunction.ofValue ((inst >>> 4) &&& 0xF)).isOk = true)) := by
  obtain ⟨c, hc⟩ := BranchCondition.ofValue_total ((inst >>> 1) &&& 0b111) (and7_lt _)
  have hia := BusValue.make16_ofNat ((inst >>> 4) &&& 0xFFF)
    (Nat.lt_of_lt_of_le (and4095_lt _) (by norm_num))
  have hid := BusValue.make8_ofNat ((inst >>> 8) &&& 0xFF) (and255_lt _)
  simp only [DecodeUnit.decode, INSTRUCTION_ADDRESS_WIDTH, DATA_WIDTH, hc, hia, hid]
  simp only [bind, Except.bind]
  by_cases hb : ((inst >>> 0) &&& 0x01 == 0 &&
      ((inst >>> 1) &&& 0b111 == Opcode.ARITH_LOGIC_IMM.value ||
       (inst >>> 1) &&& 0b111 == Opcode.ARITH_LOGIC.value)) = true
  · have hbp := hb
    simp only [Bool.and_eq_true, Bool.or_eq_true, beq_iff_eq] at hbp
    rw [if_pos hb]
    cases haf : ArithLogicFunction.ofValue ((inst >>> 4) &&& 0xF) with
    | error msg =>
      constructor
      · intro h
        simp [Except.isOk, Except.toBool] at h
      · rintro ⟨-, h2⟩
        have h3 := h2 hbp
        simp [Except.isOk, Except.toBool] at h3
    | ok f =>
      cases hr : RegisterIndex.ofValue ((inst >>> 8) &&& 0xF) with
      | error msg =>
        constructor
        · intro h
          simp [Except.isOk, Except.toBool, pure, Except.pure] at h
        · rintro ⟨h1, -⟩
          simp [Except.isOk, Except.toBool] at h1
      | ok r =>
        constructor
        · intro _
          exact ⟨rfl, fun _ => rfl⟩
        · intro _
          rfl
  · have hbp : ¬((inst >>> 0) &&& 0x01 = 0 ∧
        ((inst >>> 1) &&& 0b111 = Opcode.ARITH_LOGIC_IMM.value ∨
         (inst >>> 1) &&& 0b111 = Opcode.ARITH_LOGIC.value)) := by
      intro hp
      exact hb (by simp only [Bool.and_eq_true, Bool.or_eq_true, beq_iff_eq]; exact hp)
    rw [if_neg hb]
    cases hr : RegisterIndex.ofValue ((inst >>> 8) &&& 0xF) with
    | error msg =>
      constructor
      · intro h
        simp [Except.isOk, Except.toBool, pure, Except.pure] at h
      · rintro ⟨h1, -⟩
        simp [Except.isOk, Except.toBool] at h1
    | ok r =>
      constructor
      · intro _
        exact ⟨rfl, fun hcond => absurd hcond hbp⟩
      · intro _
        rfl

/-- C1, witness for the amended theorem at the word 0x0144 (SET 1). -/
theorem decode_isOk_iff_fields_valid_witness :
    (DecodeUnit.decode 0x0144).isOk = true ↔
      ((RegisterIndex.ofValue ((0x0144 >>> 8) &&& 0xF)).isOk = true ∧
        (((0x0144 >>> 0) &&& 0x01 = 0 ∧
            ((0x0144 >>> 1) &&& 0b111 = Opcode.ARITH_LOGIC_IMM.value ∨
             (0x0144 >>> 1) &&& 0b111 = Opcode.ARITH_LOGIC.value)) →
          (ArithLogicFunction.ofValue ((0x0144 >>> 4) &&& 0xF)).isOk = true)) :=
  decode_isOk_iff_fields_valid 0x0144

/-- C3, counterexample: the word 0x8001 is a branch (BZ) whose 12-bit address
immediate is 0x800, i.e. bit 11 set; the decoder yields the 16-bit value
0x0800 = 2048 (zero-extended, not negative), refuting the claimed
sign-extension to the instruction-address width. -/
theorem decode_branch_offset_bit11_positive :
    (DecodeUnit.decode 0x8001).toOption.map
        (fun d => (d.immediate_address_value.u, d.immediate_address_value.is_negative)) =
      some (2048, false) := by
  rfl

/-- C3, amended: the decoder zero-extends the 12-bit address immediate to the
instruction-address width: the decoded `immediate_address_value` is exactly
the raw field `(inst >>> 4) &&& 0xFFF`, always below 4096 and never negative
(sign extension in `BusValue.sign_extend` acts at bit 15 of the 16-bit bus,
which a 12-bit field never sets). -/
theorem decode_addr_immediate_zero_extended (inst : Nat) (d : DecodedInstruction)
    (h : DecodeUnit.decode inst = .ok d) :
    d.immediate_address_value = ⟨(inst >>> 4) &&& 0xFFF⟩ ∧
      d.immediate_address_value.is_negative = false ∧
      d.immediate_address_value.u < 4096 := by
  obtain ⟨c, hc⟩ := BranchCondition.ofValue_total ((inst >>> 1) &&& 0b111) (and7_lt _)
  have hia := BusValue.make16_ofNat ((inst >>> 4) &&& 0xFFF)
    (Nat.lt_of_lt_of_le (and4095_lt _) (by norm_num))
  have hid := BusValue.make8_ofNat ((inst >>> 8) &&& 0xFF) (and255_lt _)
  have hd : d.immediate_address_value = ⟨(inst >>> 4) &&& 0xFFF⟩ := by
    simp only [DecodeUnit.decode, INSTRUCTION_ADDRESS_WIDTH, DATA_WIDTH, hc, hia, hid] at h
    simp only [bind, Except.bind] at h
    by_cases hb : ((inst >>> 0) &&& 0x01 == 0 &&
        ((inst >>> 1) &&& 0b111 == Opcode.ARITH_LOGIC_IMM.value ||
         (inst >>> 1) &&& 0b111 == Opcode.ARITH_LOGIC.value)) = true
    · rw [if_pos hb] at h
      cases haf : ArithLogicFunction.ofValue ((inst >>> 4) &&& 0xF) with
      | error msg =>
        rw [haf] at h
        simp at h
      | ok f =>
        rw [haf] at h
        cases hr : RegisterIndex.ofValue ((inst >>> 8) &&& 0xF) with
        | error msg =>
          rw [hr] at h
          simp [pure, Except.pure] at h
        | ok r =>
          rw [hr] at h
          have h2 : (Except.ok {
              halt_instruction := (inst >>> 0) &&& 0x01 == 0 &&
                (inst >>> 1) &&& 0b111 == Opcode.JUMP_IMM.value && (inst >>> 4) &&& 0xFFF == 0
              branch_instruction := (inst >>> 0) &&& 0x01 == 1
              branch_condition := c
              immediate_address_value := ⟨(inst >>> 4) &&& 0xFFF⟩
              alu_instruction := (inst >>> 0) &&& 0x01 == 0 &&
                ((inst >>> 1) &&& 0b111 == Opcode.ARITH_LOGIC_IMM.value ||
                 (inst >>> 1) &&& 0b111 == Opcode.ARITH_LOGIC.value)
              alu_immediate_instruction := (inst >>> 1) &&& 0b111 == Opcode.ARITH_LOGIC_IMM.value
              alu_function := some f
              register_index := r
              immediate_data_value := ⟨(inst >>> 8) &&& 0xFF⟩
              register_file_instruction := (inst >>> 0) &&& 0x01 == 0 &&
                (inst >>> 1) &&& 0b111 == Opcode.REG_MEMORY.value &&
                (inst >>> 4) &&& 0xF != RegMemoryFunction.LOAD.value &&
                (inst >>> 4) &&& 0xF != RegMemoryFunction.STORE.value
              register_file_set := (inst >>> 4) &&& 0xF == RegMemoryFunction.SET.value
              register_file_get := (inst >>> 4) &&& 0xF == RegMemoryFunction.GET.value
              register_file_put := (inst >>> 4) &&& 0xF == RegMemoryFunction.PUT.value
              memory_instruction := (inst >>> 0) &&& 0x01 == 0 &&
                (inst >>> 1) &&& 0b111 == Opcode.REG_MEMORY.value &&
                ((inst >>> 4) &&& 0xF == RegMemoryFunction.LOAD.value ||
                 (inst >>> 4) &&& 0xF == RegMemoryFunction.STORE.value)
              memory_load := (inst >>> 4) &&& 0xF == RegMemoryFunction.LOAD.value
              memory_store := (inst >>> 4) &&& 0xF == RegMemoryFunction.STORE.value
              jump_instruction := (inst >>> 0) &&& 0x01 == 0 &&
                ((inst >>> 1) &&& 0b111 == Opcode.JUMP_IMM.value ||
                 (inst >>> 1) &&& 0b111 == Opcode.JUMP_REG.value)
              immediate_jump := (inst >>> 1) &&& 0b111 == Opcode.JUMP_IMM.value
              relative_jump := (inst >>> 4) &&& 0xF == JumpFunction.JUMP_RELATIVE.value
              } : Except String DecodedInstruction) = Except.ok d := h
          have h3 := (Except.ok.injEq _ _).mp h2
          rw [← h3]
    · rw [if_neg hb] at h
      cases hr : RegisterIndex.ofValue ((inst >>> 8) &&& 0xF) with
      | error msg =>
        rw [hr] at h
        simp [pure, Except.pure] at h
      | ok r =>
        rw [hr] at h
        have h2 : (Except.ok {
              halt_instruction := (inst >>> 0) &&& 0x01 == 0 &&
                (inst >>> 1) &&& 0b111 == Opcode.JUMP_IMM.value && (inst >>> 4) &&& 0xFFF == 0
              branch_instruction := (inst >>> 0) &&& 0x01 == 1
              branch_condition := c
              immediate_address_value := ⟨(inst >>> 4) &&& 0xFFF⟩
              alu_instruction := (inst >>> 0) &&& 0x01 == 0 &&
                ((inst >>> 1) &&& 0b111 == Opcode.ARITH_LOGIC_IMM.value ||
                 (inst >>> 1) &&& 0b111 == Opcode.ARITH_LOGIC.value)
              alu_immediate_instruction := (inst >>> 1) &&& 0b111 == Opcode.ARITH_LOGIC_IMM.value
              alu_function := none
              register_index := r
              immediate_data_value := ⟨(inst >>> 8) &&& 0xFF⟩
              register_file_instruction := (inst >>> 0) &&& 0x01 == 0 &&
                (inst >>> 1) &&& 0b111 == Opcode.REG_MEMORY.value &&
                (inst >>> 4) &&& 0xF != RegMemoryFunction.LOAD.value &&
                (inst >>> 4) &&& 0xF != RegMemoryFunction.STORE.value
              register_file_set := (inst >>> 4) &&& 0xF == RegMemoryFunction.SET.value
              register_file_get := (inst >>> 4) &&& 0xF == RegMemoryFunction.GET.value
              register_file_put := (inst >>> 4) &&& 0xF == RegMemoryFunction.PUT.value
              memory_instruction := (inst >>> 0) &&& 0x01 == 0 &&
                (inst >>> 1) &&& 0b111 == Opcode.REG_MEMORY.value &&
                ((inst >>> 4) &&& 0xF == RegMemoryFunction.LOAD.value ||
                 (inst >>> 4) &&& 0xF == RegMemoryFunction.STORE.value)
              memory_load := (inst >>> 4) &&& 0xF == RegMemoryFunction.LOAD.value
              memory_store := (inst >>> 4) &&& 0xF == RegMemoryFunction.STORE.value
              jump_instruction := (inst >>> 0) &&& 0x01 == 0 &&
                ((inst >>> 1) &&& 0b111 == Opcode.JUMP_IMM.value ||
                 (inst >>> 1) &&& 0b111 == Opcode.JUMP_REG.value)
              immediate_jump := (inst >>> 1) &&& 0b111 == Opcode.JUMP_IMM.value
              relative_jump := (inst >>> 4) &&& 0xF == JumpFunction.JUMP_RELATIVE.value
              } : Except String DecodedInstruction) = Except.ok d := h
        have h3 := (Except.ok.injEq _ _).mp h2
        rw [← h3]
  refine ⟨hd, ?_, ?_⟩
  · rw [hd]
    exact BusValue.is_negative_of_lt_2048_16 _ (and4095_lt _)
  · rw [hd]
    exact and4095_lt _

/-- The decoded record for the word 0x0008 (JMPI 0, i.e. HALT). -/
def decoded_halt_word : DecodedInstruction := {
  halt_instruction := true
  branch_instruction := false
  branch_condition := .CARRY_SET
  immediate_address_value := ⟨0⟩
  alu_instruction := false
  alu_immediate_instruction := false
  alu_function := none
  register_index := .R0
  immediate_data_value := ⟨0⟩
  register_file_instruction := false
  register_file_set := false
  register_file_get := false
  register_file_put := false
  memory_instruction := false
  memory_load := true
  memory_store := false
  jump_instruction := true
  immediate_jump := true
  relative_jump := true }

/-- C3, witness for the amended theorem at the word 0x0008. -/
theorem decode_addr_immediate_zero_extended_witness :
    decoded_halt_word.immediate_address_value = ⟨(0x0008 >>> 4) &&& 0xFFF⟩ ∧
      decoded_halt_word.immediate_address_value.is_negative = false ∧
      decoded_halt_word.immediate_address_value.u < 4096 :=
  decode_addr_immediate_zero_extended 0x0008 decoded_halt_word (by rfl)

end TurtleToolkit

namespace Simulator

/-- Modelled from the spec: `simulator/common/config.py` is not in the source
tree; §3 of the spec fixes `data_width = 8`. -/
def DATA_WIDTH : Nat := 8

/-- `simulator/common/data_types.BusData`.  `__post_init__` stores
`value % 2**DATA_WIDTH`, so the stored value of every constructed object is
already reduced; we store that representative. -/
structure BusData where
  value : Nat
deriving DecidableEq

def BusData.min_unsigned_value : Nat := 0

def BusData.max_unsigned_value : Nat := 2 ^ DATA_WIDTH - 1

def BusData.min_signed_value : Int := -(2 ^ (DATA_WIDTH - 1))

def BusData.max_signed_value : Int := 2 ^ (DATA_WIDTH - 1) - 1

/-- `BusData.__post_init__`: bound check then reduction mod `2**DATA_WIDTH`. -/
def BusData.make (i : Int) : Except String BusData :=
  if ¬(BusData.min_signed_value ≤ i ∧ i ≤ (BusData.max_unsigned_value : Int)) then
    .error "Value is out of bounds for bus data type."
  else
    .ok ⟨(i % (2 ^ DATA_WIDTH : Int)).toNat⟩

def BusData.unsigned_value (d : BusData) : Nat := d.value % 2 ^ DATA_WIDTH

def BusData.signed_value (d : BusData) : Int :=
  if (d.unsigned_value : Int) > BusData.max_signed_value then
    (d.unsigned_value : Int) - 2 ^ DATA_WIDTH
  else
    (d.unsigned_value : Int)

def BusData.is_negative (d : BusData) : Bool := d.signed_value < 0

/-- `BusData.__add__`. -/
def BusData.add (a b : BusData) : BusData :=
  ⟨(a.unsigned_value + b.unsigned_value) % 2 ^ DATA_WIDTH⟩

/-- `BusData.__sub__` (Python `%` on ints is euclidean-nonnegative here). -/
def BusData.sub (a b : BusData) : BusData :=
  ⟨(((a.unsigned_value : Int) - (b.unsigned_value : Int)) % (2 ^ DATA_WIDTH : Int)).toNat⟩

/-- Bitwise AND on `BusData` as used by `ALU.execute` via `operand_a &
operand_b` (`BusData` itself defines no bitwise operators in the source; the
claims under test do not touch these cases). -/
def BusData.band (a b : BusData) : BusData := ⟨a.unsigned_value &&& b.unsigned_value⟩

def BusData.bor (a b : BusData) : BusData := ⟨a.unsigned_value ||| b.unsigned_value⟩

def BusData.bxor (a b : BusData) : BusData := ⟨a.unsigned_value ^^^ b.unsigned_value⟩

def BusData.binv (a : BusData) : BusData :=
  ⟨(a.unsigned_value ^^^ (2 ^ DATA_WIDTH - 1)) % 2 ^ DATA_WIDTH⟩

/-- `simulator/modules/alu.ALUOperation`. -/
inductive ALUOperation
  | ADD
  | SUBTRACT
  | AND
  | OR
  | XOR
  | INVERT
  | BUFFER
deriving DecidableEq

/-- `simulator/modules/alu.ALUOutputs` with its class-attribute defaults. -/
structure ALUOutputs where
  result : BusData := ⟨0⟩
  zero : Bool := false
  signed_overflow : Bool := false
  carry_flag : Bool := false
  negative : Bool := false
deriving DecidableEq

/-- `simulator/modules/alu.ALU.execute`.  Note the ADD carry test in the
source is `>= BusData.max_unsigned_value()` although its own comment says
"greater than the max unsigned value". -/
def ALU.execute (operand_a operand_b : BusData) (function : ALUOperation) : ALUOutputs :=
  let outputs : ALUOutputs :=
    match function with
    | .ADD =>
      let result := operand_a.add operand_b
      { result := result
        carry_flag :=
          operand_a.unsigned_value + operand_b.unsigned_value ≥ BusData.max_unsigned_value
        signed_overflow := (operand_a.is_negative == operand_b.is_negative) &&
          (result.is_negative != operand_a.is_negative) }
    | .SUBTRACT =>
      let result := operand_a.sub operand_b
      { result := result
        carry_flag := operand_a.unsigned_value < operand_b.unsigned_value
        signed_overflow := (operand_a.is_negative != operand_b.is_negative) &&
          (result.is_negative != operand_a.is_negative) }
    | .AND => { result := operand_a.band operand_b }
    | .OR => { result := operand_a.bor operand_b }
    | .XOR => { result := operand_a.bxor operand_b }
    | .INVERT => { result := operand_a.binv }
    | .BUFFER => { result := operand_a }
  { outputs with
    zero := outputs.result.unsigned_value == 0
    negative := outputs.result.is_negative }

/-- C2: at operands A = 245, B = 10 (unsigned sum exactly `MAX_UNSIGNED` =
255, no wrap-around), the ALU sets the carry flag even though the claim (and
the comment in the source) requires carry iff the unsigned sum strictly
exceeds `MAX_UNSIGNED`: the source tests `>=` instead of `>`.  The result
and signed-overflow outputs agree with the claim at this input. -/
theorem alu_add_carry_set_at_exact_max_unsigned :
    (ALU.execute ⟨245⟩ ⟨10⟩ .ADD).result = ⟨255⟩ ∧
      (ALU.execute ⟨245⟩ ⟨10⟩ .ADD).carry_flag = true ∧
      (ALU.execute ⟨245⟩ ⟨10⟩ .ADD).signed_overflow = false ∧
      ¬((245 : Nat) + 10 > BusData.max_unsigned_value) := by
  decide

end Simulator

namespace TurtleToolkit

/-- `register_file.StatusRegisterValue`. -/
structure StatusRegisterValue where
  zero : Bool
  positive : Bool
  carry_set : Bool
  signed_overflow_set : Bool
deriving DecidableEq

/-- The initial register dictionary of `RegisterFileState`: every register 0,
STATUS = 3. -/
def initial_registers : RegisterIndex → DataBusValue :=
  fun r => if r = .STATUS then ⟨3⟩ else ⟨0⟩

/-- `register_file.RegisterFileState`. -/
structure RegisterFileState where
  registers : RegisterIndex → DataBusValue := initial_registers
  pending_register : Option RegisterIndex := none
  pending_value : Option DataBusValue := none
  pending_carry_flag : Option Bool := none
  pending_signed_overflow : Option Bool := none
  pending_accumulator : Option DataBusValue := none

def RegisterFileState.init : RegisterFileState := {}

def RegisterFile.get_acc_value (s : RegisterFileState) : DataBusValue :=
  s.registers .ACC

/-- `RegisterFile.get_register_value`; the `IndexError` branch is dead in the
model because the register dictionary holds every `RegisterIndex`. -/
def RegisterFile.get_register_value (s : RegisterFileState) (register_index : RegisterIndex) :
    DataBusValue :=
  s.registers register_index

/-- `RegisterFile.get_dmar_value` (the `DataAddressBusValue` constructor
check always passes: the packed value is below `2^16`). -/
def RegisterFile.get_dmar_value (s : RegisterFileState) : DataAddressBusValue :=
  ⟨(((s.registers .DBAR).unsigned_value &&&
        ((1 <<< (DATA_ADDRESS_WIDTH - DATA_WIDTH)) - 1)) <<< DATA_WIDTH) |||
    (s.registers .DOFF).unsigned_value⟩

/-- `RegisterFile.get_imar_value`. -/
def RegisterFile.get_imar_value (s : RegisterFileState) : InstructionAddressBusValue :=
  ⟨(((s.registers .IBAR).unsigned_value &&&
        ((1 <<< (INSTRUCTION_ADDRESS_WIDTH - DATA_WIDTH)) - 1)) <<< DATA_WIDTH) |||
    (s.registers .IOFF).unsigned_value⟩

/-- `RegisterFile.set_next_register_value`: a total function that only
records the pending write; nothing is validated here. -/
def RegisterFile.set_next_register_value (s : RegisterFileState)
    (register_index : RegisterIndex) (value : DataBusValue) : RegisterFileState :=
  { s with pending_register := some register_index, pending_value := some value }

def RegisterFile.get_status_register_value (s : RegisterFileState) : StatusRegisterValue :=
  let status_value := (s.registers .STATUS).unsigned_value
  { zero := (status_value >>> 0) &&& 1 == 1
    positive := (status_value >>> 1) &&& 1 == 1
    carry_set := (status_value >>> 2) &&& 1 == 1
    signed_overflow_set := (status_value >>> 3) &&& 1 == 1 }

def RegisterFile.set_next_status_register_value (s : RegisterFileState)
    (signed_overflow carry_flag : Bool) : RegisterFileState :=
  { s with pending_carry_flag := some carry_flag,
           pending_signed_overflow := some signed_overflow }

def RegisterFile.set_next_acc_value (s : RegisterFileState) (value : DataBusValue) :
    RegisterFileState :=
  { s with pending_accumulator := some value }

/-- `RegisterFile.update_state`.  Errors carry the state at raise time (every
raise in the source happens before any mutation).  The trailing
`IndexError("Register index ... is not valid")` branch of the source is dead
here: the register dictionary holds every `RegisterIndex`.  Note that the
source never clears `pending_accumulator`, `pending_carry_flag` or
`pending_signed_overflow`. -/
def RegisterFile.update_state (s : RegisterFileState) :
    Except (String × RegisterFileState) RegisterFileState :=
  if s.pending_register.isSome ∧ s.pending_value = none then
    .error ("Pending value for register is None.", s)
  else if s.pending_register = some .STATUS then
    .error ("STATUS can not be written directly", s)
  else if s.pending_register = some .ACC then
    .error ("ACC can not be written directly", s)
  else
    let s1 : RegisterFileState :=
      match s.pending_register, s.pending_value with
      | some r, some v => { s with registers := fun i => if i = r then v else s.registers i }
      | _, _ => s
    let s2 := { s1 with pending_register := none, pending_value := none }
    let s3 : RegisterFileState :=
      match s.pending_accumulator with
      | some a => { s2 with registers := fun i => if i = .ACC then a else s2.registers i }
      | none => s2
    let zero : Option Bool := s.pending_accumulator.map (fun a => a.unsigned_value == 0)
    let positive : Option Bool :=
      s.pending_accumulator.map (fun a => decide (a.signed_value ≥ 0))
    let current_status_value := (s3.registers .STATUS).unsigned_value
    let resolve_next_bit : Nat → Option Bool → Nat := fun current_bit pending =>
      match pending with
      | some b => if b then 1 else 0
      | none => current_bit
    let compute_next_status_bit : Nat → Option Bool → Nat := fun shift pending =>
      (resolve_next_bit ((current_status_value >>> shift) &&& 1) pending) <<< shift
    let next_status_value := 0 ||| compute_next_status_bit 0 zero |||
      compute_next_status_bit 1 positive |||
      compute_next_status_bit 2 s.pending_carry_flag |||
      compute_next_status_bit 3 s.pending_signed_overflow
    .ok { s3 with registers := fun i => if i = .STATUS then ⟨next_status_value⟩
                                        else s3.registers i }

lemma beq_eq_decide (a b : Nat) : (a == b) = decide (a = b) := by
  by_cases h : a = b
  · subst h; simp
  · simp [h]

lemma shift_and_one_beq_testBit (n i : Nat) : ((n >>> i) &&& 1 == 1) = n.testBit i := by
  rw [Nat.and_one_is_mod, Nat.shiftRight_eq_div_pow, Nat.testBit_to_div_mod, beq_eq_decide]

lemma status_bits_decomp (b0 b1 b2 b3 : Nat)
    (h0 : b0 ≤ 1) (h1 : b1 ≤ 1) (h2 : b2 ≤ 1) (h3 : b3 ≤ 1) :
    ((0 ||| (b0 <<< 0) ||| (b1 <<< 1) ||| (b2 <<< 2) ||| (b3 <<< 3)).testBit 0 = (b0 == 1)) ∧
      ((0 ||| (b0 <<< 0) ||| (b1 <<< 1) ||| (b2 <<< 2) ||| (b3 <<< 3)).testBit 1 = (b1 == 1)) ∧
      ((0 ||| (b0 <<< 0) ||| (b1 <<< 1) ||| (b2 <<< 2) ||| (b3 <<< 3)).testBit 2 = (b2 == 1)) ∧
      ((0 ||| (b0 <<< 0) ||| (b1 <<< 1) ||| (b2 <<< 2) ||| (b3 <<< 3)).testBit 3 = (b3 == 1)) ∧
      (0 ||| (b0 <<< 0) ||| (b1 <<< 1) ||| (b2 <<< 2) ||| (b3 <<< 3)) < 16 := by
  interval_cases b0 <;> interval_cases b1 <;> interval_cases b2 <;> interval_cases b3 <;> decide

set_option maxRecDepth 2000 in
lemma status_commit_bits :
    ∀ cur, cur < 16 → ∀ (z p c o : Option Bool),
      ((BusValue.unsigned_value (⟨0 |||
          (match z with | some b => if b then 1 else 0 | none => (cur >>> 0) &&& 1) <<< 0 |||
          (match p with | some b => if b then 1 else 0 | none => (cur >>> 1) &&& 1) <<< 1 |||
          (match c with | some b => if b then 1 else 0 | none => (cur >>> 2) &&& 1) <<< 2 |||
          (match o with | some b => if b then 1 else 0 | none => (cur >>> 3) &&& 1) <<< 3⟩ :
            DataBusValue)).testBit 0 =
        (match z with | some b => b | none => cur.testBit 0)) ∧
      ((BusValue.unsigned_value (⟨0 |||
          (match z with | some b => if b then 1 else 0 | none => (cur >>> 0) &&& 1) <<< 0 |||
          (match p with | some b => if b then 1 else 0 | none => (cur >>> 1) &&& 1) <<< 1 |||
          (match c with | some b => if b then 1 else 0 | none => (cur >>> 2) &&& 1) <<< 2 |||
          (match o with | some b => if b then 1 else 0 | none => (cur >>> 3) &&& 1) <<< 3⟩ :
            DataBusValue)).testBit 1 =
        (match p with | some b => b | none => cur.testBit 1)) ∧
      ((BusValue.unsigned_value (⟨0 |||
          (match z with | some b => if b then 1 else 0 | none => (cur >>> 0) &&& 1) <<< 0 |||
          (match p with | some b => if b then 1 else 0 | none => (cur >>> 1) &&& 1) <<< 1 |||
          (match c with | some b => if b then 1 else 0 | none => (cur >>> 2) &&& 1) <<< 2 |||
          (match o with | some b => if b then 1 else 0 | none => (cur >>> 3) &&& 1) <<< 3⟩ :
            DataBusValue)).testBit 2 =
        (match c with | some b => b | none => cur.testBit 2)) ∧
      ((BusValue.unsigned_value (⟨0 |||
          (match z with | some b => if b then 1 else 0 | none => (cur >>> 0) &&& 1) <<< 0 |||
          (match p with | some b => if b then 1 else 0 | none => (cur >>> 1) &&& 1) <<< 1 |||
          (match c with | some b => if b then 1 else 0 | none => (cur >>> 2) &&& 1) <<< 2 |||
          (match o with | some b => if b then 1 else 0 | none => (cur >>> 3) &&& 1) <<< 3⟩ :
            DataBusValue)).testBit 3 =
        (match o with | some b => b | none => cur.testBit 3)) ∧
      (BusValue.unsigned_value (⟨0 |||
          (match z with | some b => if b then 1 else 0 | none => (cur >>> 0) &&& 1) <<< 0 |||
          (match p with | some b => if b then 1 else 0 | none => (cur >>> 1) &&& 1) <<< 1 |||
          (match c with | some b => if b then 1 else 0 | none => (cur >>> 2) &&& 1) <<< 2 |||
          (match o with | some b => if b then 1 else 0 | none => (cur >>> 3) &&& 1) <<< 3⟩ :
            DataBusValue)) < 16 := by
  decide

lemma testBit_ge4_of_lt16 (n i : Nat) (hn : n < 16) (hi : 4 ≤ i) : n.testBit i = false := by
  apply Nat.testBit_lt_two_pow
  calc n < 16 := hn
    _ = 2 ^ 4 := by norm_num
    _ ≤ 2 ^ i := Nat.pow_le_pow_right (by norm_num) hi

lemma resolve_le_one (cb : Nat) (p : Option Bool) (h : cb ≤ 1) :
    (match p with
      | some b => if b then 1 else 0
      | none => cb) ≤ 1 := by
  cases p with
  | none => exact h
  | some b => cases b <;> simp

/-- C8 (with the reachable-state hypothesis that the current STATUS value is
below 16: true of the initial value 3 and re-established by every commit, as
the final conjunct shows): at every successful register-file commit the new
STATUS is the current STATUS with bit 0 replaced iff a next-ACC is pending
(value: the zero predicate on that ACC), bit 1 replaced iff a next-ACC is
pending (value: signed(nextACC) >= 0), bit 2 replaced iff a carry flag is
pending, bit 3 replaced iff a signed-overflow flag is pending; every status
bit with nothing pending keeps its current value (bits 4 and above never
have anything pending and keep their current zero values). -/
theorem register_file_status_commit_rule (s s' : RegisterFileState)
    (hok : RegisterFile.update_state s = .ok s')
    (hs : (s.registers .STATUS).unsigned_value < 16) :
    ((s'.registers .STATUS).unsigned_value.testBit 0 =
        match s.pending_accumulator with
        | some a => (a.unsigned_value == 0)
        | none => (s.registers .STATUS).unsigned_value.testBit 0) ∧
      ((s'.registers .STATUS).unsigned_value.testBit 1 =
        match s.pending_accumulator with
        | some a => decide (a.signed_value ≥ 0)
        | none => (s.registers .STATUS).unsigned_value.testBit 1) ∧
      ((s'.registers .STATUS).unsigned_value.testBit 2 =
        match s.pending_carry_flag with
        | some b => b
        | none => (s.registers .STATUS).unsigned_value.testBit 2) ∧
      ((s'.registers .STATUS).unsigned_value.testBit 3 =
        match s.pending_signed_overflow with
        | some b => b
        | none => (s.registers .STATUS).unsigned_value.testBit 3) ∧
      (∀ i, 4 ≤ i → (s'.registers .STATUS).unsigned_value.testBit i =
        (s.registers .STATUS).unsigned_value.testBit i) ∧
      (s'.registers .STATUS).unsigned_value < 16 := by
  unfold RegisterFile.update_state at hok
  split at hok
  · simp at hok
  · split at hok
    · simp at hok
    · split at hok
      · simp at hok
      · rename_i hA hB hC
        injection hok with hok
        subst hok
        rcases hpa : s.pending_accumulator with _ | a <;>
          rcases hpr : s.pending_register with _ | r <;>
            rcases hpv : s.pending_value with _ | v <;>
              simp only [hpa, hpr, hpv] at hA hB hC ⊢
        · have L := status_commit_bits _ hs none none s.pending_carry_flag s.pending_signed_overflow
          exact ⟨L.1, L.2.1, L.2.2.1, L.2.2.2.1,
            fun i hi => (testBit_ge4_of_lt16 _ i L.2.2.2.2 hi).trans
              (testBit_ge4_of_lt16 _ i hs hi).symm, L.2.2.2.2⟩
        · have L := status_commit_bits _ hs none none s.pending_carry_flag s.pending_signed_overflow
          exact ⟨L.1, L.2.1, L.2.2.1, L.2.2.2.1,
            fun i hi => (testBit_ge4_of_lt16 _ i L.2.2.2.2 hi).trans
              (testBit_ge4_of_lt16 _ i hs hi).symm, L.2.2.2.2⟩
        · exact absurd ⟨rfl, trivial⟩ hA
        · have hr : ¬(RegisterIndex.STATUS = r) := fun h => hB (by rw [h])
          rw [if_neg hr]
          have L := status_commit_bits _ hs none none s.pending_carry_flag s.pending_signed_overflow
          exact ⟨L.1, L.2.1, L.2.2.1, L.2.2.2.1,
            fun i hi => (testBit_ge4_of_lt16 _ i L.2.2.2.2 hi).trans
              (testBit_ge4_of_lt16 _ i hs hi).symm, L.2.2.2.2⟩
        · rw [if_neg (show ¬(RegisterIndex.STATUS = RegisterIndex.ACC) by decide)]
          have L := status_commit_bits _ hs (some (a.unsigned_value == 0))
            (some (decide (a.signed_value ≥ 0))) s.pending_carry_flag s.pending_signed_overflow
          exact ⟨L.1, L.2.1, L.2.2.1, L.2.2.2.1,
            fun i hi => (testBit_ge4_of_lt16 _ i L.2.2.2.2 hi).trans
              (testBit_ge4_of_lt16 _ i hs hi).symm, L.2.2.2.2⟩
        · rw [if_neg (show ¬(RegisterIndex.STATUS = RegisterIndex.ACC) by decide)]
          have L := status_commit_bits _ hs (some (a.unsigned_value == 0))
            (some (decide (a.signed_value ≥ 0))) s.pending_carry_flag s.pending_signed_overflow
          exact ⟨L.1, L.2.1, L.2.2.1, L.2.2.2.1,
            fun i hi => (testBit_ge4_of_lt16 _ i L.2.2.2.2 hi).trans
              (testBit_ge4_of_lt16 _ i hs hi).symm, L.2.2.2.2⟩
        · exact absurd ⟨rfl, trivial⟩ hA
        · have hr : ¬(RegisterIndex.STATUS = r) := fun h => hB (by rw [h])
          rw [if_neg (show ¬(RegisterIndex.STATUS = RegisterIndex.ACC) by decide), if_neg hr]
          have L := status_commit_bits _ hs (some (a.unsigned_value == 0))
            (some (decide (a.signed_value ≥ 0))) s.pending_carry_flag s.pending_signed_overflow
          exact ⟨L.1, L.2.1, L.2.2.1, L.2.2.2.1,
            fun i hi => (testBit_ge4_of_lt16 _ i L.2.2.2.2 hi).trans
              (testBit_ge4_of_lt16 _ i hs hi).symm, L.2.2.2.2⟩

/-- A register-file state with a pending accumulator and pending flags, as
left by an ALU instruction: ACC := 1 scheduled, carry := false and
signed-overflow := true scheduled. -/
def status_commit_pending_state : RegisterFileState :=
  RegisterFile.set_next_status_register_value
    (RegisterFile.set_next_acc_value RegisterFileState.init ⟨1⟩) true false

/-- The state after committing `status_commit_pending_state`. -/
def status_commit_state_after : RegisterFileState :=
  (RegisterFile.update_state status_commit_pending_state).toOption.getD RegisterFileState.init

/-- C8, witness at a concrete pending state. -/
theorem register_file_status_commit_rule_witness :
    ((status_commit_state_after.registers .STATUS).unsigned_value.testBit 0 =
        match status_commit_pending_state.pending_accumulator with
        | some a => (a.unsigned_value == 0)
        | none => (status_commit_pending_state.registers .STATUS).unsigned_value.testBit 0) ∧
      ((status_commit_state_after.registers .STATUS).unsigned_value.testBit 1 =
        match status_commit_pending_state.pending_accumulator with
        | some a => decide (a.signed_value ≥ 0)
        | none => (status_commit_pending_state.registers .STATUS).unsigned_value.testBit 1) ∧
      ((status_commit_state_after.registers .STATUS).unsigned_value.testBit 2 =
        match status_commit_pending_state.pending_carry_flag with
        | some b => b
        | none => (status_commit_pending_state.registers .STATUS).unsigned_value.testBit 2) ∧
      ((status_commit_state_after.registers .STATUS).unsigned_value.testBit 3 =
        match status_commit_pending_state.pending_signed_overflow with
        | some b => b
        | none => (status_commit_pending_state.registers .STATUS).unsigned_value.testBit 3) ∧
      (∀ i, 4 ≤ i → (status_commit_state_after.registers .STATUS).unsigned_value.testBit i =
        (status_commit_pending_state.registers .STATUS).unsigned_value.testBit i) ∧
      (status_commit_state_after.registers .STATUS).unsigned_value < 16 :=
  register_file_status_commit_rule status_commit_pending_state status_commit_state_after
    (by rfl) (by decide)

/-- C10: scheduling a generic register write to ACC or STATUS does not fail
at the call site — `set_next_register_value` is total, only records the
pending write, and touches no register; the `IndexError` is raised only at
the following commit (`update_state`), before any register is modified, so
the error state carries exactly the scheduled state, in which every
architectural register still holds its pre-commit value. -/
theorem set_next_acc_status_faults_only_at_commit (s : RegisterFileState)
    (r : RegisterIndex) (v : DataBusValue) (hr : r = .ACC ∨ r = .STATUS) :
    ((RegisterFile.set_next_register_value s r v).pending_register = some r ∧
      (∀ i, (RegisterFile.set_next_register_value s r v).registers i = s.registers i)) ∧
    ∃ msg, RegisterFile.update_state (RegisterFile.set_next_register_value s r v) =
      .error (msg, RegisterFile.set_next_register_value s r v) := by
  refine ⟨⟨rfl, fun i => rfl⟩, ?_⟩
  rcases hr with h | h <;> subst h
  · exact ⟨"ACC can not be written directly", rfl⟩
  · exact ⟨"STATUS can not be written directly", rfl⟩

/-- C10, witness: scheduling a generic write of 1 to ACC on the reset state. -/
theorem set_next_acc_status_faults_only_at_commit_witness :
    ((RegisterFile.set_next_register_value RegisterFileState.init .ACC ⟨1⟩).pending_register =
        some .ACC ∧
      (∀ i, (RegisterFile.set_next_register_value RegisterFileState.init .ACC ⟨1⟩).registers i =
        RegisterFileState.init.registers i)) ∧
    ∃ msg, RegisterFile.update_state
        (RegisterFile.set_next_register_value RegisterFileState.init .ACC ⟨1⟩) =
      .error (msg, RegisterFile.set_next_register_value RegisterFileState.init .ACC ⟨1⟩) :=
  set_next_acc_status_faults_only_at_commit RegisterFileState.init .ACC ⟨1⟩ (Or.inl rfl)

/-- C4, amended: a successful register-file commit clears the pending
generic-register write channel (`pending_register`/`pending_value`) but does
NOT clear the pending accumulator, pending carry flag or pending
signed-overflow flag — those three buffers are preserved verbatim across
`update_state`. -/
theorem update_state_preserves_acc_and_flag_pendings (s s2 : RegisterFileState)
    (h : RegisterFile.update_state s = .ok s2) :
    s2.pending_register = none ∧ s2.pending_value = none ∧
      s2.pending_accumulator = s.pending_accumulator ∧
      s2.pending_carry_flag = s.pending_carry_flag ∧
      s2.pending_signed_overflow = s.pending_signed_overflow := by
  unfold RegisterFile.update_state at h
  split at h
  · simp at h
  · split at h
    · simp at h
    · split at h
      · simp at h
      · rename_i hA hB hC
        injection h with h
        subst h
        rcases hpa : s.pending_accumulator with _ | a <;>
          rcases hpr : s.pending_register with _ | r <;>
            rcases hpv : s.pending_value with _ | v <;>
              simp only [hpa, hpr, hpv] at hA ⊢
        · refine ⟨?_, ?_, ?_, ?_, ?_⟩ <;> trivial
        · refine ⟨?_, ?_, ?_, ?_, ?_⟩ <;> trivial
        · simp at hA
        · refine ⟨?_, ?_, ?_, ?_, ?_⟩ <;> trivial
        · refine ⟨?_, ?_, ?_, ?_, ?_⟩ <;> trivial
        · refine ⟨?_, ?_, ?_, ?_, ?_⟩ <;> trivial
        · simp at hA
        · refine ⟨?_, ?_, ?_, ?_, ?_⟩ <;> trivial

/-- The committed version of a state with pending ACC := 1. -/
def acc_pending_state : RegisterFileState :=
  RegisterFile.set_next_acc_value RegisterFileState.init ⟨1⟩

def acc_pending_state_after : RegisterFileState :=
  (RegisterFile.update_state acc_pending_state).toOption.getD RegisterFileState.init

/-- C4, witness for the amended theorem: the pending accumulator survives the
commit. -/
theorem update_state_preserves_acc_and_flag_pendings_witness :
    acc_pending_state_after.pending_register = none ∧
      acc_pending_state_after.pending_value = none ∧
      acc_pending_state_after.pending_accumulator = acc_pending_state.pending_accumulator ∧
      acc_pending_state_after.pending_carry_flag = acc_pending_state.pending_carry_flag ∧
      acc_pending_state_after.pending_signed_overflow =
        acc_pending_state.pending_signed_overflow :=
  update_state_preserves_acc_and_flag_pendings acc_pending_state acc_pending_state_after
    (by rfl)

/-- `base_memory.BaseMemoryState` (embedded from
`simulator/modules/base_memory.py`, which the absent
`turtle_toolkit/modules/base_memory.py` extends import-compatibly).
Addresses and stored data are kept as their unsigned numbers: the dictionary
keys are frozen bus values that hash and compare by stored value. -/
structure BaseMemoryState where
  pending_address : Option Nat := none
  pending_data : Option Nat := none
  remaining_cycles : Option Nat := none
  memory : List (Nat × Nat) := []
deriving DecidableEq

/-- `BaseMemory._start_operation` of a memory with latency `latency_cycles`. -/
def BaseMemory.start_operation (latency_cycles : Nat) (st : BaseMemoryState)
    (address : Nat) (data : Option Nat) : Except String BaseMemoryState :=
  if st.pending_address.isSome ∧ st.pending_address ≠ some address then
    .error "Memory operation requested while another operation is pending for another address."
  else if data.isSome ∧ st.pending_data.isSome ∧ st.pending_data ≠ data then
    .error "Memory operation requested while another operation is pending for another value."
  else
    let st := { st with pending_address := some address, pending_data := data }
    if st.remaining_cycles = none then
      .ok { st with remaining_cycles := some latency_cycles }
    else
      .ok st

/-- `BaseMemory.operation_complete`: reports completion and clears the
countdown when complete. -/
def BaseMemory.operation_complete (st : BaseMemoryState) : Bool × BaseMemoryState :=
  let complete :=
    match st.remaining_cycles with
    | some n => n == 0
    | none => false
  if complete then (true, { st with remaining_cycles := none }) else (false, st)

/-- `BaseMemory._read_value` (the dictionary write is modelled by list
prepend; `List.lookup` returns the most recent binding). -/
def BaseMemory.read_value (st : BaseMemoryState) : Except String (Nat × BaseMemoryState) :=
  match st.pending_address with
  | none => .error "No read operation pending."
  | some addr =>
    match st.memory.lookup addr with
    | none => .error "Segmentation fault: address has not been written to yet."
    | some value =>
      .ok (value, { st with pending_address := none, pending_data := none })

/-- `BaseMemory._complete_write`. -/
def BaseMemory.complete_write (st : BaseMemoryState) : BaseMemoryState :=
  match st.pending_address, st.pending_data with
  | some addr, some data =>
    { st with memory := (addr, data) :: st.memory,
              pending_address := none, pending_data := none }
  | _, _ => st

/-- `BaseMemory.update_state` (the per-cycle tick). -/
def BaseMemory.update_state (st : BaseMemoryState) : BaseMemoryState :=
  match st.remaining_cycles with
  | some n => if n > 0 then { st with remaining_cycles := some (n - 1) } else st
  | none => st

/-- `instruction_memory.INSTRUCTION_FETCH_LATENCY_CYCLES`. -/
def INSTRUCTION_FETCH_LATENCY_CYCLES : Nat := 10

/-- `data_memory.MEMORY_LATENCY_CYCLES`. -/
def MEMORY_LATENCY_CYCLES : Nat := 0

/-- `InstructionMemory.side_load`: split the byte image into 2-byte chunks at
even addresses; a partial trailing chunk is discarded.  Each stored
instruction word is the little-endian value of its two bytes. -/
def InstructionMemory.side_load_from : List Nat → Nat → List (Nat × Nat)
  | b0 :: b1 :: rest, addr =>
    (addr % 65536, b0 + 256 * b1) :: InstructionMemory.side_load_from rest (addr + 2)
  | _, _ => []

/-- `DataMemory.store_complete`: completion plus the write-on-complete. -/
def DataMemory.store_complete (st : BaseMemoryState) : Bool × BaseMemoryState :=
  match BaseMemory.operation_complete st with
  | (true, st2) => (true, BaseMemory.complete_write st2)
  | (false, st2) => (false, st2)

/-- `program_counter.ProgramCounterState`. -/
structure ProgramCounterState where
  value : InstructionAddressBusValue := ⟨0⟩
  next_value : Option InstructionAddressBusValue := none
  stall : Bool := false
deriving DecidableEq

def ProgramCounter.increment (s : ProgramCounterState) : ProgramCounterState :=
  { s with next_value := some (s.value.add ⟨INSTRUCTION_WIDTH / 8⟩) }

def ProgramCounter.jump_relative (s : ProgramCounterState)
    (offset : InstructionAddressBusValue) : ProgramCounterState :=
  { s with next_value := some (s.value.add offset) }

def ProgramCounter.jump_absolute (s : ProgramCounterState)
    (address : InstructionAddressBusValue) : ProgramCounterState :=
  { s with next_value := some address }

/-- `ProgramCounter.conditionally_branch` (exhaustive over the 8 conditions,
as the source if/elif chain is). -/
def ProgramCounter.conditionally_branch (s : ProgramCounterState)
    (status_register : StatusRegisterValue) (offset : InstructionAddressBusValue)
    (branch_condition : BranchCondition) : ProgramCounterState :=
  let branch :=
    match branch_condition with
    | .ZERO => status_register.zero
    | .NOT_ZERO => !status_register.zero
    | .POSITIVE => status_register.positive
    | .NEGATIVE => !status_register.positive
    | .CARRY_SET => status_register.carry_set
    | .CARRY_CLEARED => !status_register.carry_set
    | .OVERFLOW_SET => status_register.signed_overflow_set
    | .OVERFLOW_CLEARED => !status_register.signed_overflow_set
  if branch then ProgramCounter.jump_relative s offset else ProgramCounter.increment s

def ProgramCounter.set_stall (s : ProgramCounterState) (stall : Bool) : ProgramCounterState :=
  { s with stall := stall }

/-- `ProgramCounter.update_state`: a stalled commit keeps `value` and drops
nothing; a non-stalled commit requires a pending `next_value`. -/
def ProgramCounter.update_state (s : ProgramCounterState) : Except String ProgramCounterState :=
  if s.stall then .ok s
  else
    match s.next_value with
    | some nv => .ok { s with value := nv, next_value := none }
    | none => .error "No next value set for program counter. Cannot update state."

/-- ALU outputs of the turtle-toolkit ALU. -/
structure ALUOutputs where
  result : DataBusValue
  carry_flag : Bool
  signed_overflow : Bool
deriving DecidableEq

/-- Modelled from the spec: `turtle_toolkit/modules/alu.py` is not under
src/ (only its import in `simulator.py` is); §4.2 of the spec gives the
table — ADD carry iff `unsigned(A)+unsigned(B) > MAX_UNSIGNED`, SUB carry iff
`unsigned(A) < unsigned(B)`, logic operations clear both flags. -/
def ALU.execute (operand_a operand_b : DataBusValue) (function : ArithLogicFunction) :
    ALUOutputs :=
  match function with
  | .ADD =>
    let result := operand_a.add operand_b
    { result := result
      carry_flag :=
        decide (operand_a.unsigned_value + operand_b.unsigned_value > 2 ^ DATA_WIDTH - 1)
      signed_overflow := (operand_a.is_negative == operand_b.is_negative) &&
        (result.is_negative != operand_a.is_negative) }
  | .SUB =>
    let result := operand_a.sub operand_b
    { result := result
      carry_flag := decide (operand_a.unsigned_value < operand_b.unsigned_value)
      signed_overflow := (operand_a.is_negative != operand_b.is_negative) &&
        (result.is_negative != operand_a.is_negative) }
  | .AND =>
    { result := ⟨operand_a.unsigned_value &&& operand_b.unsigned_value⟩
      carry_flag := false, signed_overflow := false }
  | .OR =>
    { result := ⟨operand_a.unsigned_value ||| operand_b.unsigned_value⟩
      carry_flag := false, signed_overflow := false }
  | .XOR =>
    { result := ⟨operand_a.unsigned_value ^^^ operand_b.unsigned_value⟩
      carry_flag := false, signed_overflow := false }
  | .INV =>
    { result := ⟨operand_a.unsigned_value ^^^ (2 ^ DATA_WIDTH - 1)⟩
      carry_flag := false, signed_overflow := false }

/-- `simulator.SimulatorState` together with the module states the driver
owns (`modules` in the source is a dictionary of references to exactly these
states). -/
structure SimulatorState where
  cycle_count : Nat := 0
  halted : Bool := false
  stalled : Bool := false
  instruction_memory : BaseMemoryState := {}
  data_memory : BaseMemoryState := {}
  register_file : RegisterFileState := {}
  program_counter : ProgramCounterState := {}

/-- `simulator.SimulationResult`. -/
structure SimulationResult where
  cycle_count : Nat
  state : SimulatorState

/-- `Simulator._handle_fetch_stage`: request the fetch, then stall or
proceed.  Returns the updated state and the `proceed` flag. -/
def Simulator.handle_fetch_stage (st : SimulatorState) :
    Except String (SimulatorState × Bool) := do
  let instruction_address := st.program_counter.value
  let imem ← BaseMemory.start_operation INSTRUCTION_FETCH_LATENCY_CYCLES
    st.instruction_memory instruction_address.unsigned_value none
  match BaseMemory.operation_complete imem with
  | (false, imem2) =>
    .ok ({ st with instruction_memory := imem2
                   stalled := true
                   program_counter := ProgramCounter.set_stall st.program_counter true }, false)
  | (true, imem2) =>
    .ok ({ st with instruction_memory := imem2
                   stalled := false
                   program_counter := ProgramCounter.set_stall st.program_counter false }, true)

/-- `Simulator._handle_decode_stage`: returns `none` when the cycle should
stop (HALT). -/
def Simulator.handle_decode_stage (st : SimulatorState) :
    Except String (SimulatorState × Option DecodedInstruction) := do
  let (instruction, imem) ← BaseMemory.read_value st.instruction_memory
  let st := { st with instruction_memory := imem }
  let decoded_instruction ← DecodeUnit.decode instruction
  if decoded_instruction.halt_instruction then
    .ok ({ st with halted := true }, none)
  else
    .ok (st, some decoded_instruction)

/-- `Simulator._get_alu_operand_b`. -/
def Simulator.get_alu_operand_b (st : SimulatorState) (d : DecodedInstruction) :
    DataBusValue :=
  if d.alu_immediate_instruction then d.immediate_data_value
  else RegisterFile.get_register_value st.register_file d.register_index

/-- `Simulator._execute_alu_operation` (the `none` branch mirrors the
`ValueError` the ALU raises on an invalid operation; it is unreachable for
decoded ALU instructions). -/
def Simulator.execute_alu_operation (st : SimulatorState) (d : DecodedInstruction)
    (operand_b : DataBusValue) : Except String SimulatorState :=
  match d.alu_function with
  | some f =>
    let alu_outputs := ALU.execute (RegisterFile.get_acc_value st.register_file) operand_b f
    let rf := RegisterFile.set_next_acc_value st.register_file alu_outputs.result
    let rf := RegisterFile.set_next_status_register_value rf alu_outputs.signed_overflow
      alu_outputs.carry_flag
    .ok { st with register_file := rf }
  | none => .error "Invalid ALU operation"

/-- `Simulator._handle_register_operation`. -/
def Simulator.handle_register_operation (st : SimulatorState) (d : DecodedInstruction) :
    Except String (SimulatorState × Bool) :=
  if d.register_file_set then
    let rf := RegisterFile.set_next_acc_value st.register_file d.immediate_data_value
    .ok ({ st with register_file := rf }, true)
  else if d.register_file_get then
    let v := RegisterFile.get_register_value st.register_file d.register_index
    .ok ({ st with register_file := RegisterFile.set_next_acc_value st.register_file v }, true)
  else if d.register_file_put then
    let acc := RegisterFile.get_acc_value st.register_file
    let rf := RegisterFile.set_next_register_value st.register_file d.register_index acc
    .ok ({ st with register_file := rf }, true)
  else
    .error "Invalid register file operation."

/-- `Simulator._handle_execute_stage`. -/
def Simulator.handle_execute_stage (st : SimulatorState) (d : DecodedInstruction) :
    Except String (SimulatorState × Bool) := do
  if d.alu_instruction then
    let operand_b := Simulator.get_alu_operand_b st d
    let st2 ← Simulator.execute_alu_operation st d operand_b
    .ok (st2, true)
  else if d.register_file_instruction then
    Simulator.handle_register_operation st d
  else
    .ok (st, true)

/-- `Simulator._handle_memory_load`. -/
def Simulator.handle_memory_load (st : SimulatorState) :
    Except String (SimulatorState × Bool) := do
  let dmem ← BaseMemory.start_operation MEMORY_LATENCY_CYCLES st.data_memory
    (RegisterFile.get_dmar_value st.register_file).unsigned_value none
  match BaseMemory.operation_complete dmem with
  | (false, dmem2) =>
    .ok ({ st with data_memory := dmem2
                   stalled := true
                   program_counter := ProgramCounter.set_stall st.program_counter true }, false)
  | (true, dmem2) => do
    let st2 := { st with data_memory := dmem2
                         stalled := false
                         program_counter := ProgramCounter.set_stall st.program_counter false }
    let (value, dmem3) ← BaseMemory.read_value st2.data_memory
    .ok ({ st2 with data_memory := dmem3
                    register_file :=
                      RegisterFile.set_next_acc_value st2.register_file ⟨value⟩ }, true)

/-- `Simulator._handle_memory_store`. -/
def Simulator.handle_memory_store (st : SimulatorState) :
    Except String (SimulatorState × Bool) := do
  let dmem ← BaseMemory.start_operation MEMORY_LATENCY_CYCLES st.data_memory
    (RegisterFile.get_dmar_value st.register_file).unsigned_value
    (some (RegisterFile.get_acc_value st.register_file).unsigned_value)
  match DataMemory.store_complete dmem with
  | (false, dmem2) =>
    .ok ({ st with data_memory := dmem2
                   stalled := true
                   program_counter := ProgramCounter.set_stall st.program_counter true }, false)
  | (true, dmem2) =>
    .ok ({ st with data_memory := dmem2
                   stalled := false
                   program_counter := ProgramCounter.set_stall st.program_counter false }, true)

/-- `Simulator._handle_memory_stage`. -/
def Simulator.handle_memory_stage (st : SimulatorState) (d : DecodedInstruction) :
    Except String (SimulatorState × Bool) :=
  if !d.memory_instruction then .ok (st, true)
  else if d.memory_load then Simulator.handle_memory_load st
  else if d.memory_store then Simulator.handle_memory_store st
  else .error "Invalid memory operation."

/-- `Simulator._handle_jump_instruction`. -/
def Simulator.handle_jump_instruction (st : SimulatorState) (d : DecodedInstruction) :
    SimulatorState :=
  if d.immediate_jump then
    let pc := ProgramCounter.jump_relative st.program_counter d.immediate_address_value
    { st with program_counter := pc }
  else if d.relative_jump then
    let imar := RegisterFile.get_imar_value st.register_file
    { st with program_counter := ProgramCounter.jump_relative st.program_counter imar }
  else
    let imar := RegisterFile.get_imar_value st.register_file
    { st with program_counter := ProgramCounter.jump_absolute st.program_counter imar }

/-- `Simulator._update_program_counter`. -/
def Simulator.update_program_counter (st : SimulatorState) (d : DecodedInstruction) :
    SimulatorState :=
  if d.branch_instruction then
    let status := RegisterFile.get_status_register_value st.register_file
    let pc := ProgramCounter.conditionally_branch st.program_counter status
      d.immediate_address_value d.branch_condition
    { st with program_counter := pc }
  else if d.jump_instruction then
    Simulator.handle_jump_instruction st d
  else
    { st with program_counter := ProgramCounter.increment st.program_counter }

/-- `Simulator._execute_cycle`: the stage sequence with its early returns. -/
def Simulator.execute_cycle (st : SimulatorState) : Except String SimulatorState := do
  let (st, proceed) ← Simulator.handle_fetch_stage st
  if !proceed then .ok st
  else do
    let (st, od) ← Simulator.handle_decode_stage st
    match od with
    | none => .ok st
    | some d => do
      let (st, ok1) ← Simulator.handle_execute_stage st d
      if !ok1 then .ok st
      else do
        let (st, ok2) ← Simulator.handle_memory_stage st d
        if !ok2 then .ok st
        else .ok (Simulator.update_program_counter st d)

/-- `Simulator._update_module_states`: commit the register file, tick both
memories, commit the program counter (register-file errors propagate as the
exception they raise). -/
def Simulator.update_module_states (st : SimulatorState) : Except String SimulatorState := do
  let rf ← match RegisterFile.update_state st.register_file with
    | .ok rf => Except.ok rf
    | .error e => Except.error e.1
  let imem := BaseMemory.update_state st.instruction_memory
  let dmem := BaseMemory.update_state st.data_memory
  let pc ← ProgramCounter.update_state st.program_counter
  .ok { st with register_file := rf
                instruction_memory := imem
                data_memory := dmem
                program_counter := pc }

/-- The loop body of `Simulator.run(num_cycles)`, with the remaining cycle
budget as fuel: execute a cycle, count it, stop on halt (without committing),
otherwise commit module states and continue. -/
def Simulator.run_loop : Nat → SimulatorState → Except String SimulatorState
  | 0, st => .ok st
  | n + 1, st => do
    let st1 ← Simulator.execute_cycle st
    let st2 := { st1 with cycle_count := st1.cycle_count + 1 }
    if st2.halted then .ok st2
    else do
      let st3 ← Simulator.update_module_states st2
      Simulator.run_loop n st3

/-- The error outcomes of `run_until_halt`: the watchdog `SimulationTimeout`
(carrying the cycle count) or any other propagated exception. -/
inductive SimulationError
  | timeout (cycle_count : Nat)
  | failure (msg : String)
deriving DecidableEq

/-- `Simulator.run_until_halt(max_cycles)`: consume the run generator, then
raise `SimulationTimeout(cycle_count)` iff `cycle_count >= max_cycles` and
the simulator did not halt (the `max_cycles = None` variant is an unbounded
loop and is not modelled). -/
def Simulator.run_until_halt (max_cycles : Nat) (st : SimulatorState) :
    Except SimulationError SimulationResult :=
  match Simulator.run_loop max_cycles st with
  | .error e => .error (.failure e)
  | .ok st2 =>
    if st2.cycle_count ≥ max_cycles ∧ ¬(st2.halted = true) then
      .error (.timeout st2.cycle_count)
    else
      .ok ⟨st2.cycle_count, st2⟩

/-- `Simulator.reset` followed by `load_binary`: fresh module states and the
side-loaded instruction image. -/
def Simulator.initial_state (binary : List Nat) : SimulatorState :=
  { instruction_memory := { memory := InstructionMemory.side_load_from binary 0 } }

lemma handle_fetch_stage_cycle_count (st st1 : SimulatorState) (b : Bool)
    (h : Simulator.handle_fetch_stage st = .ok (st1, b)) :
    st1.cycle_count = st.cycle_count := by
  unfold Simulator.handle_fetch_stage at h
  simp only [] at h
  cases hso : BaseMemory.start_operation INSTRUCTION_FETCH_LATENCY_CYCLES
      st.instruction_memory st.program_counter.value.unsigned_value none with
  | error e => rw [hso] at h; simp [bind, Except.bind] at h
  | ok m =>
    rw [hso] at h
    simp only [bind, Except.bind] at h
    rcases hoc : BaseMemory.operation_complete m with ⟨ready, imem2⟩
    rw [hoc] at h
    cases ready <;>
      · simp only [Except.ok.injEq, Prod.mk.injEq] at h
        rw [← h.1]

lemma handle_decode_stage_cycle_count (st st1 : SimulatorState)
    (od : Option DecodedInstruction)
    (h : Simulator.handle_decode_stage st = .ok (st1, od)) :
    st1.cycle_count = st.cycle_count := by
  unfold Simulator.handle_decode_stage at h
  cases hrv : BaseMemory.read_value st.instruction_memory with
  | error e => rw [hrv] at h; simp [bind, Except.bind] at h
  | ok p =>
    rcases p with ⟨instru, imem⟩
    rw [hrv] at h
    simp only [bind, Except.bind] at h
    cases hdec : DecodeUnit.decode instru with
    | error e => rw [hdec] at h; simp [bind, Except.bind] at h
    | ok d =>
      rw [hdec] at h
      simp only [bind, Except.bind] at h
      cases hhalt : d.halt_instruction <;>
        · simp only [hhalt, Bool.false_eq_true, if_false, if_true, ite_true, ite_false,
            Except.ok.injEq, Prod.mk.injEq] at h
          rw [← h.1]

lemma execute_alu_operation_cycle_count (st st2 : SimulatorState) (d : DecodedInstruction)
    (operand_b : DataBusValue)
    (h : Simulator.execute_alu_operation st d operand_b = .ok st2) :
    st2.cycle_count = st.cycle_count := by
  unfold Simulator.execute_alu_operation at h
  cases haf : d.alu_function with
  | none => rw [haf] at h; simp at h
  | some f =>
    rw [haf] at h
    simp only [Except.ok.injEq] at h
    rw [← h]

lemma handle_register_operation_cycle_count (st st1 : SimulatorState)
    (d : DecodedInstruction) (b : Bool)
    (h : Simulator.handle_register_operation st d = .ok (st1, b)) :
    st1.cycle_count = st.cycle_count := by
  unfold Simulator.handle_register_operation at h
  split at h
  · simp only [Except.ok.injEq, Prod.mk.injEq] at h
    rw [← h.1]
  · split at h
    · simp only [Except.ok.injEq, Prod.mk.injEq] at h
      rw [← h.1]
    · split at h
      · simp only [Except.ok.injEq, Prod.mk.injEq] at h
        rw [← h.1]
      · simp at h

lemma handle_execute_stage_cycle_count (st st1 : SimulatorState) (d : DecodedInstruction)
    (b : Bool) (h : Simulator.handle_execute_stage st d = .ok (st1, b)) :
    st1.cycle_count = st.cycle_count := by
  unfold Simulator.handle_execute_stage at h
  split at h
  · simp only [] at h
    cases hao : Simulator.execute_alu_operation st d (Simulator.get_alu_operand_b st d) with
    | error e => rw [hao] at h; simp [bind, Except.bind] at h
    | ok s2 =>
      rw [hao] at h
      simp only [bind, Except.bind, Except.ok.injEq, Prod.mk.injEq] at h
      rw [← h.1]
      exact execute_alu_operation_cycle_count st s2 d _ hao
  · split at h
    · exact handle_register_operation_cycle_count st st1 d b h
    · simp only [Except.ok.injEq, Prod.mk.injEq] at h
      rw [← h.1]

lemma handle_memory_load_cycle_count (st st1 : SimulatorState) (b : Bool)
    (h : Simulator.handle_memory_load st = .ok (st1, b)) :
    st1.cycle_count = st.cycle_count := by
  unfold Simulator.handle_memory_load at h
  simp only [] at h
  cases hso : BaseMemory.start_operation MEMORY_LATENCY_CYCLES st.data_memory
      (RegisterFile.get_dmar_value st.register_file).unsigned_value none with
  | error e => rw [hso] at h; simp [bind, Except.bind] at h
  | ok m =>
    rw [hso] at h
    simp only [bind, Except.bind] at h
    rcases hoc : BaseMemory.operation_complete m with ⟨ready, dmem2⟩
    rw [hoc] at h
    cases ready with
    | false =>
      simp only [Except.ok.injEq, Prod.mk.injEq] at h
      rw [← h.1]
    | true =>
      simp only [bind, Except.bind] at h
      cases hrv : BaseMemory.read_value dmem2 with
      | error e => rw [hrv] at h; simp [bind, Except.bind] at h
      | ok p =>
        rcases p with ⟨v, dmem3⟩
        rw [hrv] at h
        simp only [bind, Except.bind, Except.ok.injEq, Prod.mk.injEq] at h
        rw [← h.1]

lemma handle_memory_store_cycle_count (st st1 : SimulatorState) (b : Bool)
    (h : Simulator.handle_memory_store st = .ok (st1, b)) :
    st1.cycle_count = st.cycle_count := by
  unfold Simulator.handle_memory_store at h
  cases hso : BaseMemory.start_operation MEMORY_LATENCY_CYCLES st.data_memory
      (RegisterFile.get_dmar_value st.register_file).unsigned_value
      (some (RegisterFile.get_acc_value st.register_file).unsigned_value) with
  | error e => rw [hso] at h; simp [bind, Except.bind] at h
  | ok m =>
    rw [hso] at h
    simp only [bind, Except.bind] at h
    rcases hsc : DataMemory.store_complete m with ⟨complete, dmem2⟩
    rw [hsc] at h
    cases complete <;>
      · simp only [Except.ok.injEq, Prod.mk.injEq] at h
        rw [← h.1]

lemma handle_memory_stage_cycle_count (st st1 : SimulatorState) (d : DecodedInstruction)
    (b : Bool) (h : Simulator.handle_memory_stage st d = .ok (st1, b)) :
    st1.cycle_count = st.cycle_count := by
  unfold Simulator.handle_memory_stage at h
  split at h
  · simp only [Except.ok.injEq, Prod.mk.injEq] at h
    rw [← h.1]
  · split at h
    · exact handle_memory_load_cycle_count st st1 b h
    · split at h
      · exact handle_memory_store_cycle_count st st1 b h
      · simp at h

lemma update_program_counter_cycle_count (st : SimulatorState) (d : DecodedInstruction) :
    (Simulator.update_program_counter st d).cycle_count = st.cycle_count := by
  unfold Simulator.update_program_counter Simulator.handle_jump_instruction
  split
  · rfl
  · split
    · split <;> (try split) <;> rfl
    · rfl

lemma update_module_states_cycle_count (st st3 : SimulatorState)
    (h : Simulator.update_module_states st = .ok st3) :
    st3.cycle_count = st.cycle_count := by
  unfold Simulator.update_module_states at h
  cases hrf : RegisterFile.update_state st.register_file with
  | error e => rw [hrf] at h; simp [bind, Except.bind] at h
  | ok rf =>
    rw [hrf] at h
    simp only [bind, Except.bind] at h
    cases hpc : ProgramCounter.update_state st.program_counter with
    | error e => rw [hpc] at h; simp [bind, Except.bind] at h
    | ok pc =>
      rw [hpc] at h
      simp only [bind, Except.bind, Except.ok.injEq] at h
      rw [← h]

lemma execute_cycle_cycle_count (st st1 : SimulatorState)
    (h : Simulator.execute_cycle st = .ok st1) :
    st1.cycle_count = st.cycle_count := by
  unfold Simulator.execute_cycle at h
  cases hf : Simulator.handle_fetch_stage st with
  | error e => rw [hf] at h; simp [bind, Except.bind] at h
  | ok p =>
    rcases p with ⟨stA, proceed⟩
    rw [hf] at h
    simp only [bind, Except.bind] at h
    have hfc := handle_fetch_stage_cycle_count st stA proceed hf
    cases proceed with
    | false =>
      simp only [Bool.not_false, if_true, ite_true, Except.ok.injEq] at h
      rw [← h]
      exact hfc
    | true =>
      simp only [Bool.not_true, if_false, ite_false, Bool.false_eq_true] at h
      cases hd : Simulator.handle_decode_stage stA with
      | error e => rw [hd] at h; simp [bind, Except.bind] at h
      | ok q =>
        rcases q with ⟨stB, od⟩
        rw [hd] at h
        simp only [bind, Except.bind] at h
        have hdc := handle_decode_stage_cycle_count stA stB od hd
        cases od with
        | none =>
          simp only [Except.ok.injEq] at h
          rw [← h]
          omega
        | some d =>
          simp only [] at h
          cases he : Simulator.handle_execute_stage stB d with
          | error e => rw [he] at h; simp [bind, Except.bind] at h
          | ok q2 =>
            rcases q2 with ⟨stC, ok1⟩
            rw [he] at h
            simp only [bind, Except.bind] at h
            have hec := handle_execute_stage_cycle_count stB stC d ok1 he
            cases ok1 with
            | false =>
              simp only [Bool.not_false, if_true, ite_true, Except.ok.injEq] at h
              rw [← h]
              omega
            | true =>
              simp only [Bool.not_true, if_false, ite_false, Bool.false_eq_true] at h
              cases hm : Simulator.handle_memory_stage stC d with
              | error e => rw [hm] at h; simp [bind, Except.bind] at h
              | ok q3 =>
                rcases q3 with ⟨stD, ok2⟩
                rw [hm] at h
                simp only [bind, Except.bind] at h
                have hmc := handle_memory_stage_cycle_count stC stD d ok2 hm
                cases ok2 with
                | false =>
                  simp only [Bool.not_false, if_true, ite_true, Except.ok.injEq] at h
                  rw [← h]
                  omega
                | true =>
                  simp only [Bool.not_true, if_false, ite_false, Bool.false_eq_true,
                    Except.ok.injEq] at h
                  rw [← h]
                  rw [update_program_counter_cycle_count stD d]
                  omega

lemma run_loop_cycle_count :
    ∀ (n : Nat) (st st2 : SimulatorState), Simulator.run_loop n st = .ok st2 →
      st2.halted = false → st2.cycle_count = st.cycle_count + n := by
  intro n
  induction n with
  | zero =>
    intro st st2 h hh
    simp only [Simulator.run_loop, Except.ok.injEq] at h
    rw [← h]
    omega
  | succ n ih =>
    intro st st2 h hh
    simp only [Simulator.run_loop] at h
    cases hec : Simulator.execute_cycle st with
    | error e => rw [hec] at h; simp [bind, Except.bind] at h
    | ok st1 =>
      rw [hec] at h
      simp only [bind, Except.bind] at h
      cases hh1 : st1.halted with
      | true =>
        simp only [hh1, if_true, ite_true, Except.ok.injEq] at h
        rw [← h] at hh
        simp at hh
      | false =>
        simp only [hh1, Bool.false_eq_true, if_false, ite_false] at h
        cases hums : Simulator.update_module_states
            { cycle_count := st1.cycle_count + 1, halted := false, stalled := st1.stalled,
              instruction_memory := st1.instruction_memory, data_memory := st1.data_memory,
              register_file := st1.register_file, program_counter := st1.program_counter } with
        | error e => rw [hums] at h; simp [bind, Except.bind] at h
        | ok st3 =>
          rw [hums] at h
          simp only [] at h
          have h3 := ih st3 st2 h hh
          have hec_c := execute_cycle_cycle_count st st1 hec
          have hums_c := update_module_states_cycle_count _ st3 hums
          simp only [] at hums_c
          omega

/-- Whether `max_cycles` full cycles complete without the simulator halting
(and without a propagated runtime error). -/
def completes_without_halt (binary : List Nat) (max_cycles : Nat) : Bool :=
  match Simulator.run_loop max_cycles (Simulator.initial_state binary) with
  | .ok st => !st.halted
  | .error _ => false

/-- C9: for any loaded program, `run_until_halt(max_cycles)` raises
`SimulationTimeout` carrying the cycle count (= `max_cycles`) iff
`max_cycles` cycles complete without the simulator halting; a program that
halts within `max_cycles` returns a normal `SimulationResult`; and the
timeout error is a constructor distinct from every other propagated error. -/
theorem run_until_halt_timeout_iff (binary : List Nat) (max_cycles : Nat) :
    (Simulator.run_until_halt max_cycles (Simulator.initial_state binary) =
        .error (.timeout max_cycles) ↔
      completes_without_halt binary max_cycles = true) ∧
    (∀ st2, Simulator.run_loop max_cycles (Simulator.initial_state binary) = .ok st2 →
      st2.halted = true →
      Simulator.run_until_halt max_cycles (Simulator.initial_state binary) =
        .ok ⟨st2.cycle_count, st2⟩) ∧
    (∀ n msg, SimulationError.timeout n ≠ SimulationError.failure msg) := by
  refine ⟨?_, ?_, ?_⟩
  · unfold Simulator.run_until_halt completes_without_halt
    cases hr : Simulator.run_loop max_cycles (Simulator.initial_state binary) with
    | error e => simp
    | ok st2 =>
      simp only []
      cases hhalt : st2.halted with
      | true =>
        rw [if_neg (by simp [hhalt])]
        simp [hhalt]
      | false =>
        have hcc := run_loop_cycle_count max_cycles (Simulator.initial_state binary) st2 hr hhalt
        have h0 : (Simulator.initial_state binary).cycle_count = 0 := rfl
        have hc2 : st2.cycle_count = max_cycles := by omega
        rw [if_pos ⟨by omega, by simp [hhalt]⟩]
        rw [hc2]
        simp [hhalt]
  · intro st2 hr hhalt
    unfold Simulator.run_until_halt
    rw [hr]
    simp only []
    rw [if_neg (by simp [hhalt])]
  · intro n msg
    simp

/-- C9, witness: a single NOP (word 0x0000) never halts, so a 15-cycle
watchdog fires with cycle count 15. -/
theorem run_until_halt_timeout_iff_witness :
    Simulator.run_until_halt 15 (Simulator.initial_state [0x00, 0x00]) =
      .error (.timeout 15) :=
  (run_until_halt_timeout_iff [0x00, 0x00] 15).1.mpr (by decide)

/-- C5, counterexample: on the program `SET 1; HALT` the first cycle stalls
on the 10-cycle instruction fetch, yet the commit step still runs for it —
observable because the fetch countdown has already ticked from 10 down to 9
after that cycle.  Under the claim, no commit (hence no tick) would run on a
stalled cycle and the countdown would still be 10. -/
theorem run_commits_on_stalled_cycle :
    (Simulator.run_loop 1 (Simulator.initial_state [0x44, 0x01, 0x08, 0x00])).toOption.map
        (fun st => (st.stalled, st.instruction_memory.remaining_cycles)) =
      some (true, some 9) := by
  rfl

/-- C5, amended: one iteration of the run loop applies the module-state
commit (`_update_module_states`) after the stage sequence iff the cycle did
not halt; whether the cycle stalled is irrelevant (stalled cycles commit
too, which is what makes the memory-latency countdowns progress). -/
theorem run_loop_commits_iff_not_halted (n : Nat) (st st1 : SimulatorState)
    (hexec : Simulator.execute_cycle st = .ok st1) :
    (st1.halted = true →
      Simulator.run_loop (n + 1) st = .ok { st1 with cycle_count := st1.cycle_count + 1 }) ∧
    (st1.halted = false →
      Simulator.run_loop (n + 1) st =
        (Simulator.update_module_states
            { st1 with cycle_count := st1.cycle_count + 1 }).bind (Simulator.run_loop n)) := by
  constructor
  · intro hh
    simp only [Simulator.run_loop]
    rw [hexec]
    simp only [bind, Except.bind, hh, if_true, ite_true]
  · intro hh
    simp only [Simulator.run_loop]
    rw [hexec]
    simp only [bind, Except.bind, hh, Bool.false_eq_true, if_false, ite_false]

/-- The state after the first (stalled) cycle of `SET 1; HALT`. -/
def first_cycle_state : SimulatorState :=
  (Simulator.execute_cycle
    (Simulator.initial_state [0x44, 0x01, 0x08, 0x00])).toOption.getD
      (Simulator.initial_state [])

/-- C5, witness for the amended theorem at the first (stalled, non-halting)
cycle of `SET 1; HALT`. -/
theorem run_loop_commits_iff_not_halted_witness :
    (first_cycle_state.halted = true →
      Simulator.run_loop (0 + 1) (Simulator.initial_state [0x44, 0x01, 0x08, 0x00]) =
        .ok { first_cycle_state with cycle_count := first_cycle_state.cycle_count + 1 }) ∧
    (first_cycle_state.halted = false →
      Simulator.run_loop (0 + 1) (Simulator.initial_state [0x44, 0x01, 0x08, 0x00]) =
        (Simulator.update_module_states
            { first_cycle_state with
                cycle_count := first_cycle_state.cycle_count + 1 }).bind
          (Simulator.run_loop 0)) :=
  run_loop_commits_iff_not_halted 0 (Simulator.initial_state [0x44, 0x01, 0x08, 0x00])
    first_cycle_state (by rfl)

/-- C4, counterexample: on `SET 1; HALT`, after the 11th cycle (the cycle
that executes SET and commits it: ACC becomes 1) the pending
accumulator buffer is NOT empty — it still holds 1 — and it is still
occupied when the simulator halts at cycle 22. -/
theorem pending_buffers_survive_commit_and_halt :
    ((Simulator.run_loop 11 (Simulator.initial_state [0x44, 0x01, 0x08, 0x00])).toOption.map
        (fun st => (st.register_file.pending_accumulator,
          st.register_file.registers .ACC)) = some (some ⟨1⟩, ⟨1⟩)) ∧
    ((Simulator.run_loop 30 (Simulator.initial_state [0x44, 0x01, 0x08, 0x00])).toOption.map
        (fun st => (st.halted, st.register_file.pending_accumulator)) =
      some (true, some ⟨1⟩)) := by
  exact ⟨rfl, rfl⟩

/-! ### The assembler (`turtle_toolkit/assembler.py` and the text tables of
`turtle_toolkit/common/instruction_data.py`) -/

/-- `str.upper` on one character.  The assembler's tables and operands are
ASCII, so only the range `a`-`z` is mapped. -/
def pyCharUpper (c : Char) : Char :=
  if 'a' ≤ c ∧ c ≤ 'z' then Char.ofNat (c.toNat - 32) else c

/-- `str.upper` (ASCII). -/
def pyUpper (s : String) : String := ⟨s.data.map pyCharUpper⟩

/-- `str.strip()` with no argument: remove leading and trailing
whitespace. -/
def pyStrip (s : String) : String :=
  ⟨((s.data.dropWhile Char.isWhitespace).reverse.dropWhile Char.isWhitespace).reverse⟩

/-- Whether the first character list starts the second. -/
def leadsList : List Char → List Char → Bool
  | [], _ => true
  | _ :: _, [] => false
  | a :: as, b :: bs => a == b && leadsList as bs

/-- Whether the first list occurs contiguously inside the second. -/
def hasSub : List Char → List Char → Bool
  | ns, [] => ns.isEmpty
  | ns, h :: hs => leadsList ns (h :: hs) || hasSub ns hs

/-- Python `needle in hay` for strings. -/
def strContains (hay needle : String) : Bool := hasSub needle.data hay.data

/-- Python `s.startswith(pre)`. -/
def strStartsWith (s pre : String) : Bool := leadsList pre.data s.data

/-- `NOP_OPCODE_TEXTS`. -/
def NOP_OPCODE_TEXTS : List String := ["NOP"]

/-- `HALT_OPCODE_TEXTS`. -/
def HALT_OPCODE_TEXTS : List String := ["HALT"]

/-- `ARITH_LOGIC_OPCODE_TEXTS = set(ArithLogicFunction.__members__.keys())`.
The Python sets are modelled as lists; only membership is ever used. -/
def ARITH_LOGIC_OPCODE_TEXTS : List String := ["ADD", "SUB", "AND", "OR", "XOR", "INV"]

/-- `ARITH_LOGIC_IMM_OPCODE_TEXTS`: the non-`INV` function names suffixed
with `I`. -/
def ARITH_LOGIC_IMM_OPCODE_TEXTS : List String := ["ADDI", "SUBI", "ANDI", "ORI", "XORI"]

/-- `REG_OPCODE_TEXTS`. -/
def REG_OPCODE_TEXTS : List String := ["GET", "PUT"]

/-- `REG_IMM_OPCODE_TEXTS`. -/
def REG_IMM_OPCODE_TEXTS : List String := ["SET"]

/-- `MEMORY_OPCODE_TEXTS`. -/
def MEMORY_OPCODE_TEXTS : List String := ["LOAD", "STORE"]

/-- `JUMP_IMM_OPCODE_TEXTS`. -/
def JUMP_IMM_OPCODE_TEXTS : List String := ["JMPI"]

/-- `JUMP_OPCODE_FUNC_MAP`. -/
def JUMP_OPCODE_FUNC_MAP : List (String × JumpFunction) :=
  [("JMPR", .JUMP_RELATIVE), ("JMP", .JUMP_ABSOLUTE)]

/-- `JUMP_REG_OPCODE_TEXTS = set(JUMP_OPCODE_FUNC_MAP.keys())`. -/
def JUMP_REG_OPCODE_TEXTS : List String := ["JMPR", "JMP"]

/-- `BRANCH_OPCODE_CONDITION_MAP`. -/
def BRANCH_OPCODE_CONDITION_MAP : List (String × BranchCondition) :=
  [("BZ", .ZERO), ("BNZ", .NOT_ZERO), ("BP", .POSITIVE), ("BN", .NEGATIVE),
   ("BCS", .CARRY_SET), ("BCC", .CARRY_CLEARED), ("BOS", .OVERFLOW_SET),
   ("BOC", .OVERFLOW_CLEARED)]

/-- `BRANCH_OPCODE_TEXTS`. -/
def BRANCH_OPCODE_TEXTS : List String := BRANCH_OPCODE_CONDITION_MAP.map Prod.fst

/-- `NO_OPERAND = JUMP_REG_OPCODE_TEXTS | MEMORY_OPCODE_TEXTS | {"INV"}`. -/
def NO_OPERAND : List String := JUMP_REG_OPCODE_TEXTS ++ MEMORY_OPCODE_TEXTS ++ ["INV"]

/-- `REG_OPERAND = REG_OPCODE_TEXTS | (ARITH_LOGIC_OPCODE_TEXTS - {"INV"})`
(Python set difference binds tighter than union). -/
def REG_OPERAND : List String := REG_OPCODE_TEXTS ++ ["ADD", "SUB", "AND", "OR", "XOR"]

/-- `DATA_IMM_OPERAND = ARITH_LOGIC_IMM_OPCODE_TEXTS | REG_IMM_OPCODE_TEXTS`. -/
def DATA_IMM_OPERAND : List String := ARITH_LOGIC_IMM_OPCODE_TEXTS ++ REG_IMM_OPCODE_TEXTS

/-- `ADDR_IMM_OPERAND = JUMP_IMM_OPCODE_TEXTS | BRANCH_OPCODE_TEXTS`. -/
def ADDR_IMM_OPERAND : List String := JUMP_IMM_OPCODE_TEXTS ++ BRANCH_OPCODE_TEXTS

/-- `ArithLogicFunction.__members__`: name-to-member lookup. -/
def ArithLogicFunction.members : List (String × ArithLogicFunction) :=
  [("ADD", .ADD), ("SUB", .SUB), ("AND", .AND), ("OR", .OR), ("XOR", .XOR), ("INV", .INV)]

/-- `RegMemoryFunction.__members__`. -/
def RegMemoryFunction.members : List (String × RegMemoryFunction) :=
  [("LOAD", .LOAD), ("STORE", .STORE), ("GET", .GET), ("PUT", .PUT), ("SET", .SET)]

/-- `RegisterIndex.__members__`. -/
def RegisterIndex.members : List (String × RegisterIndex) :=
  [("R0", .R0), ("R1", .R1), ("R2", .R2), ("R3", .R3), ("R4", .R4), ("R5", .R5),
   ("R6", .R6), ("R7", .R7), ("ACC", .ACC), ("DBAR", .DBAR), ("DOFF", .DOFF),
   ("IBAR", .IBAR), ("IOFF", .IOFF), ("STATUS", .STATUS)]

/-- The exceptions the assembler raises: `SyntaxError` (its own checks),
`ValueError` (Python `int(...)` and bus-value construction — never caught by
the assembler) and the `OverflowError` of `int.to_bytes`. -/
inductive AsmError
  | synErr (msg : String)
  | valErr (msg : String)
  | overflowErr (msg : String)
deriving DecidableEq

/-- One digit of `int(s, base)`, for the bases 16, 2 and 10 used here
(ASCII digits and letters). -/
def charDigitVal (base : Nat) (c : Char) : Option Nat :=
  let v : Option Nat :=
    if '0' ≤ c ∧ c ≤ '9' then some (c.toNat - 48)
    else if 'A' ≤ c ∧ c ≤ 'Z' then some (c.toNat - 55)
    else if 'a' ≤ c ∧ c ≤ 'z' then some (c.toNat - 87)
    else none
  match v with
  | some d => if d < base then some d else none
  | none => none

/-- `int(digits, base)` on the digit part: `none` for an empty string or any
invalid digit (Python raises `ValueError`). -/
def digitsVal (base : Nat) (cs : List Char) : Option Nat :=
  match cs with
  | [] => none
  | _ =>
    cs.foldlM (fun acc c => (charDigitVal base c).map (fun d => acc * base + d)) 0

/-- `Assembler.parse_immediate`.  An unrecognised shape raises
`SyntaxError`; a recognised prefix with bad digits raises `ValueError` from
`int(...)` (which the assembler never catches). `str.isdigit` is modelled on
ASCII digits. -/
def Assembler.parse_immediate (operand : String) : Except AsmError Int :=
  let operand : String := ⟨(pyStrip operand).data.filter (fun c => !(c == '_'))⟩
  if strStartsWith operand "0X" then
    match digitsVal 16 (operand.data.drop 2) with
    | some n => .ok (n : Int)
    | none => .error (.valErr ("invalid literal for int with base 16: " ++ operand))
  else if strStartsWith operand "0B" then
    match digitsVal 2 (operand.data.drop 2) with
    | some n => .ok (n : Int)
    | none => .error (.valErr ("invalid literal for int with base 2: " ++ operand))
  else if (operand.data.dropWhile (fun c => c == '-')).all Char.isDigit ∧
      operand.data.dropWhile (fun c => c == '-') ≠ [] then
    if strStartsWith operand "-" then
      match operand.data.drop 1 with
      | '-' :: _ => .error (.valErr ("invalid literal for int with base 10: " ++ operand))
      | ds =>
        match digitsVal 10 ds with
        | some n => .ok (-(n : Int))
        | none => .error (.valErr ("invalid literal for int with base 10: " ++ operand))
    else
      match digitsVal 10 operand.data with
      | some n => .ok (n : Int)
      | none => .error (.valErr ("invalid literal for int with base 10: " ++ operand))
  else
    .error (.synErr ("Invalid immediate: " ++ operand))

/-- `Assembler.replace_macros`: `NOP` becomes `ADDI 0`
(`ArithLogicFunction.ADD.name + "I"`), `HALT` becomes `JMPI 0` (the sole
member of `JUMP_IMM_OPCODE_TEXTS`); both reject an explicit operand. -/
def Assembler.replace_macros (instr : String) (operand : Option String) :
    Except AsmError (String × Option String) :=
  if instr ∈ NOP_OPCODE_TEXTS then
    if operand.isSome then .error (.synErr (instr ++ " does not take an operand"))
    else .ok ("ADDI", some "0")
  else if instr ∈ HALT_OPCODE_TEXTS then
    if operand.isSome then .error (.synErr (instr ++ " does not take an operand"))
    else .ok ("JMPI", some "0")
  else
    .ok (instr, operand)

/-- The union type of `assembler.Instruction.function`
(`ArithLogicFunction | RegMemoryFunction | JumpFunction`). -/
inductive FunctionField
  | alf (f : ArithLogicFunction)
  | rmf (f : RegMemoryFunction)
  | jf (f : JumpFunction)
deriving DecidableEq

/-- `.value` of whichever enum member the union holds. -/
def FunctionField.value : FunctionField → Nat
  | .alf f => f.value
  | .rmf f => f.value
  | .jf f => f.value

/-- `assembler.Instruction` with its dataclass field defaults (the
`source_line` field, used only to format comments, is omitted). -/
structure Instruction where
  conditional_branch : Bool := false
  branch_conditon : Option BranchCondition := none
  opcode : Opcode := .ARITH_LOGIC_IMM
  address_immediate : Option InstructionAddressBusValue := none
  function : FunctionField := .alf .ADD
  data_immediate : Option DataBusValue := some ⟨0⟩
  register : Option RegisterIndex := none
deriving DecidableEq

/-- Python truthiness of the optional operand string (`if operand:`). -/
def operandTruthy : Option String → Bool
  | none => false
  | some t => !(t == "")

/-- The body of `Assembler.parse_instruction` after its two normalisation
assignments: `opcode` and `operand` arrive uppercased and stripped.  The
`getD` defaults on the name lookups are dead: each lookup is guarded by the
corresponding membership test. -/
def Assembler.parse_instruction_body (opcode : String) (operand : Option String) :
    Except AsmError Instruction :=
  let instruction : Instruction := { conditional_branch := false }
  let instruction :=
    if opcode ∈ ARITH_LOGIC_OPCODE_TEXTS then
      { instruction with
          opcode := .ARITH_LOGIC
          function := .alf ((ArithLogicFunction.members.lookup opcode).getD .ADD) }
    else if opcode ∈ ARITH_LOGIC_IMM_OPCODE_TEXTS then
      { instruction with
          opcode := .ARITH_LOGIC_IMM
          function :=
            .alf ((ArithLogicFunction.members.lookup (opcode.dropRight 1)).getD .ADD) }
    else if opcode ∈ RegMemoryFunction.members.map Prod.fst then
      { instruction with
          opcode := .REG_MEMORY
          function := .rmf ((RegMemoryFunction.members.lookup opcode).getD .LOAD) }
    else if opcode ∈ JUMP_REG_OPCODE_TEXTS then
      { instruction with
          opcode := .JUMP_REG
          function := .jf ((JUMP_OPCODE_FUNC_MAP.lookup opcode).getD .JUMP_RELATIVE) }
    else if opcode ∈ JUMP_IMM_OPCODE_TEXTS then
      { instruction with opcode := .JUMP_IMM }
    else if opcode ∈ BRANCH_OPCODE_TEXTS then
      { instruction with
          conditional_branch := true
          branch_conditon := BRANCH_OPCODE_CONDITION_MAP.lookup opcode }
    else instruction
  if opcode ∈ NO_OPERAND then
    if operandTruthy operand then
      .error (.synErr (opcode ++ " does not take an operand"))
    else .ok instruction
  else if !operandTruthy operand then
    .error (.synErr (opcode ++ " requires an operand"))
  else
    let op := operand.getD ""
    if opcode ∈ REG_OPERAND then
      match RegisterIndex.members.lookup op with
      | none => .error (.synErr ("Invalid register: " ++ op))
      | some r => .ok { instruction with register := some r }
    else if opcode ∈ DATA_IMM_OPERAND then
      match Assembler.parse_immediate op with
      | .error e => .error e
      | .ok i =>
        match BusValue.make DATA_WIDTH i with
        | .error m => .error (.valErr m)
        | .ok v => .ok { instruction with data_immediate := some v }
    else if opcode ∈ ADDR_IMM_OPERAND then
      match Assembler.parse_immediate op with
      | .error e => .error e
      | .ok i =>
        match BusValue.make INSTRUCTION_ADDRESS_WIDTH i with
        | .error m => .error (.valErr m)
        | .ok v => .ok { instruction with address_immediate := some v }
    else
      .error (.synErr ("Unknown opcode: " ++ opcode))

/-- `Assembler.parse_instruction`: the two normalisation assignments
(`opcode.upper().strip()`; `operand.upper().strip() if operand else None`,
which keeps an empty operand falsy) followed by the body. -/
def Assembler.parse_instruction (opcode : String) (operand : Option String) :
    Except AsmError Instruction :=
  Assembler.parse_instruction_body (pyStrip (pyUpper opcode))
    (match operand with
     | none => none
     | some t => if t == "" then none else some (pyStrip (pyUpper t)))

/-- The integer `binary` accumulated by `Assembler.encode_instruction`
before serialisation. -/
def Assembler.encode_word (instr : Instruction) : Except AsmError Nat := do
  let binary : Nat := 0
  let binary ←
    if instr.conditional_branch then
      match instr.branch_conditon with
      | none => .error (.valErr "Branch condition is required for conditional branch")
      | some c =>
        match instr.address_immediate with
        | none => .error (.valErr "Address immediate is required for conditional branch")
        | some a => pure (binary ||| 1 ||| (c.value <<< 1) ||| (a.unsigned_value <<< 4))
    else
      pure (binary ||| (instr.opcode.value <<< 1))
  if instr.opcode = .ARITH_LOGIC then
    let binary := binary ||| (instr.function.value <<< 4)
    if instr.function ≠ .alf .INV then
      match instr.register with
      | none => .error (.valErr "Register is required for ARITH_LOGIC")
      | some r => pure (binary ||| (r.value <<< 8))
    else
      pure binary
  else if instr.opcode = .ARITH_LOGIC_IMM then
    let binary := binary ||| (instr.function.value <<< 4)
    match instr.data_immediate with
    | none => .error (.valErr "Data immediate is required for ARITH_LOGIC_IMM")
    | some d => pure (binary ||| (d.unsigned_value <<< 8))
  else if instr.opcode = .REG_MEMORY then
    let binary := binary ||| (instr.function.value <<< 4)
    match instr.register with
    | some r => pure (binary ||| (r.value <<< 8))
    | none =>
      match instr.data_immediate with
      | some d => pure (binary ||| (d.unsigned_value <<< 8))
      | none => pure binary
  else if instr.opcode = .JUMP_IMM then
    match instr.address_immediate with
    | none => .error (.valErr "Address immediate is required for JUMP_IMM")
    | some a => pure (binary ||| (a.unsigned_value <<< 4))
  else if instr.opcode = .JUMP_REG then
    let binary := binary ||| (instr.function.value <<< 4)
    match instr.register with
    | none => .error (.valErr "Register is required for JUMP_REG")
    | some r => pure (binary ||| (r.value <<< 8))
  else
    pure binary

/-- `Assembler.encode_instruction`: the accumulated word serialised by
`binary.to_bytes(2, byteorder="little")`, which raises `OverflowError` when
the word does not fit in two bytes. -/
def Assembler.encode_instruction (instr : Instruction) : Except AsmError (List Nat) := do
  let binary ← Assembler.encode_word instr
  if binary < 2 ^ 16 then
    pure [binary % 256, binary / 256]
  else
    .error (.overflowErr "int too big to convert")

/-- A word character of the line regex (`\w`, ASCII). -/
def isWordChar (c : Char) : Bool := c.isAlphanum || c == '_'

/-- The match of `LABEL_AND_INSTR_RE`, the line regex
`^\s*(?:(\w+):)?\s*(\w+)?(?:\s+(.+))?$`, returning its three groups
(`none` is a failed match).  The regex is deterministic here: the label
group commits exactly when a maximal word run is followed by `:` (skipping
it can never rescue a match, since the colon fits no later pattern), and
after a nonempty mnemonic run the `\s+(.+)` tail matches iff the remainder
starts with whitespace.  When no mnemonic run is present, `\s+(.+)` can
still match a non-word remainder by splitting the preceding whitespace run
(`rest2 ≠ rest3` below).  The callers strip every line first, so a
remainder consisting of whitespace only is empty and the all-whitespace
tail subtleties of the raw regex cannot arise. -/
def lexLine (line : String) : Option (Option String × Option String × Option String) :=
  let cs1 := line.data.dropWhile Char.isWhitespace
  let w1 := cs1.takeWhile isWordChar
  let labelRest : Option String × List Char :=
    if w1 ≠ [] ∧ (cs1.drop w1.length).head? = some ':' then
      (some (String.mk w1), cs1.drop (w1.length + 1))
    else (none, cs1)
  let label := labelRest.1
  let rest2 := labelRest.2
  let rest3 := rest2.dropWhile Char.isWhitespace
  let w2 := rest3.takeWhile isWordChar
  let instrTok : Option String := if w2 = [] then none else some (String.mk w2)
  let rest4 := rest3.drop w2.length
  match rest4 with
  | [] => some (label, instrTok, none)
  | c :: _ =>
    if Char.isWhitespace c then
      let afterWs := rest4.dropWhile Char.isWhitespace
      if afterWs ≠ [] then some (label, instrTok, some (String.mk afterWs))
      else none
    else
      if w2 = [] ∧ rest2 ≠ rest3 then some (label, instrTok, some (String.mk rest4))
      else none

/-- An instruction recorded by the first pass of `parse_assembly`: either
fully parsed, or deferred to the second pass with the label reference and
the instruction address (`unresolved_instructions`). -/
inductive PassOneInstr
  | done (i : Instruction)
  | deferred (i : Instruction) (label_ref : String) (address : Nat)
deriving DecidableEq

/-- The accumulator of the first pass of `parse_assembly`. -/
structure PassOneState where
  labels : List (String × Nat) := []
  instructions : List PassOneInstr := []
  address : Nat := 0
deriving DecidableEq

/-- The first pass of `Assembler.parse_assembly`: strip comments, match the
line regex, record labels uppercased, parse instructions, and defer a
branch or `JMPI` whose operand raised `Invalid immediate:` as a label
reference.  The label table is modelled as a list with the most recent
definition first (the behaviour of a Python dict overwritten in place). -/
def Assembler.pass_one : List String → PassOneState → Except AsmError PassOneState
  | [], st => .ok st
  | line :: rest, st =>
    let clean := pyStrip ⟨line.data.takeWhile (fun c => !(c == ';'))⟩
    if clean == "" then Assembler.pass_one rest st
    else
      match lexLine clean with
      | none => .error (.synErr ("Invalid syntax: " ++ clean))
      | some (label, instrTok, operand0) =>
        let st1 := match label with
          | some l => { st with labels := (pyUpper l, st.address) :: st.labels }
          | none => st
        match instrTok with
        | none => Assembler.pass_one rest st1
        | some instrRaw =>
          match Assembler.replace_macros instrRaw operand0 with
          | .error e => .error e
          | .ok (instr, operand) =>
            match Assembler.parse_instruction instr operand with
            | .ok instruction =>
              Assembler.pass_one rest
                { st1 with
                    instructions := st1.instructions ++ [.done instruction]
                    address := st1.address + INSTRUCTION_WIDTH / 8 }
            | .error (.synErr msg) =>
              if strContains msg "Invalid immediate:" && operandTruthy operand &&
                  ((pyUpper instr) ∈ BRANCH_OPCODE_TEXTS ∨
                    (pyUpper instr) ∈ JUMP_IMM_OPCODE_TEXTS) then
                let instruction : Instruction :=
                  if (pyUpper instr) ∈ BRANCH_OPCODE_TEXTS then
                    { conditional_branch := true
                      branch_conditon := BRANCH_OPCODE_CONDITION_MAP.lookup (pyUpper instr) }
                  else if (pyUpper instr) ∈ JUMP_IMM_OPCODE_TEXTS then
                    { opcode := .JUMP_IMM }
                  else {}
                Assembler.pass_one rest
                  { st1 with
                      instructions := st1.instructions ++
                        [.deferred instruction (pyUpper (operand.getD "")) st1.address]
                      address := st1.address + INSTRUCTION_WIDTH / 8 }
              else .error (.synErr msg)
            | .error e => .error e

/-- The second pass of `Assembler.parse_assembly`: resolve each deferred
label reference against the table and store the PC-relative offset
`target_address - instr_address` as the address immediate. -/
def Assembler.pass_two (labels : List (String × Nat)) :
    List PassOneInstr → Except AsmError (List Instruction)
  | [] => .ok []
  | .done i :: rest => do
    let tl ← Assembler.pass_two labels rest
    pure (i :: tl)
  | .deferred i lref addr :: rest =>
    match labels.lookup lref with
    | none => .error (.synErr ("Undefined label: " ++ lref))
    | some target =>
      match BusValue.make INSTRUCTION_ADDRESS_WIDTH ((target : Int) - (addr : Int)) with
      | .error m => .error (.valErr m)
      | .ok v => do
        let tl ← Assembler.pass_two labels rest
        pure ({ i with address_immediate := some v } :: tl)

/-- `Assembler.parse_assembly`, on the `splitlines()` decomposition of the
source text.  Returns the parsed instructions and the label table. -/
def Assembler.parse_assembly (lines : List String) :
    Except AsmError (List Instruction × List (String × Nat)) := do
  let st ← Assembler.pass_one lines {}
  let instructions ← Assembler.pass_two st.labels st.instructions
  pure (instructions, st.labels)

/-- `Assembler.assemble`: parse then concatenate the two-byte encodings. -/
def Assembler.assemble (lines : List String) : Except AsmError (List Nat) := do
  let (instructions, _) ← Assembler.parse_assembly lines
  instructions.foldlM (fun acc i => do
      let bs ← Assembler.encode_instruction i
      pure (acc ++ bs)) []

/-- Macro replacement followed by instruction parsing: the treatment
`pass_one` applies to the mnemonic and operand of one source line. -/
def parseLine (instr : String) (operand : Option String) : Except AsmError Instruction :=
  match Assembler.replace_macros instr operand with
  | .error e => .error e
  | .ok (i, o) => Assembler.parse_instruction i o

lemma char_toNat_ofNat (n : Nat) (h : n < 55296) : (Char.ofNat n).toNat = n := by
  have hv : n.isValidChar := Or.inl h
  unfold Char.ofNat Char.toNat
  rw [dif_pos hv]
  rfl

lemma pyCharUpper_idem (c : Char) : pyCharUpper (pyCharUpper c) = pyCharUpper c := by
  by_cases h : 'a' ≤ c ∧ c ≤ 'z'
  · obtain ⟨ha, hb⟩ := h
    rw [Char.le_def] at ha hb
    have h97 : 97 ≤ c.toNat := ha
    have h122 : c.toNat ≤ 122 := hb
    have hup : pyCharUpper c = Char.ofNat (c.toNat - 32) := by
      unfold pyCharUpper
      rw [if_pos ⟨by rw [Char.le_def]; exact ha, by rw [Char.le_def]; exact hb⟩]
    rw [hup]
    unfold pyCharUpper
    rw [if_neg]
    intro hcon
    obtain ⟨hq, _⟩ := hcon
    rw [Char.le_def] at hq
    have hq2 : 97 ≤ (Char.ofNat (c.toNat - 32)).toNat := hq
    rw [char_toNat_ofNat _ (by omega)] at hq2
    omega
  · have hid : pyCharUpper c = c := by
      unfold pyCharUpper
      rw [if_neg h]
    rw [hid, hid]

lemma pyUpper_idem (s : String) : pyUpper (pyUpper s) = pyUpper s := by
  unfold pyUpper
  rw [List.map_map]
  congr 1
  apply List.map_congr_left
  intro c _
  exact pyCharUpper_idem c

lemma pyUpper_eq_empty_iff (s : String) : pyUpper s = "" ↔ s = "" := by
  constructor
  · intro h
    cases s with
    | mk l =>
      cases l with
      | nil => rfl
      | cons c cs =>
        have hd := congrArg String.data h
        simp [pyUpper] at hd
  · intro h
    rw [h]
    rfl

lemma replace_macros_id (s : String) (op : Option String)
    (h1 : s ∉ NOP_OPCODE_TEXTS) (h2 : s ∉ HALT_OPCODE_TEXTS) :
    Assembler.replace_macros s op = .ok (s, op) := by
  unfold Assembler.replace_macros
  rw [if_neg h1, if_neg h2]

/-- Both normalisation invariants of the first pass: every recorded label
key and every deferred label reference is a `pyUpper` fixed point. -/
lemma pass_one_normalized (lines : List String) :
    ∀ st st2, Assembler.pass_one lines st = .ok st2 →
      (∀ p ∈ st.labels, pyUpper p.1 = p.1) →
      (∀ i lref a, PassOneInstr.deferred i lref a ∈ st.instructions → pyUpper lref = lref) →
      (∀ p ∈ st2.labels, pyUpper p.1 = p.1) ∧
      (∀ i lref a, PassOneInstr.deferred i lref a ∈ st2.instructions →
        pyUpper lref = lref) := by
  induction lines with
  | nil =>
    intro st st2 hok h1 h2
    unfold Assembler.pass_one at hok
    injection hok with h
    subst h
    exact ⟨h1, h2⟩
  | cons line rest ih =>
    intro st st2 hok h1 h2
    unfold Assembler.pass_one at hok
    simp only [] at hok
    split at hok
    · exact ih st st2 hok h1 h2
    · split at hok
      · cases hok
      · rename_i label instrTok operand0 hlex
        cases label with
        | none =>
          simp only [] at hok
          cases instrTok with
          | none => exact ih st st2 hok h1 h2
          | some instrRaw =>
            simp only [] at hok
            split at hok
            · cases hok
            · rename_i instr operand hmac
              split at hok
              · rename_i instruction hparse
                refine ih _ st2 hok h1 ?_
                intro i lref a hmem
                rcases List.mem_append.mp hmem with hm | hm
                · exact h2 i lref a hm
                · cases List.mem_singleton.mp hm
              · rename_i msg hparse
                split at hok
                · refine ih _ st2 hok h1 ?_
                  intro i lref a hmem
                  rcases List.mem_append.mp hmem with hm | hm
                  · exact h2 i lref a hm
                  · have heq := List.mem_singleton.mp hm
                    injection heq with _ hl _
                    rw [hl]
                    exact pyUpper_idem _
                · cases hok
              · cases hok
        | some l =>
          simp only [] at hok
          have h1' : ∀ p ∈ ((pyUpper l, st.address) :: st.labels), pyUpper p.1 = p.1 := by
            intro p hp
            rcases List.mem_cons.mp hp with hp | hp
            · rw [hp]
              exact pyUpper_idem _
            · exact h1 p hp
          cases instrTok with
          | none => exact ih _ st2 hok h1' h2
          | some instrRaw =>
            simp only [] at hok
            split at hok
            · cases hok
            · rename_i instr operand hmac
              split at hok
              · rename_i instruction hparse
                refine ih _ st2 hok h1' ?_
                intro i lref a hmem
                rcases List.mem_append.mp hmem with hm | hm
                · exact h2 i lref a hm
                · cases List.mem_singleton.mp hm
              · rename_i msg hparse
                split at hok
                · refine ih _ st2 hok h1' ?_
                  intro i lref a hmem
                  rcases List.mem_append.mp hmem with hm | hm
                  · exact h2 i lref a hm
                  · have heq := List.mem_singleton.mp hm
                    injection heq with _ hl _
                    rw [hl]
                    exact pyUpper_idem _
                · cases hok
              · cases hok

/-- C7, counterexample: mnemonic case-insensitivity fails for the two
macros.  `replace_macros` compares the raw mnemonic against `{"NOP"}` and
`{"HALT"}` before any uppercasing, so lowercase `nop` and `halt` are not
recognised as macros; they then reach `parse_instruction`, which uppercases
them into names that sit in no opcode table and, with no operand on the
line, raises `SyntaxError` — while the uppercase spellings assemble. -/
theorem lowercase_macros_rejected :
    Assembler.assemble ["nop"] = .error (.synErr "NOP requires an operand") ∧
      Assembler.assemble ["NOP"] = .ok [0x00, 0x00] ∧
      Assembler.assemble ["halt"] = .error (.synErr "HALT requires an operand") ∧
      Assembler.assemble ["HALT"] = .ok [0x08, 0x00] :=
  ⟨rfl, rfl, rfl, rfl⟩

/-- The first-pass state of the one-line program `End: HALT`. -/
def demo_pass_one_state : PassOneState :=
  (Assembler.pass_one ["End: HALT"] {}).toOption.getD {}

/-- C7, amended: (1) apart from the macros `NOP` and `HALT`, a source
mnemonic and operand are treated case-insensitively: two lines whose
mnemonic and operand agree up to `upper()` parse identically; (2) every
label key recorded by the first pass and every deferred label reference is
stored uppercased (is a `pyUpper` fixed point), so label definition and
resolution are case-insensitive; (3) a concrete mixed-case program
assembles to the same bytes as its uppercase spelling. -/
theorem assembler_case_insensitive_except_macros :
    (∀ s1 s2 op1 op2,
      pyUpper s1 = pyUpper s2 →
      Option.map pyUpper op1 = Option.map pyUpper op2 →
      pyUpper s1 ∉ NOP_OPCODE_TEXTS →
      pyUpper s1 ∉ HALT_OPCODE_TEXTS →
      parseLine s1 op1 = parseLine s2 op2) ∧
    (∀ lines st2, Assembler.pass_one lines {} = .ok st2 →
      (∀ p ∈ st2.labels, pyUpper p.1 = p.1) ∧
      (∀ i lref a, PassOneInstr.deferred i lref a ∈ st2.instructions →
        pyUpper lref = lref)) ∧
    (Assembler.assemble ["set 1", "add r0", "bz eND", "End: HALT"] =
        Assembler.assemble ["SET 1", "ADD R0", "BZ END", "END: HALT"] ∧
      Assembler.assemble ["set 1", "add r0", "bz eND", "End: HALT"] =
        .ok [0x44, 1, 2, 0, 0x21, 0, 8, 0]) := by
  refine ⟨?_, ?_, ⟨rfl, rfl⟩⟩
  · intro s1 s2 op1 op2 hs hop hn hh
    have hn1 : s1 ∉ NOP_OPCODE_TEXTS := by
      intro hmem
      apply hn
      have h : s1 = "NOP" := by simpa [NOP_OPCODE_TEXTS] using hmem
      rw [h]
      decide
    have hh1 : s1 ∉ HALT_OPCODE_TEXTS := by
      intro hmem
      apply hh
      have h : s1 = "HALT" := by simpa [HALT_OPCODE_TEXTS] using hmem
      rw [h]
      decide
    have hn' : pyUpper s2 ∉ NOP_OPCODE_TEXTS := hs ▸ hn
    have hh' : pyUpper s2 ∉ HALT_OPCODE_TEXTS := hs ▸ hh
    have hn2 : s2 ∉ NOP_OPCODE_TEXTS := by
      intro hmem
      apply hn'
      have h : s2 = "NOP" := by simpa [NOP_OPCODE_TEXTS] using hmem
      rw [h]
      decide
    have hh2 : s2 ∉ HALT_OPCODE_TEXTS := by
      intro hmem
      apply hh'
      have h : s2 = "HALT" := by simpa [HALT_OPCODE_TEXTS] using hmem
      rw [h]
      decide
    unfold parseLine
    rw [replace_macros_id s1 op1 hn1 hh1, replace_macros_id s2 op2 hn2 hh2]
    simp only []
    unfold Assembler.parse_instruction
    have hopn :
        (match op1 with
         | none => none
         | some t => if t == "" then none else some (pyStrip (pyUpper t))) =
        (match op2 with
         | none => none
         | some t => if t == "" then none else some (pyStrip (pyUpper t))) := by
      rcases op1 with _ | t1 <;> rcases op2 with _ | t2
      · rfl
      · simp at hop
      · simp at hop
      · simp only [Option.map] at hop
        injection hop with ht
        simp only []
        by_cases h1 : t1 = ""
        · have h2 : t2 = "" := by
            rw [h1] at ht
            exact (pyUpper_eq_empty_iff t2).mp ht.symm
          rw [h1, h2]
        · have h2 : t2 ≠ "" := by
            intro hc
            rw [hc] at ht
            exact h1 ((pyUpper_eq_empty_iff t1).mp ht)
          rw [if_neg (by simpa using h1), if_neg (by simpa using h2), ht]
    rw [hs, hopn]
    cases op2 <;> rfl
  · intro lines st2 hok
    exact pass_one_normalized lines {} st2 hok
      (fun p hp => absurd hp (List.not_mem_nil p))
      (fun i lref a hm => absurd hm (List.not_mem_nil _))

/-- Witness for `assembler_case_insensitive_except_macros`: the
case-insensitivity conjunct applied to `sEt x1` versus `SET X1`, and the
label-normalisation conjunct applied to the label of `End: HALT`. -/
theorem assembler_case_insensitive_except_macros_witness :
    parseLine "sEt" (some "x1") = parseLine "SET" (some "X1") ∧ pyUpper "END" = "END" :=
  ⟨assembler_case_insensitive_except_macros.1 "sEt" "SET" (some "x1") (some "X1")
      (by decide) (by decide) (by decide) (by decide),
    (assembler_case_insensitive_except_macros.2.1 ["End: HALT"] demo_pass_one_state
        (by rfl)).1 ("END", 0) (by decide)⟩


/-- Field agreement between a parsed instruction and the decode of its
encoded word, per applicable field: branch flag; branch condition; opcode
bits (for non-branch words); ALU function (for ALU opcodes); register/
memory function bits; register index; data immediate (where bits 8-15
carry it); address immediate (for branches and `JMPI`).  `false` whenever
the word does not decode. -/
def decode_agrees (i : Instruction) (w : Nat) : Bool :=
  match DecodeUnit.decode w with
  | .error _ => false
  | .ok d =>
    (d.branch_instruction == i.conditional_branch) &&
    (match i.branch_conditon with
     | some c => d.branch_condition == c
     | none => true) &&
    (i.conditional_branch || ((w >>> 1) &&& 7 == i.opcode.value)) &&
    (match i.function with
     | .alf f =>
       !(decide (i.conditional_branch = false ∧
           (i.opcode = .ARITH_LOGIC ∨ i.opcode = .ARITH_LOGIC_IMM))) ||
         (d.alu_function == some f)
     | .rmf f => (w >>> 4) &&& 0xF == f.value
     | .jf _ => true) &&
    (match i.register with
     | some r => d.register_index == r
     | none => true) &&
    (match i.data_immediate with
     | some v =>
       !(decide (i.conditional_branch = false ∧
           (i.opcode = .ARITH_LOGIC_IMM ∨
             (i.opcode = .REG_MEMORY ∧ i.register = none)))) ||
         (d.immediate_data_value == v)
     | none => true) &&
    (match i.address_immediate with
     | some a =>
       !(i.conditional_branch || decide (i.opcode = .JUMP_IMM)) ||
         (d.immediate_address_value == a)
     | none => true)

/-- The record shapes `parse_instruction` can return, together with the two
deferred-label shapes completed by the second pass: this is the inductive
invariant carried through `parse_assembly`. -/
def parser_shape (i : Instruction) : Prop :=
  (i.conditional_branch = false ∧ i.branch_conditon = none ∧ i.opcode = .ARITH_LOGIC ∧
    i.address_immediate = none ∧ i.data_immediate = some ⟨0⟩ ∧
    ((i.function = .alf .INV ∧ i.register = none) ∨
      (∃ f r, i.function = .alf f ∧ f ≠ .INV ∧ i.register = some r))) ∨
  (i.conditional_branch = false ∧ i.branch_conditon = none ∧
    i.opcode = .ARITH_LOGIC_IMM ∧ i.address_immediate = none ∧ i.register = none ∧
    (∃ f d, i.function = .alf f ∧ f ≠ .INV ∧ i.data_immediate = some d ∧ d.u < 256)) ∨
  (i.conditional_branch = false ∧ i.branch_conditon = none ∧ i.opcode = .REG_MEMORY ∧
    i.address_immediate = none ∧
    (∃ f, i.function = .rmf f ∧
      (((f = .GET ∨ f = .PUT) ∧ (∃ r, i.register = some r) ∧
          i.data_immediate = some ⟨0⟩) ∨
        (f = .SET ∧ i.register = none ∧ (∃ d, i.data_immediate = some d ∧ d.u < 256)) ∨
        ((f = .LOAD ∨ f = .STORE) ∧ i.register = none ∧
          i.data_immediate = some ⟨0⟩)))) ∨
  (i.conditional_branch = false ∧ i.branch_conditon = none ∧ i.opcode = .JUMP_REG ∧
    i.address_immediate = none ∧ i.register = none ∧ i.data_immediate = some ⟨0⟩ ∧
    ∃ f, i.function = .jf f) ∨
  (i.conditional_branch = false ∧ i.branch_conditon = none ∧ i.opcode = .JUMP_IMM ∧
    i.function = .alf .ADD ∧ i.register = none ∧ i.data_immediate = some ⟨0⟩ ∧
    ∃ a, i.address_immediate = some a ∧ a.u < 65536) ∨
  (i.conditional_branch = true ∧ (∃ c, i.branch_conditon = some c) ∧
    i.opcode = .ARITH_LOGIC_IMM ∧ i.function = .alf .ADD ∧ i.register = none ∧
    i.data_immediate = some ⟨0⟩ ∧ ∃ a, i.address_immediate = some a ∧ a.u < 65536)

lemma make_ok_u_lt {w : Nat} {i0 : Int} {v : BusValue w}
    (h : BusValue.make w i0 = .ok v) : v.u < 2 ^ w := by
  unfold BusValue.make at h
  split at h
  · cases h
  · split at h
    · cases h
    · injection h with h2
      rw [← h2]
      exact Nat.mod_lt _ (Nat.two_pow_pos w)

lemma or_and_absorb (a b : Nat) : (a ||| b) &&& b = b := by
  apply Nat.eq_of_testBit_eq
  intro j
  simp only [Nat.testBit_or, Nat.testBit_and]
  cases a.testBit j <;> cases b.testBit j <;> rfl

lemma le_or_right (a b : Nat) : b ≤ a ||| b := by
  conv_lhs => rw [← or_and_absorb a b]
  exact Nat.and_le_left

lemma le_or_left (a b : Nat) : a ≤ a ||| b := by
  rw [Nat.or_comm]
  exact le_or_right b a

/-- The record `DecodeUnit.decode` returns on success, with the three enum
lookups abstracted: every other field is the stated function of the word's
bit fields. -/
def decoded_word_record (inst : Nat) (c : BranchCondition)
    (af : Option ArithLogicFunction) (r : RegisterIndex) : DecodedInstruction := {
  halt_instruction := (inst >>> 0) &&& 0x01 == 0 &&
    (inst >>> 1) &&& 0b111 == Opcode.JUMP_IMM.value && (inst >>> 4) &&& 0xFFF == 0
  branch_instruction := (inst >>> 0) &&& 0x01 == 1
  branch_condition := c
  immediate_address_value := ⟨(inst >>> 4) &&& 0xFFF⟩
  alu_instruction := (inst >>> 0) &&& 0x01 == 0 &&
    ((inst >>> 1) &&& 0b111 == Opcode.ARITH_LOGIC_IMM.value ||
     (inst >>> 1) &&& 0b111 == Opcode.ARITH_LOGIC.value)
  alu_immediate_instruction := (inst >>> 1) &&& 0b111 == Opcode.ARITH_LOGIC_IMM.value
  alu_function := af
  register_index := r
  immediate_data_value := ⟨(inst >>> 8) &&& 0xFF⟩
  register_file_instruction := (inst >>> 0) &&& 0x01 == 0 &&
    (inst >>> 1) &&& 0b111 == Opcode.REG_MEMORY.value &&
    (inst >>> 4) &&& 0xF != RegMemoryFunction.LOAD.value &&
    (inst >>> 4) &&& 0xF != RegMemoryFunction.STORE.value
  register_file_set := (inst >>> 4) &&& 0xF == RegMemoryFunction.SET.value
  register_file_get := (inst >>> 4) &&& 0xF == RegMemoryFunction.GET.value
  register_file_put := (inst >>> 4) &&& 0xF == RegMemoryFunction.PUT.value
  memory_instruction := (inst >>> 0) &&& 0x01 == 0 &&
    (inst >>> 1) &&& 0b111 == Opcode.REG_MEMORY.value &&
    ((inst >>> 4) &&& 0xF == RegMemoryFunction.LOAD.value ||
     (inst >>> 4) &&& 0xF == RegMemoryFunction.STORE.value)
  memory_load := (inst >>> 4) &&& 0xF == RegMemoryFunction.LOAD.value
  memory_store := (inst >>> 4) &&& 0xF == RegMemoryFunction.STORE.value
  jump_instruction := (inst >>> 0) &&& 0x01 == 0 &&
    ((inst >>> 1) &&& 0b111 == Opcode.JUMP_IMM.value ||
     (inst >>> 1) &&& 0b111 == Opcode.JUMP_REG.value)
  immediate_jump := (inst >>> 1) &&& 0b111 == Opcode.JUMP_IMM.value
  relative_jump := (inst >>> 4) &&& 0xF == JumpFunction.JUMP_RELATIVE.value
}

lemma decode_ok_intro_none (inst : Nat) (c : BranchCondition) (r : RegisterIndex)
    (hc : BranchCondition.ofValue ((inst >>> 1) &&& 0b111) = .ok c)
    (hr : RegisterIndex.ofValue ((inst >>> 8) &&& 0xF) = .ok r)
    (hno : ((inst >>> 0) &&& 0x01 == 0 &&
      ((inst >>> 1) &&& 0b111 == Opcode.ARITH_LOGIC_IMM.value ||
       (inst >>> 1) &&& 0b111 == Opcode.ARITH_LOGIC.value)) = false) :
    DecodeUnit.decode inst = .ok (decoded_word_record inst c none r) := by
  have hia := BusValue.make16_ofNat ((inst >>> 4) &&& 0xFFF)
    (Nat.lt_of_lt_of_le (and4095_lt _) (by norm_num))
  have hid := BusValue.make8_ofNat ((inst >>> 8) &&& 0xFF) (and255_lt _)
  simp only [DecodeUnit.decode, INSTRUCTION_ADDRESS_WIDTH, DATA_WIDTH, hc, hia, hid]
  simp only [bind, Except.bind]
  rw [hno]
  simp only [Bool.false_eq_true, if_false]
  simp only [pure, Except.pure]
  rw [hr]
  unfold decoded_word_record
  rw [hno]

lemma decode_ok_intro_alu (inst : Nat) (c : BranchCondition) (f : ArithLogicFunction)
    (r : RegisterIndex)
    (hc : BranchCondition.ofValue ((inst >>> 1) &&& 0b111) = .ok c)
    (hr : RegisterIndex.ofValue ((inst >>> 8) &&& 0xF) = .ok r)
    (hyes : ((inst >>> 0) &&& 0x01 == 0 &&
      ((inst >>> 1) &&& 0b111 == Opcode.ARITH_LOGIC_IMM.value ||
       (inst >>> 1) &&& 0b111 == Opcode.ARITH_LOGIC.value)) = true)
    (hf : ArithLogicFunction.ofValue ((inst >>> 4) &&& 0xF) = .ok f) :
    DecodeUnit.decode inst = .ok (decoded_word_record inst c (some f) r) := by
  have hia := BusValue.make16_ofNat ((inst >>> 4) &&& 0xFFF)
    (Nat.lt_of_lt_of_le (and4095_lt _) (by norm_num))
  have hid := BusValue.make8_ofNat ((inst >>> 8) &&& 0xFF) (and255_lt _)
  simp only [DecodeUnit.decode, INSTRUCTION_ADDRESS_WIDTH, DATA_WIDTH, hc, hia, hid]
  simp only [bind, Except.bind]
  rw [hyes]
  simp only [if_true]
  rw [hf]
  simp only [pure, Except.pure]
  rw [hr]
  unfold decoded_word_record
  rw [hyes]

lemma branch_cond_ofValue_value (c : BranchCondition) :
    BranchCondition.ofValue c.value = .ok c := by
  cases c <;> rfl

lemma alu_fn_ofValue_value (f : ArithLogicFunction) :
    ArithLogicFunction.ofValue f.value = .ok f := by
  cases f <;> rfl

lemma reg_idx_ofValue_value (r : RegisterIndex) :
    RegisterIndex.ofValue r.value = .ok r := by
  cases r <;> rfl

lemma branch_cond_value_lt (c : BranchCondition) : c.value < 8 := by
  cases c <;> decide

lemma alu_fn_value_lt (f : ArithLogicFunction) : f.value < 16 := by
  cases f <;> decide

lemma rm_fn_value_lt (f : RegMemoryFunction) : f.value < 16 := by
  cases f <;> decide

lemma reg_idx_value_lt (r : RegisterIndex) : r.value < 16 := by
  cases r <;> decide

lemma or_shiftLeft_eq_add (A au k : Nat) (h : A < 2 ^ k) :
    A ||| (au <<< k) = 2 ^ k * au + A := by
  apply Nat.eq_of_testBit_eq
  intro j
  rw [Nat.testBit_mul_pow_two_add au h j, Nat.testBit_or, Nat.testBit_shiftLeft]
  by_cases hj : j < k
  · rw [if_pos hj]
    have hd : (decide (j ≥ k)) = false := by
      simp only [decide_eq_false_iff_not]
      omega
    rw [hd]
    simp
  · rw [if_neg hj]
    have hA : A.testBit j = false :=
      Nat.testBit_lt_two_pow
        (Nat.lt_of_lt_of_le h (Nat.pow_le_pow_right (by norm_num) (Nat.le_of_not_lt hj)))
    have hd : (decide (j ≥ k)) = true := by
      simp only [decide_eq_true_eq]
      omega
    rw [hA, hd]
    simp

lemma except_isOk_exists {α β : Type} (e : Except α β) (h : e.isOk = true) :
    ∃ b, e = .ok b := by
  cases e with
  | error a => simp [Except.isOk, Except.toBool] at h
  | ok b => exact ⟨b, rfl⟩

lemma shape_roundtrip (i : Instruction) (w : Nat)
    (hs : parser_shape i)
    (he : Assembler.encode_word i = .ok w)
    (hw : w < 2 ^ 16)
    (hreg : (RegisterIndex.ofValue ((w >>> 8) &&& 0xF)).isOk = true) :
    decode_agrees i w = true := by
  rcases hs with hsh | hsh | hsh | hsh | hsh | hsh
  · -- ARITH_LOGIC (register form and INV)
    obtain ⟨hcb, hbc, hop, haddr, hdat, hfr⟩ := hsh
    rcases hfr with ⟨hf, hregn⟩ | ⟨f, r0, hf, hfne, hregs⟩
    · -- INV
      unfold Assembler.encode_word at he
      rw [hcb, hop, hf] at he
      simp only [bind, Except.bind] at he
      simp only [Bool.false_eq_true, if_false, pure, Except.pure] at he
      simp only [if_true] at he
      rw [if_neg (by decide :
        ¬(FunctionField.alf ArithLogicFunction.INV ≠ FunctionField.alf ArithLogicFunction.INV))] at he
      simp only [FunctionField.value, ArithLogicFunction.value, Opcode.value] at he
      injection he with hW
      subst hW
      unfold decode_agrees
      rw [hcb, hbc, hop, hf, hdat, hregn, haddr]
      decide
    · -- ADD/SUB/AND/OR/XOR with register operand
      unfold Assembler.encode_word at he
      rw [hcb, hop, hf, hregs] at he
      simp only [bind, Except.bind] at he
      simp only [Bool.false_eq_true, if_false, pure, Except.pure] at he
      simp only [if_true] at he
      rw [if_pos (show FunctionField.alf f ≠ FunctionField.alf ArithLogicFunction.INV by
        intro hcon
        injection hcon with hcon2
        exact hfne hcon2)] at he
      simp only [FunctionField.value] at he
      injection he with hW
      subst hW
      have hfv := alu_fn_value_lt f
      have hrv := reg_idx_value_lt r0
      have hW2 : (0 ||| Opcode.ARITH_LOGIC.value <<< 1 ||| f.value <<< 4 ||| r0.value <<< 8) =
          256 * r0.value + (16 * f.value + 2) := by
        have e0 : (0 ||| Opcode.ARITH_LOGIC.value <<< 1 : Nat) = 2 := by decide
        rw [e0, or_shiftLeft_eq_add 2 f.value 4 (by norm_num),
          or_shiftLeft_eq_add (2 ^ 4 * f.value + 2) r0.value 8 (by omega)]
        ring
      rw [hW2] at hreg hw ⊢
      have hb0 : ((256 * r0.value + (16 * f.value + 2)) >>> 0) &&& 1 = 0 := by
        rw [Nat.shiftRight_eq_div_pow, show (1:Nat) = 2 ^ 1 - 1 from rfl,
          Nat.and_pow_two_sub_one_eq_mod]
        omega
      have hop3 : ((256 * r0.value + (16 * f.value + 2)) >>> 1) &&& 7 = 1 := by
        rw [Nat.shiftRight_eq_div_pow, show (7:Nat) = 2 ^ 3 - 1 from rfl,
          Nat.and_pow_two_sub_one_eq_mod]
        omega
      have hff : ((256 * r0.value + (16 * f.value + 2)) >>> 4) &&& 15 = f.value := by
        rw [Nat.shiftRight_eq_div_pow, show (15:Nat) = 2 ^ 4 - 1 from rfl,
          Nat.and_pow_two_sub_one_eq_mod]
        omega
      have hrf : ((256 * r0.value + (16 * f.value + 2)) >>> 8) &&& 15 = r0.value := by
        rw [Nat.shiftRight_eq_div_pow, show (15:Nat) = 2 ^ 4 - 1 from rfl,
          Nat.and_pow_two_sub_one_eq_mod]
        omega
      have hc : BranchCondition.ofValue
          (((256 * r0.value + (16 * f.value + 2)) >>> 1) &&& 7) = .ok .NOT_ZERO := by
        rw [hop3]
        rfl
      have hr : RegisterIndex.ofValue
          (((256 * r0.value + (16 * f.value + 2)) >>> 8) &&& 15) = .ok r0 := by
        rw [hrf]
        exact reg_idx_ofValue_value r0
      have hyes : (((256 * r0.value + (16 * f.value + 2)) >>> 0) &&& 0x01 == 0 &&
          (((256 * r0.value + (16 * f.value + 2)) >>> 1) &&& 0b111 ==
              Opcode.ARITH_LOGIC_IMM.value ||
           ((256 * r0.value + (16 * f.value + 2)) >>> 1) &&& 0b111 ==
              Opcode.ARITH_LOGIC.value)) = true := by
        rw [hb0, hop3]
        decide
      have haf : ArithLogicFunction.ofValue
          (((256 * r0.value + (16 * f.value + 2)) >>> 4) &&& 0xF) = .ok f := by
        rw [hff]
        exact alu_fn_ofValue_value f
      have hdec := decode_ok_intro_alu _ .NOT_ZERO f r0 hc hr hyes haf
      unfold decode_agrees
      rw [hdec]
      simp only []
      rw [hcb, hbc, hop, hf, hdat, hregs, haddr]
      simp only [decoded_word_record]
      rw [hb0, hop3]
      simp [Opcode.value]
  · -- ARITH_LOGIC_IMM
    obtain ⟨hcb, hbc, hop, haddr, hregn, f, d, hf, hfne, hd, hdu⟩ := hsh
    obtain ⟨du⟩ := d
    simp only [] at hdu
    unfold Assembler.encode_word at he
    rw [hcb, hop, hf, hd] at he
    simp only [bind, Except.bind] at he
    simp only [Bool.false_eq_true, if_false, pure, Except.pure] at he
    rw [if_neg (by decide : ¬(Opcode.ARITH_LOGIC_IMM = Opcode.ARITH_LOGIC))] at he
    simp only [if_true] at he
    simp only [FunctionField.value, BusValue.unsigned_value, DATA_WIDTH] at he
    rw [Nat.mod_eq_of_lt (show du < 2 ^ 8 by omega)] at he
    injection he with hW
    subst hW
    have hfv := alu_fn_value_lt f
    have hW2 : (0 ||| Opcode.ARITH_LOGIC_IMM.value <<< 1 ||| f.value <<< 4 ||| du <<< 8) =
        256 * du + 16 * f.value := by
      have e0 : (0 ||| Opcode.ARITH_LOGIC_IMM.value <<< 1 : Nat) = 0 := by decide
      rw [e0, or_shiftLeft_eq_add 0 f.value 4 (by norm_num),
        or_shiftLeft_eq_add (2 ^ 4 * f.value + 0) du 8 (by omega)]
      ring
    rw [hW2] at hreg hw ⊢
    have hb0 : ((256 * du + 16 * f.value) >>> 0) &&& 1 = 0 := by
      rw [Nat.shiftRight_eq_div_pow, show (1:Nat) = 2 ^ 1 - 1 from rfl,
        Nat.and_pow_two_sub_one_eq_mod]
      omega
    have hop3 : ((256 * du + 16 * f.value) >>> 1) &&& 7 = 0 := by
      rw [Nat.shiftRight_eq_div_pow, show (7:Nat) = 2 ^ 3 - 1 from rfl,
        Nat.and_pow_two_sub_one_eq_mod]
      omega
    have hff : ((256 * du + 16 * f.value) >>> 4) &&& 15 = f.value := by
      rw [Nat.shiftRight_eq_div_pow, show (15:Nat) = 2 ^ 4 - 1 from rfl,
        Nat.and_pow_two_sub_one_eq_mod]
      omega
    have hdf : ((256 * du + 16 * f.value) >>> 8) &&& 255 = du := by
      rw [Nat.shiftRight_eq_div_pow, show (255:Nat) = 2 ^ 8 - 1 from rfl,
        Nat.and_pow_two_sub_one_eq_mod]
      omega
    obtain ⟨r, hr⟩ := except_isOk_exists _ hreg
    have hc : BranchCondition.ofValue (((256 * du + 16 * f.value) >>> 1) &&& 7) =
        .ok .ZERO := by
      rw [hop3]
      rfl
    have hyes : (((256 * du + 16 * f.value) >>> 0) &&& 0x01 == 0 &&
        (((256 * du + 16 * f.value) >>> 1) &&& 0b111 == Opcode.ARITH_LOGIC_IMM.value ||
         ((256 * du + 16 * f.value) >>> 1) &&& 0b111 == Opcode.ARITH_LOGIC.value)) = true := by
      rw [hb0, hop3]
      decide
    have haf : ArithLogicFunction.ofValue (((256 * du + 16 * f.value) >>> 4) &&& 0xF) =
        .ok f := by
      rw [hff]
      exact alu_fn_ofValue_value f
    have hdec := decode_ok_intro_alu _ .ZERO f r hc hr hyes haf
    unfold decode_agrees
    rw [hdec]
    simp only []
    rw [hcb, hbc, hop, hf, hd, hregn, haddr]
    simp only [decoded_word_record]
    rw [hb0, hop3, hdf]
    simp [Opcode.value]
  · -- REG_MEMORY (GET/PUT, SET, LOAD/STORE)
    obtain ⟨hcb, hbc, hop, haddr, f, hf, hsub⟩ := hsh
    rcases hsub with ⟨hfgp, ⟨r0, hregs⟩, hdat⟩ | ⟨hfset, hregn, d, hd, hdu⟩ | ⟨hfls, hregn, hdat⟩
    · -- GET/PUT: register operand
      unfold Assembler.encode_word at he
      rw [hcb, hop, hf, hregs] at he
      simp only [bind, Except.bind] at he
      simp only [Bool.false_eq_true, if_false, pure, Except.pure] at he
      rw [if_neg (by decide : ¬(Opcode.REG_MEMORY = Opcode.ARITH_LOGIC)),
        if_neg (by decide : ¬(Opcode.REG_MEMORY = Opcode.ARITH_LOGIC_IMM))] at he
      simp only [if_true] at he
      simp only [FunctionField.value] at he
      injection he with hW
      subst hW
      have hfv := rm_fn_value_lt f
      have hrv := reg_idx_value_lt r0
      have hW2 : (0 ||| Opcode.REG_MEMORY.value <<< 1 ||| f.value <<< 4 ||| r0.value <<< 8) =
          256 * r0.value + (16 * f.value + 4) := by
        have e0 : (0 ||| Opcode.REG_MEMORY.value <<< 1 : Nat) = 4 := by decide
        rw [e0, or_shiftLeft_eq_add 4 f.value 4 (by norm_num),
          or_shiftLeft_eq_add (2 ^ 4 * f.value + 4) r0.value 8 (by omega)]
        ring
      rw [hW2] at hreg hw ⊢
      have hb0 : ((256 * r0.value + (16 * f.value + 4)) >>> 0) &&& 1 = 0 := by
        rw [Nat.shiftRight_eq_div_pow, show (1:Nat) = 2 ^ 1 - 1 from rfl,
          Nat.and_pow_two_sub_one_eq_mod]
        omega
      have hop3 : ((256 * r0.value + (16 * f.value + 4)) >>> 1) &&& 7 = 2 := by
        rw [Nat.shiftRight_eq_div_pow, show (7:Nat) = 2 ^ 3 - 1 from rfl,
          Nat.and_pow_two_sub_one_eq_mod]
        omega
      have hff : ((256 * r0.value + (16 * f.value + 4)) >>> 4) &&& 15 = f.value := by
        rw [Nat.shiftRight_eq_div_pow, show (15:Nat) = 2 ^ 4 - 1 from rfl,
          Nat.and_pow_two_sub_one_eq_mod]
        omega
      have hrf : ((256 * r0.value + (16 * f.value + 4)) >>> 8) &&& 15 = r0.value := by
        rw [Nat.shiftRight_eq_div_pow, show (15:Nat) = 2 ^ 4 - 1 from rfl,
          Nat.and_pow_two_sub_one_eq_mod]
        omega
      have hc : BranchCondition.ofValue
          (((256 * r0.value + (16 * f.value + 4)) >>> 1) &&& 7) = .ok .POSITIVE := by
        rw [hop3]
        rfl
      have hr : RegisterIndex.ofValue
          (((256 * r0.value + (16 * f.value + 4)) >>> 8) &&& 15) = .ok r0 := by
        rw [hrf]
        exact reg_idx_ofValue_value r0
      have hno : (((256 * r0.value + (16 * f.value + 4)) >>> 0) &&& 0x01 == 0 &&
          (((256 * r0.value + (16 * f.value + 4)) >>> 1) &&& 0b111 ==
              Opcode.ARITH_LOGIC_IMM.value ||
           ((256 * r0.value + (16 * f.value + 4)) >>> 1) &&& 0b111 ==
              Opcode.ARITH_LOGIC.value)) = false := by
        rw [hb0, hop3]
        decide
      have hdec := decode_ok_intro_none _ .POSITIVE r0 hc hr hno
      unfold decode_agrees
      rw [hdec]
      simp only []
      rw [hcb, hbc, hop, hf, hdat, hregs, haddr]
      simp only [decoded_word_record]
      rw [hb0, hop3, hff]
      simp [Opcode.value]
    · -- SET: data immediate
      subst hfset
      obtain ⟨du⟩ := d
      simp only [] at hdu
      unfold Assembler.encode_word at he
      rw [hcb, hop, hf, hregn, hd] at he
      simp only [bind, Except.bind] at he
      simp only [Bool.false_eq_true, if_false, pure, Except.pure] at he
      rw [if_neg (by decide : ¬(Opcode.REG_MEMORY = Opcode.ARITH_LOGIC)),
        if_neg (by decide : ¬(Opcode.REG_MEMORY = Opcode.ARITH_LOGIC_IMM))] at he
      simp only [if_true] at he
      simp only [FunctionField.value, RegMemoryFunction.value, BusValue.unsigned_value,
        DATA_WIDTH] at he
      rw [Nat.mod_eq_of_lt (show du < 2 ^ 8 by omega)] at he
      injection he with hW
      subst hW
      have hW2 : (0 ||| Opcode.REG_MEMORY.value <<< 1 ||| 4 <<< 4 ||| du <<< 8) =
          256 * du + 68 := by
        have e0 : (0 ||| Opcode.REG_MEMORY.value <<< 1 ||| 4 <<< 4 : Nat) = 68 := by decide
        rw [e0, or_shiftLeft_eq_add 68 du 8 (by norm_num)]
        ring
      rw [hW2] at hreg hw ⊢
      have hb0 : ((256 * du + 68) >>> 0) &&& 1 = 0 := by
        rw [Nat.shiftRight_eq_div_pow, show (1:Nat) = 2 ^ 1 - 1 from rfl,
          Nat.and_pow_two_sub_one_eq_mod]
        omega
      have hop3 : ((256 * du + 68) >>> 1) &&& 7 = 2 := by
        rw [Nat.shiftRight_eq_div_pow, show (7:Nat) = 2 ^ 3 - 1 from rfl,
          Nat.and_pow_two_sub_one_eq_mod]
        omega
      have hff : ((256 * du + 68) >>> 4) &&& 15 = 4 := by
        rw [Nat.shiftRight_eq_div_pow, show (15:Nat) = 2 ^ 4 - 1 from rfl,
          Nat.and_pow_two_sub_one_eq_mod]
        omega
      have hdf : ((256 * du + 68) >>> 8) &&& 255 = du := by
        rw [Nat.shiftRight_eq_div_pow, show (255:Nat) = 2 ^ 8 - 1 from rfl,
          Nat.and_pow_two_sub_one_eq_mod]
        omega
      obtain ⟨r, hr⟩ := except_isOk_exists _ hreg
      have hc : BranchCondition.ofValue (((256 * du + 68) >>> 1) &&& 7) = .ok .POSITIVE := by
        rw [hop3]
        rfl
      have hno : (((256 * du + 68) >>> 0) &&& 0x01 == 0 &&
          (((256 * du + 68) >>> 1) &&& 0b111 == Opcode.ARITH_LOGIC_IMM.value ||
           ((256 * du + 68) >>> 1) &&& 0b111 == Opcode.ARITH_LOGIC.value)) = false := by
        rw [hb0, hop3]
        decide
      have hdec := decode_ok_intro_none _ .POSITIVE r hc hr hno
      unfold decode_agrees
      rw [hdec]
      simp only []
      rw [hcb, hbc, hop, hf, hd, hregn, haddr]
      simp only [decoded_word_record]
      rw [hb0, hop3, hff, hdf]
      simp [Opcode.value, RegMemoryFunction.value]
    · -- LOAD/STORE: no operand
      unfold Assembler.encode_word at he
      rw [hcb, hop, hf, hregn, hdat] at he
      simp only [bind, Except.bind] at he
      simp only [Bool.false_eq_true, if_false, pure, Except.pure] at he
      rw [if_neg (by decide : ¬(Opcode.REG_MEMORY = Opcode.ARITH_LOGIC)),
        if_neg (by decide : ¬(Opcode.REG_MEMORY = Opcode.ARITH_LOGIC_IMM))] at he
      simp only [if_true] at he
      simp only [FunctionField.value, BusValue.unsigned_value, DATA_WIDTH,
        Nat.zero_mod] at he
      injection he with hW
      subst hW
      have hfv := rm_fn_value_lt f
      have hW2 : (0 ||| Opcode.REG_MEMORY.value <<< 1 ||| f.value <<< 4 ||| 0 <<< 8) =
          16 * f.value + 4 := by
        have e0 : (0 ||| Opcode.REG_MEMORY.value <<< 1 : Nat) = 4 := by decide
        rw [e0, or_shiftLeft_eq_add 4 f.value 4 (by norm_num),
          show ((0:Nat) <<< 8) = 0 from rfl, Nat.or_zero]
        ring
      rw [hW2] at hreg hw ⊢
      have hb0 : ((16 * f.value + 4) >>> 0) &&& 1 = 0 := by
        rw [Nat.shiftRight_eq_div_pow, show (1:Nat) = 2 ^ 1 - 1 from rfl,
          Nat.and_pow_two_sub_one_eq_mod]
        omega
      have hop3 : ((16 * f.value + 4) >>> 1) &&& 7 = 2 := by
        rw [Nat.shiftRight_eq_div_pow, show (7:Nat) = 2 ^ 3 - 1 from rfl,
          Nat.and_pow_two_sub_one_eq_mod]
        omega
      have hff : ((16 * f.value + 4) >>> 4) &&& 15 = f.value := by
        rw [Nat.shiftRight_eq_div_pow, show (15:Nat) = 2 ^ 4 - 1 from rfl,
          Nat.and_pow_two_sub_one_eq_mod]
        omega
      have hdf : ((16 * f.value + 4) >>> 8) &&& 255 = 0 := by
        rw [Nat.shiftRight_eq_div_pow, show (255:Nat) = 2 ^ 8 - 1 from rfl,
          Nat.and_pow_two_sub_one_eq_mod]
        omega
      obtain ⟨r, hr⟩ := except_isOk_exists _ hreg
      have hc : BranchCondition.ofValue (((16 * f.value + 4) >>> 1) &&& 7) =
          .ok .POSITIVE := by
        rw [hop3]
        rfl
      have hno : (((16 * f.value + 4) >>> 0) &&& 0x01 == 0 &&
          (((16 * f.value + 4) >>> 1) &&& 0b111 == Opcode.ARITH_LOGIC_IMM.value ||
           ((16 * f.value + 4) >>> 1) &&& 0b111 == Opcode.ARITH_LOGIC.value)) = false := by
        rw [hb0, hop3]
        decide
      have hdec := decode_ok_intro_none _ .POSITIVE r hc hr hno
      unfold decode_agrees
      rw [hdec]
      simp only []
      rw [hcb, hbc, hop, hf, hdat, hregn, haddr]
      simp only [decoded_word_record]
      rw [hb0, hop3, hff, hdf]
      simp [Opcode.value]
  · -- JUMP_REG: the parser leaves register empty, so encoding always fails
    obtain ⟨hcb, hbc, hop, haddr, hregn, hdat, f, hf⟩ := hsh
    unfold Assembler.encode_word at he
    rw [hcb, hop, hf, hregn] at he
    simp only [bind, Except.bind] at he
    simp only [Bool.false_eq_true, if_false, pure, Except.pure] at he
    rw [if_neg (by decide : ¬(Opcode.JUMP_REG = Opcode.ARITH_LOGIC)),
      if_neg (by decide : ¬(Opcode.JUMP_REG = Opcode.ARITH_LOGIC_IMM)),
      if_neg (by decide : ¬(Opcode.JUMP_REG = Opcode.REG_MEMORY)),
      if_neg (by decide : ¬(Opcode.JUMP_REG = Opcode.JUMP_IMM))] at he
    simp only [if_true] at he
    simp at he
  · -- JUMP_IMM
    obtain ⟨hcb, hbc, hop, hf, hregn, hdat, a, haddr, hau⟩ := hsh
    obtain ⟨au⟩ := a
    simp only [] at hau
    unfold Assembler.encode_word at he
    rw [hcb, hop, haddr] at he
    simp only [bind, Except.bind] at he
    simp only [Bool.false_eq_true, if_false, pure, Except.pure] at he
    rw [if_neg (by decide : ¬(Opcode.JUMP_IMM = Opcode.ARITH_LOGIC)),
      if_neg (by decide : ¬(Opcode.JUMP_IMM = Opcode.ARITH_LOGIC_IMM)),
      if_neg (by decide : ¬(Opcode.JUMP_IMM = Opcode.REG_MEMORY))] at he
    simp only [if_true] at he
    simp only [BusValue.unsigned_value, INSTRUCTION_ADDRESS_WIDTH] at he
    rw [Nat.mod_eq_of_lt (show au < 2 ^ 16 by omega)] at he
    injection he with hW
    subst hW
    have hW2 : (0 ||| Opcode.JUMP_IMM.value <<< 1 ||| au <<< 4) = 16 * au + 8 := by
      have e0 : (0 ||| Opcode.JUMP_IMM.value <<< 1 : Nat) = 8 := by decide
      rw [e0, or_shiftLeft_eq_add 8 au 4 (by norm_num)]
      ring
    rw [hW2] at hreg hw ⊢
    have hau4 : au < 4096 := by omega
    have hb0 : ((16 * au + 8) >>> 0) &&& 1 = 0 := by
      rw [Nat.shiftRight_eq_div_pow, show (1:Nat) = 2 ^ 1 - 1 from rfl,
        Nat.and_pow_two_sub_one_eq_mod]
      omega
    have hop3 : ((16 * au + 8) >>> 1) &&& 7 = 4 := by
      rw [Nat.shiftRight_eq_div_pow, show (7:Nat) = 2 ^ 3 - 1 from rfl,
        Nat.and_pow_two_sub_one_eq_mod]
      omega
    have hia : ((16 * au + 8) >>> 4) &&& 4095 = au := by
      rw [Nat.shiftRight_eq_div_pow, show (4095:Nat) = 2 ^ 12 - 1 from rfl,
        Nat.and_pow_two_sub_one_eq_mod]
      omega
    obtain ⟨r, hr⟩ := except_isOk_exists _ hreg
    have hc : BranchCondition.ofValue (((16 * au + 8) >>> 1) &&& 7) = .ok .CARRY_SET := by
      rw [hop3]
      rfl
    have hno : (((16 * au + 8) >>> 0) &&& 0x01 == 0 &&
        (((16 * au + 8) >>> 1) &&& 0b111 == Opcode.ARITH_LOGIC_IMM.value ||
         ((16 * au + 8) >>> 1) &&& 0b111 == Opcode.ARITH_LOGIC.value)) = false := by
      rw [hb0, hop3]
      decide
    have hdec := decode_ok_intro_none _ .CARRY_SET r hc hr hno
    unfold decode_agrees
    rw [hdec]
    simp only []
    rw [hcb, hbc, hop, hf, hdat, hregn, haddr]
    simp only [decoded_word_record]
    rw [hb0, hop3, hia]
    simp [Opcode.value]
  · -- conditional branch
    obtain ⟨hcb, ⟨c, hbc⟩, hop, hf, hregn, hdat, a, haddr, hau⟩ := hsh
    obtain ⟨au⟩ := a
    simp only [] at hau
    unfold Assembler.encode_word at he
    rw [hcb, hop, hbc, haddr, hf, hdat] at he
    simp only [bind, Except.bind] at he
    simp only [if_true, pure, Except.pure] at he
    rw [if_neg (by decide : ¬(Opcode.ARITH_LOGIC_IMM = Opcode.ARITH_LOGIC))] at he
    simp only [FunctionField.value, ArithLogicFunction.value, BusValue.unsigned_value,
      INSTRUCTION_ADDRESS_WIDTH, DATA_WIDTH, Nat.zero_mod] at he
    rw [Nat.mod_eq_of_lt (show au < 2 ^ 16 by omega)] at he
    injection he with hW
    subst hW
    have hc8 := branch_cond_value_lt c
    have hW2 : ((0 ||| 1 ||| c.value <<< 1 ||| au <<< 4) ||| 0 <<< 4) ||| 0 <<< 8 =
        16 * au + (2 * c.value + 1) := by
      have e0 : ((0:Nat) ||| 1) = 1 := by decide
      rw [e0, or_shiftLeft_eq_add 1 c.value 1 (by norm_num),
        or_shiftLeft_eq_add (2 ^ 1 * c.value + 1) au 4 (by omega),
        show ((0:Nat) <<< 4) = 0 from rfl, Nat.or_zero,
        show ((0:Nat) <<< 8) = 0 from rfl, Nat.or_zero]
      ring
    rw [hW2] at hreg hw ⊢
    have hau4 : au < 4096 := by omega
    have hb0 : ((16 * au + (2 * c.value + 1)) >>> 0) &&& 1 = 1 := by
      rw [Nat.shiftRight_eq_div_pow, show (1:Nat) = 2 ^ 1 - 1 from rfl,
        Nat.and_pow_two_sub_one_eq_mod]
      omega
    have hop3 : ((16 * au + (2 * c.value + 1)) >>> 1) &&& 7 = c.value := by
      rw [Nat.shiftRight_eq_div_pow, show (7:Nat) = 2 ^ 3 - 1 from rfl,
        Nat.and_pow_two_sub_one_eq_mod]
      omega
    have hia : ((16 * au + (2 * c.value + 1)) >>> 4) &&& 4095 = au := by
      rw [Nat.shiftRight_eq_div_pow, show (4095:Nat) = 2 ^ 12 - 1 from rfl,
        Nat.and_pow_two_sub_one_eq_mod]
      omega
    obtain ⟨r, hr⟩ := except_isOk_exists _ hreg
    have hcI : BranchCondition.ofValue
        (((16 * au + (2 * c.value + 1)) >>> 1) &&& 7) = .ok c := by
      rw [hop3]
      exact branch_cond_ofValue_value c
    have hno : (((16 * au + (2 * c.value + 1)) >>> 0) &&& 0x01 == 0 &&
        (((16 * au + (2 * c.value + 1)) >>> 1) &&& 0b111 == Opcode.ARITH_LOGIC_IMM.value ||
         ((16 * au + (2 * c.value + 1)) >>> 1) &&& 0b111 == Opcode.ARITH_LOGIC.value)) =
        false := by
      rw [hb0]
      simp
    have hdec := decode_ok_intro_none _ c r hcI hr hno
    unfold decode_agrees
    rw [hdec]
    simp only []
    rw [hcb, hbc, hop, hf, hdat, hregn, haddr]
    simp only [decoded_word_record]
    rw [hb0, hia]
    simp

/-- Every successfully parsed instruction has one of the parser shapes. -/
lemma parse_body_shape (oc : String) (operand : Option String) (i : Instruction)
    (h : Assembler.parse_instruction_body oc operand = .ok i) : parser_shape i := by
  have hmem : oc ∈ NO_OPERAND ∨ oc ∈ REG_OPERAND ∨ oc ∈ DATA_IMM_OPERAND ∨
      oc ∈ ADDR_IMM_OPERAND := by
    by_contra hn
    push_neg at hn
    obtain ⟨n1, n2, n3, n4⟩ := hn
    unfold Assembler.parse_instruction_body at h
    rw [if_neg n1] at h
    split at h
    · cases h
    · cases h
  simp only [NO_OPERAND, REG_OPERAND, DATA_IMM_OPERAND, ADDR_IMM_OPERAND,
    JUMP_REG_OPCODE_TEXTS, MEMORY_OPCODE_TEXTS, REG_OPCODE_TEXTS,
    ARITH_LOGIC_IMM_OPCODE_TEXTS, REG_IMM_OPCODE_TEXTS, JUMP_IMM_OPCODE_TEXTS,
    BRANCH_OPCODE_TEXTS, BRANCH_OPCODE_CONDITION_MAP, List.map, List.mem_append,
    List.mem_cons, List.mem_singleton, List.not_mem_nil, or_false] at hmem
  rcases hmem with (((rfl | rfl) | rfl | rfl) | rfl) |
    ((rfl | rfl) | rfl | rfl | rfl | rfl | rfl) |
    ((rfl | rfl | rfl | rfl | rfl) | rfl) |
    rfl | rfl | rfl | rfl | rfl | rfl | rfl | rfl | rfl
  · -- JMPR
    unfold Assembler.parse_instruction_body at h
    simp [NO_OPERAND, REG_OPERAND, DATA_IMM_OPERAND, ADDR_IMM_OPERAND,
      ARITH_LOGIC_OPCODE_TEXTS, ARITH_LOGIC_IMM_OPCODE_TEXTS, JUMP_REG_OPCODE_TEXTS,
      MEMORY_OPCODE_TEXTS, REG_OPCODE_TEXTS, REG_IMM_OPCODE_TEXTS,
      JUMP_IMM_OPCODE_TEXTS, BRANCH_OPCODE_TEXTS, BRANCH_OPCODE_CONDITION_MAP,
      RegMemoryFunction.members, ArithLogicFunction.members, JUMP_OPCODE_FUNC_MAP,
      RegisterIndex.members, List.lookup] at h
    split at h
    · cases h
    · injection h with h2
      subst h2
      exact Or.inr (Or.inr (Or.inr (Or.inl ⟨rfl, rfl, rfl, rfl, rfl, rfl, JumpFunction.JUMP_RELATIVE, rfl⟩)))
  · -- JMP
    unfold Assembler.parse_instruction_body at h
    simp [NO_OPERAND, REG_OPERAND, DATA_IMM_OPERAND, ADDR_IMM_OPERAND,
      ARITH_LOGIC_OPCODE_TEXTS, ARITH_LOGIC_IMM_OPCODE_TEXTS, JUMP_REG_OPCODE_TEXTS,
      MEMORY_OPCODE_TEXTS, REG_OPCODE_TEXTS, REG_IMM_OPCODE_TEXTS,
      JUMP_IMM_OPCODE_TEXTS, BRANCH_OPCODE_TEXTS, BRANCH_OPCODE_CONDITION_MAP,
      RegMemoryFunction.members, ArithLogicFunction.members, JUMP_OPCODE_FUNC_MAP,
      RegisterIndex.members, List.lookup] at h
    split at h
    · cases h
    · injection h with h2
      subst h2
      exact Or.inr (Or.inr (Or.inr (Or.inl ⟨rfl, rfl, rfl, rfl, rfl, rfl, JumpFunction.JUMP_ABSOLUTE, rfl⟩)))
  · -- LOAD
    unfold Assembler.parse_instruction_body at h
    simp [NO_OPERAND, REG_OPERAND, DATA_IMM_OPERAND, ADDR_IMM_OPERAND,
      ARITH_LOGIC_OPCODE_TEXTS, ARITH_LOGIC_IMM_OPCODE_TEXTS, JUMP_REG_OPCODE_TEXTS,
      MEMORY_OPCODE_TEXTS, REG_OPCODE_TEXTS, REG_IMM_OPCODE_TEXTS,
      JUMP_IMM_OPCODE_TEXTS, BRANCH_OPCODE_TEXTS, BRANCH_OPCODE_CONDITION_MAP,
      RegMemoryFunction.members, ArithLogicFunction.members, JUMP_OPCODE_FUNC_MAP,
      RegisterIndex.members, List.lookup] at h
    split at h
    · cases h
    · injection h with h2
      subst h2
      exact Or.inr (Or.inr (Or.inl ⟨rfl, rfl, rfl, rfl, RegMemoryFunction.LOAD, rfl, Or.inr (Or.inr ⟨Or.inl rfl, rfl, rfl⟩)⟩))
  · -- STORE
    unfold Assembler.parse_instruction_body at h
    simp [NO_OPERAND, REG_OPERAND, DATA_IMM_OPERAND, ADDR_IMM_OPERAND,
      ARITH_LOGIC_OPCODE_TEXTS, ARITH_LOGIC_IMM_OPCODE_TEXTS, JUMP_REG_OPCODE_TEXTS,
      MEMORY_OPCODE_TEXTS, REG_OPCODE_TEXTS, REG_IMM_OPCODE_TEXTS,
      JUMP_IMM_OPCODE_TEXTS, BRANCH_OPCODE_TEXTS, BRANCH_OPCODE_CONDITION_MAP,
      RegMemoryFunction.members, ArithLogicFunction.members, JUMP_OPCODE_FUNC_MAP,
      RegisterIndex.members, List.lookup] at h
    split at h
    · cases h
    · injection h with h2
      subst h2
      exact Or.inr (Or.inr (Or.inl ⟨rfl, rfl, rfl, rfl, RegMemoryFunction.STORE, rfl, Or.inr (Or.inr ⟨Or.inr rfl, rfl, rfl⟩)⟩))
  · -- INV
    unfold Assembler.parse_instruction_body at h
    simp [NO_OPERAND, REG_OPERAND, DATA_IMM_OPERAND, ADDR_IMM_OPERAND,
      ARITH_LOGIC_OPCODE_TEXTS, ARITH_LOGIC_IMM_OPCODE_TEXTS, JUMP_REG_OPCODE_TEXTS,
      MEMORY_OPCODE_TEXTS, REG_OPCODE_TEXTS, REG_IMM_OPCODE_TEXTS,
      JUMP_IMM_OPCODE_TEXTS, BRANCH_OPCODE_TEXTS, BRANCH_OPCODE_CONDITION_MAP,
      RegMemoryFunction.members, ArithLogicFunction.members, JUMP_OPCODE_FUNC_MAP,
      RegisterIndex.members, List.lookup] at h
    split at h
    · cases h
    · injection h with h2
      subst h2
      exact Or.inl ⟨rfl, rfl, rfl, rfl, rfl, Or.inl ⟨rfl, rfl⟩⟩
  · -- GET
    unfold Assembler.parse_instruction_body at h
    simp [NO_OPERAND, REG_OPERAND, DATA_IMM_OPERAND, ADDR_IMM_OPERAND,
      ARITH_LOGIC_OPCODE_TEXTS, ARITH_LOGIC_IMM_OPCODE_TEXTS, JUMP_REG_OPCODE_TEXTS,
      MEMORY_OPCODE_TEXTS, REG_OPCODE_TEXTS, REG_IMM_OPCODE_TEXTS,
      JUMP_IMM_OPCODE_TEXTS, BRANCH_OPCODE_TEXTS, BRANCH_OPCODE_CONDITION_MAP,
      RegMemoryFunction.members] at h
    split at h
    · cases h
    · split at h
      · cases h
      · rename_i r heq2
        injection h with h2
        subst h2
        exact Or.inr (Or.inr (Or.inl ⟨rfl, rfl, rfl, rfl, RegMemoryFunction.GET, rfl, Or.inl ⟨Or.inl rfl, ⟨r, rfl⟩, rfl⟩⟩))
  · -- PUT
    unfold Assembler.parse_instruction_body at h
    simp [NO_OPERAND, REG_OPERAND, DATA_IMM_OPERAND, ADDR_IMM_OPERAND,
      ARITH_LOGIC_OPCODE_TEXTS, ARITH_LOGIC_IMM_OPCODE_TEXTS, JUMP_REG_OPCODE_TEXTS,
      MEMORY_OPCODE_TEXTS, REG_OPCODE_TEXTS, REG_IMM_OPCODE_TEXTS,
      JUMP_IMM_OPCODE_TEXTS, BRANCH_OPCODE_TEXTS, BRANCH_OPCODE_CONDITION_MAP,
      RegMemoryFunction.members] at h
    split at h
    · cases h
    · split at h
      · cases h
      · rename_i r heq2
        injection h with h2
        subst h2
        exact Or.inr (Or.inr (Or.inl ⟨rfl, rfl, rfl, rfl, RegMemoryFunction.PUT, rfl, Or.inl ⟨Or.inr rfl, ⟨r, rfl⟩, rfl⟩⟩))
  · -- ADD
    unfold Assembler.parse_instruction_body at h
    simp [NO_OPERAND, REG_OPERAND, DATA_IMM_OPERAND, ADDR_IMM_OPERAND,
      ARITH_LOGIC_OPCODE_TEXTS, ARITH_LOGIC_IMM_OPCODE_TEXTS, JUMP_REG_OPCODE_TEXTS,
      MEMORY_OPCODE_TEXTS, REG_OPCODE_TEXTS, REG_IMM_OPCODE_TEXTS,
      JUMP_IMM_OPCODE_TEXTS, BRANCH_OPCODE_TEXTS, BRANCH_OPCODE_CONDITION_MAP,
      RegMemoryFunction.members] at h
    split at h
    · cases h
    · split at h
      · cases h
      · rename_i r heq2
        injection h with h2
        subst h2
        exact Or.inl ⟨rfl, rfl, rfl, rfl, rfl, Or.inr ⟨ArithLogicFunction.ADD, r, rfl, by decide, rfl⟩⟩
  · -- SUB
    unfold Assembler.parse_instruction_body at h
    simp [NO_OPERAND, REG_OPERAND, DATA_IMM_OPERAND, ADDR_IMM_OPERAND,
      ARITH_LOGIC_OPCODE_TEXTS, ARITH_LOGIC_IMM_OPCODE_TEXTS, JUMP_REG_OPCODE_TEXTS,
      MEMORY_OPCODE_TEXTS, REG_OPCODE_TEXTS, REG_IMM_OPCODE_TEXTS,
      JUMP_IMM_OPCODE_TEXTS, BRANCH_OPCODE_TEXTS, BRANCH_OPCODE_CONDITION_MAP,
      RegMemoryFunction.members] at h
    split at h
    · cases h
    · split at h
      · cases h
      · rename_i r heq2
        injection h with h2
        subst h2
        exact Or.inl ⟨rfl, rfl, rfl, rfl, rfl, Or.inr ⟨ArithLogicFunction.SUB, r, rfl, by decide, rfl⟩⟩
  · -- AND
    unfold Assembler.parse_instruction_body at h
    simp [NO_OPERAND, REG_OPERAND, DATA_IMM_OPERAND, ADDR_IMM_OPERAND,
      ARITH_LOGIC_OPCODE_TEXTS, ARITH_LOGIC_IMM_OPCODE_TEXTS, JUMP_REG_OPCODE_TEXTS,
      MEMORY_OPCODE_TEXTS, REG_OPCODE_TEXTS, REG_IMM_OPCODE_TEXTS,
      JUMP_IMM_OPCODE_TEXTS, BRANCH_OPCODE_TEXTS, BRANCH_OPCODE_CONDITION_MAP,
      RegMemoryFunction.members] at h
    split at h
    · cases h
    · split at h
      · cases h
      · rename_i r heq2
        injection h with h2
        subst h2
        exact Or.inl ⟨rfl, rfl, rfl, rfl, rfl, Or.inr ⟨ArithLogicFunction.AND, r, rfl, by decide, rfl⟩⟩
  · -- OR
    unfold Assembler.parse_instruction_body at h
    simp [NO_OPERAND, REG_OPERAND, DATA_IMM_OPERAND, ADDR_IMM_OPERAND,
      ARITH_LOGIC_OPCODE_TEXTS, ARITH_LOGIC_IMM_OPCODE_TEXTS, JUMP_REG_OPCODE_TEXTS,
      MEMORY_OPCODE_TEXTS, REG_OPCODE_TEXTS, REG_IMM_OPCODE_TEXTS,
      JUMP_IMM_OPCODE_TEXTS, BRANCH_OPCODE_TEXTS, BRANCH_OPCODE_CONDITION_MAP,
      RegMemoryFunction.members] at h
    split at h
    · cases h
    · split at h
      · cases h
      · rename_i r heq2
        injection h with h2
        subst h2
        exact Or.inl ⟨rfl, rfl, rfl, rfl, rfl, Or.inr ⟨ArithLogicFunction.OR, r, rfl, by decide, rfl⟩⟩
  · -- XOR
    unfold Assembler.parse_instruction_body at h
    simp [NO_OPERAND, REG_OPERAND, DATA_IMM_OPERAND, ADDR_IMM_OPERAND,
      ARITH_LOGIC_OPCODE_TEXTS, ARITH_LOGIC_IMM_OPCODE_TEXTS, JUMP_REG_OPCODE_TEXTS,
      MEMORY_OPCODE_TEXTS, REG_OPCODE_TEXTS, REG_IMM_OPCODE_TEXTS,
      JUMP_IMM_OPCODE_TEXTS, BRANCH_OPCODE_TEXTS, BRANCH_OPCODE_CONDITION_MAP,
      RegMemoryFunction.members] at h
    split at h
    · cases h
    · split at h
      · cases h
      · rename_i r heq2
        injection h with h2
        subst h2
        exact Or.inl ⟨rfl, rfl, rfl, rfl, rfl, Or.inr ⟨ArithLogicFunction.XOR, r, rfl, by decide, rfl⟩⟩
  · -- ADDI
    unfold Assembler.parse_instruction_body at h
    rw [show (String.dropRight "ADDI" 1) = "ADD" from rfl] at h
    simp [NO_OPERAND, REG_OPERAND, DATA_IMM_OPERAND, ADDR_IMM_OPERAND,
      ARITH_LOGIC_OPCODE_TEXTS, ARITH_LOGIC_IMM_OPCODE_TEXTS, JUMP_REG_OPCODE_TEXTS,
      MEMORY_OPCODE_TEXTS, REG_OPCODE_TEXTS, REG_IMM_OPCODE_TEXTS,
      JUMP_IMM_OPCODE_TEXTS, BRANCH_OPCODE_TEXTS, BRANCH_OPCODE_CONDITION_MAP,
      RegMemoryFunction.members, ArithLogicFunction.members, JUMP_OPCODE_FUNC_MAP,
      RegisterIndex.members, List.lookup] at h
    split at h
    · cases h
    · split at h
      · cases h
      · rename_i i0 hpi
        cases hv : BusValue.make DATA_WIDTH i0 with
        | error m =>
          rw [hv] at h
          simp at h
        | ok v =>
          rw [hv] at h
          simp only [] at h
          injection h with h2
          subst h2
          have hb := make_ok_u_lt hv
          norm_num [DATA_WIDTH] at hb
          exact Or.inr (Or.inl ⟨rfl, rfl, rfl, rfl, rfl, ArithLogicFunction.ADD, v, rfl, by decide, rfl, hb⟩)
  · -- SUBI
    unfold Assembler.parse_instruction_body at h
    rw [show (String.dropRight "SUBI" 1) = "SUB" from rfl] at h
    simp [NO_OPERAND, REG_OPERAND, DATA_IMM_OPERAND, ADDR_IMM_OPERAND,
      ARITH_LOGIC_OPCODE_TEXTS, ARITH_LOGIC_IMM_OPCODE_TEXTS, JUMP_REG_OPCODE_TEXTS,
      MEMORY_OPCODE_TEXTS, REG_OPCODE_TEXTS, REG_IMM_OPCODE_TEXTS,
      JUMP_IMM_OPCODE_TEXTS, BRANCH_OPCODE_TEXTS, BRANCH_OPCODE_CONDITION_MAP,
      RegMemoryFunction.members, ArithLogicFunction.members, JUMP_OPCODE_FUNC_MAP,
      RegisterIndex.members, List.lookup] at h
    split at h
    · cases h
    · split at h
      · cases h
      · rename_i i0 hpi
        cases hv : BusValue.make DATA_WIDTH i0 with
        | error m =>
          rw [hv] at h
          simp at h
        | ok v =>
          rw [hv] at h
          simp only [] at h
          injection h with h2
          subst h2
          have hb := make_ok_u_lt hv
          norm_num [DATA_WIDTH] at hb
          exact Or.inr (Or.inl ⟨rfl, rfl, rfl, rfl, rfl, ArithLogicFunction.SUB, v, rfl, by decide, rfl, hb⟩)
  · -- ANDI
    unfold Assembler.parse_instruction_body at h
    rw [show (String.dropRight "ANDI" 1) = "AND" from rfl] at h
    simp [NO_OPERAND, REG_OPERAND, DATA_IMM_OPERAND, ADDR_IMM_OPERAND,
      ARITH_LOGIC_OPCODE_TEXTS, ARITH_LOGIC_IMM_OPCODE_TEXTS, JUMP_REG_OPCODE_TEXTS,
      MEMORY_OPCODE_TEXTS, REG_OPCODE_TEXTS, REG_IMM_OPCODE_TEXTS,
      JUMP_IMM_OPCODE_TEXTS, BRANCH_OPCODE_TEXTS, BRANCH_OPCODE_CONDITION_MAP,
      RegMemoryFunction.members, ArithLogicFunction.members, JUMP_OPCODE_FUNC_MAP,
      RegisterIndex.members, List.lookup] at h
    split at h
    · cases h
    · split at h
      · cases h
      · rename_i i0 hpi
        cases hv : BusValue.make DATA_WIDTH i0 with
        | error m =>
          rw [hv] at h
          simp at h
        | ok v =>
          rw [hv] at h
          simp only [] at h
          injection h with h2
          subst h2
          have hb := make_ok_u_lt hv
          norm_num [DATA_WIDTH] at hb
          exact Or.inr (Or.inl ⟨rfl, rfl, rfl, rfl, rfl, ArithLogicFunction.AND, v, rfl, by decide, rfl, hb⟩)
  · -- ORI
    unfold Assembler.parse_instruction_body at h
    rw [show (String.dropRight "ORI" 1) = "OR" from rfl] at h
    simp [NO_OPERAND, REG_OPERAND, DATA_IMM_OPERAND, ADDR_IMM_OPERAND,
      ARITH_LOGIC_OPCODE_TEXTS, ARITH_LOGIC_IMM_OPCODE_TEXTS, JUMP_REG_OPCODE_TEXTS,
      MEMORY_OPCODE_TEXTS, REG_OPCODE_TEXTS, REG_IMM_OPCODE_TEXTS,
      JUMP_IMM_OPCODE_TEXTS, BRANCH_OPCODE_TEXTS, BRANCH_OPCODE_CONDITION_MAP,
      RegMemoryFunction.members, ArithLogicFunction.members, JUMP_OPCODE_FUNC_MAP,
      RegisterIndex.members, List.lookup] at h
    split at h
    · cases h
    · split at h
      · cases h
      · rename_i i0 hpi
        cases hv : BusValue.make DATA_WIDTH i0 with
        | error m =>
          rw [hv] at h
          simp at h
        | ok v =>
          rw [hv] at h
          simp only [] at h
          injection h with h2
          subst h2
          have hb := make_ok_u_lt hv
          norm_num [DATA_WIDTH] at hb
          exact Or.inr (Or.inl ⟨rfl, rfl, rfl, rfl, rfl, ArithLogicFunction.OR, v, rfl, by decide, rfl, hb⟩)
  · -- XORI
    unfold Assembler.parse_instruction_body at h
    rw [show (String.dropRight "XORI" 1) = "XOR" from rfl] at h
    simp [NO_OPERAND, REG_OPERAND, DATA_IMM_OPERAND, ADDR_IMM_OPERAND,
      ARITH_LOGIC_OPCODE_TEXTS, ARITH_LOGIC_IMM_OPCODE_TEXTS, JUMP_REG_OPCODE_TEXTS,
      MEMORY_OPCODE_TEXTS, REG_OPCODE_TEXTS, REG_IMM_OPCODE_TEXTS,
      JUMP_IMM_OPCODE_TEXTS, BRANCH_OPCODE_TEXTS, BRANCH_OPCODE_CONDITION_MAP,
      RegMemoryFunction.members, ArithLogicFunction.members, JUMP_OPCODE_FUNC_MAP,
      RegisterIndex.members, List.lookup] at h
    split at h
    · cases h
    · split at h
      · cases h
      · rename_i i0 hpi
        cases hv : BusValue.make DATA_WIDTH i0 with
        | error m =>
          rw [hv] at h
          simp at h
        | ok v =>
          rw [hv] at h
          simp only [] at h
          injection h with h2
          subst h2
          have hb := make_ok_u_lt hv
          norm_num [DATA_WIDTH] at hb
          exact Or.inr (Or.inl ⟨rfl, rfl, rfl, rfl, rfl, ArithLogicFunction.XOR, v, rfl, by decide, rfl, hb⟩)
  · -- SET
    unfold Assembler.parse_instruction_body at h
    simp [NO_OPERAND, REG_OPERAND, DATA_IMM_OPERAND, ADDR_IMM_OPERAND,
      ARITH_LOGIC_OPCODE_TEXTS, ARITH_LOGIC_IMM_OPCODE_TEXTS, JUMP_REG_OPCODE_TEXTS,
      MEMORY_OPCODE_TEXTS, REG_OPCODE_TEXTS, REG_IMM_OPCODE_TEXTS,
      JUMP_IMM_OPCODE_TEXTS, BRANCH_OPCODE_TEXTS, BRANCH_OPCODE_CONDITION_MAP,
      RegMemoryFunction.members, ArithLogicFunction.members, JUMP_OPCODE_FUNC_MAP,
      RegisterIndex.members, List.lookup] at h
    split at h
    · cases h
    · split at h
      · cases h
      · rename_i i0 hpi
        cases hv : BusValue.make DATA_WIDTH i0 with
        | error m =>
          rw [hv] at h
          simp at h
        | ok v =>
          rw [hv] at h
          simp only [] at h
          injection h with h2
          subst h2
          have hb := make_ok_u_lt hv
          norm_num [DATA_WIDTH] at hb
          exact Or.inr (Or.inr (Or.inl ⟨rfl, rfl, rfl, rfl, RegMemoryFunction.SET, rfl, Or.inr (Or.inl ⟨rfl, rfl, v, rfl, hb⟩)⟩))
  · -- JMPI
    unfold Assembler.parse_instruction_body at h
    simp [NO_OPERAND, REG_OPERAND, DATA_IMM_OPERAND, ADDR_IMM_OPERAND,
      ARITH_LOGIC_OPCODE_TEXTS, ARITH_LOGIC_IMM_OPCODE_TEXTS, JUMP_REG_OPCODE_TEXTS,
      MEMORY_OPCODE_TEXTS, REG_OPCODE_TEXTS, REG_IMM_OPCODE_TEXTS,
      JUMP_IMM_OPCODE_TEXTS, BRANCH_OPCODE_TEXTS, BRANCH_OPCODE_CONDITION_MAP,
      RegMemoryFunction.members, ArithLogicFunction.members, JUMP_OPCODE_FUNC_MAP,
      RegisterIndex.members, List.lookup] at h
    split at h
    · cases h
    · split at h
      · cases h
      · rename_i i0 hpi
        cases hv : BusValue.make INSTRUCTION_ADDRESS_WIDTH i0 with
        | error m =>
          rw [hv] at h
          simp at h
        | ok v =>
          rw [hv] at h
          simp only [] at h
          injection h with h2
          subst h2
          have hb := make_ok_u_lt hv
          norm_num [INSTRUCTION_ADDRESS_WIDTH] at hb
          exact Or.inr (Or.inr (Or.inr (Or.inr (Or.inl ⟨rfl, rfl, rfl, rfl, rfl, rfl, v, rfl, hb⟩))))
  · -- BZ
    unfold Assembler.parse_instruction_body at h
    simp [NO_OPERAND, REG_OPERAND, DATA_IMM_OPERAND, ADDR_IMM_OPERAND,
      ARITH_LOGIC_OPCODE_TEXTS, ARITH_LOGIC_IMM_OPCODE_TEXTS, JUMP_REG_OPCODE_TEXTS,
      MEMORY_OPCODE_TEXTS, REG_OPCODE_TEXTS, REG_IMM_OPCODE_TEXTS,
      JUMP_IMM_OPCODE_TEXTS, BRANCH_OPCODE_TEXTS, BRANCH_OPCODE_CONDITION_MAP,
      RegMemoryFunction.members, ArithLogicFunction.members, JUMP_OPCODE_FUNC_MAP,
      RegisterIndex.members, List.lookup] at h
    split at h
    · cases h
    · split at h
      · cases h
      · rename_i i0 hpi
        cases hv : BusValue.make INSTRUCTION_ADDRESS_WIDTH i0 with
        | error m =>
          rw [hv] at h
          simp at h
        | ok v =>
          rw [hv] at h
          simp only [] at h
          injection h with h2
          subst h2
          have hb := make_ok_u_lt hv
          norm_num [INSTRUCTION_ADDRESS_WIDTH] at hb
          exact Or.inr (Or.inr (Or.inr (Or.inr (Or.inr ⟨rfl, ⟨BranchCondition.ZERO, rfl⟩, rfl, rfl, rfl, rfl, v, rfl, hb⟩))))
  · -- BNZ
    unfold Assembler.parse_instruction_body at h
    simp [NO_OPERAND, REG_OPERAND, DATA_IMM_OPERAND, ADDR_IMM_OPERAND,
      ARITH_LOGIC_OPCODE_TEXTS, ARITH_LOGIC_IMM_OPCODE_TEXTS, JUMP_REG_OPCODE_TEXTS,
      MEMORY_OPCODE_TEXTS, REG_OPCODE_TEXTS, REG_IMM_OPCODE_TEXTS,
      JUMP_IMM_OPCODE_TEXTS, BRANCH_OPCODE_TEXTS, BRANCH_OPCODE_CONDITION_MAP,
      RegMemoryFunction.members, ArithLogicFunction.members, JUMP_OPCODE_FUNC_MAP,
      RegisterIndex.members, List.lookup] at h
    split at h
    · cases h
    · split at h
      · cases h
      · rename_i i0 hpi
        cases hv : BusValue.make INSTRUCTION_ADDRESS_WIDTH i0 with
        | error m =>
          rw [hv] at h
          simp at h
        | ok v =>
          rw [hv] at h
          simp only [] at h
          injection h with h2
          subst h2
          have hb := make_ok_u_lt hv
          norm_num [INSTRUCTION_ADDRESS_WIDTH] at hb
          exact Or.inr (Or.inr (Or.inr (Or.inr (Or.inr ⟨rfl, ⟨BranchCondition.NOT_ZERO, rfl⟩, rfl, rfl, rfl, rfl, v, rfl, hb⟩))))
  · -- BP
    unfold Assembler.parse_instruction_body at h
    simp [NO_OPERAND, REG_OPERAND, DATA_IMM_OPERAND, ADDR_IMM_OPERAND,
      ARITH_LOGIC_OPCODE_TEXTS, ARITH_LOGIC_IMM_OPCODE_TEXTS, JUMP_REG_OPCODE_TEXTS,
      MEMORY_OPCODE_TEXTS, REG_OPCODE_TEXTS, REG_IMM_OPCODE_TEXTS,
      JUMP_IMM_OPCODE_TEXTS, BRANCH_OPCODE_TEXTS, BRANCH_OPCODE_CONDITION_MAP,
      RegMemoryFunction.members, ArithLogicFunction.members, JUMP_OPCODE_FUNC_MAP,
      RegisterIndex.members, List.lookup] at h
    split at h
    · cases h
    · split at h
      · cases h
      · rename_i i0 hpi
        cases hv : BusValue.make INSTRUCTION_ADDRESS_WIDTH i0 with
        | error m =>
          rw [hv] at h
          simp at h
        | ok v =>
          rw [hv] at h
          simp only [] at h
          injection h with h2
          subst h2
          have hb := make_ok_u_lt hv
          norm_num [INSTRUCTION_ADDRESS_WIDTH] at hb
          exact Or.inr (Or.inr (Or.inr (Or.inr (Or.inr ⟨rfl, ⟨BranchCondition.POSITIVE, rfl⟩, rfl, rfl, rfl, rfl, v, rfl, hb⟩))))
  · -- BN
    unfold Assembler.parse_instruction_body at h
    simp [NO_OPERAND, REG_OPERAND, DATA_IMM_OPERAND, ADDR_IMM_OPERAND,
      ARITH_LOGIC_OPCODE_TEXTS, ARITH_LOGIC_IMM_OPCODE_TEXTS, JUMP_REG_OPCODE_TEXTS,
      MEMORY_OPCODE_TEXTS, REG_OPCODE_TEXTS, REG_IMM_OPCODE_TEXTS,
      JUMP_IMM_OPCODE_TEXTS, BRANCH_OPCODE_TEXTS, BRANCH_OPCODE_CONDITION_MAP,
      RegMemoryFunction.members, ArithLogicFunction.members, JUMP_OPCODE_FUNC_MAP,
      RegisterIndex.members, List.lookup] at h
    split at h
    · cases h
    · split at h
      · cases h
      · rename_i i0 hpi
        cases hv : BusValue.make INSTRUCTION_ADDRESS_WIDTH i0 with
        | error m =>
          rw [hv] at h
          simp at h
        | ok v =>
          rw [hv] at h
          simp only [] at h
          injection h with h2
          subst h2
          have hb := make_ok_u_lt hv
          norm_num [INSTRUCTION_ADDRESS_WIDTH] at hb
          exact Or.inr (Or.inr (Or.inr (Or.inr (Or.inr ⟨rfl, ⟨BranchCondition.NEGATIVE, rfl⟩, rfl, rfl, rfl, rfl, v, rfl, hb⟩))))
  · -- BCS
    unfold Assembler.parse_instruction_body at h
    simp [NO_OPERAND, REG_OPERAND, DATA_IMM_OPERAND, ADDR_IMM_OPERAND,
      ARITH_LOGIC_OPCODE_TEXTS, ARITH_LOGIC_IMM_OPCODE_TEXTS, JUMP_REG_OPCODE_TEXTS,
      MEMORY_OPCODE_TEXTS, REG_OPCODE_TEXTS, REG_IMM_OPCODE_TEXTS,
      JUMP_IMM_OPCODE_TEXTS, BRANCH_OPCODE_TEXTS, BRANCH_OPCODE_CONDITION_MAP,
      RegMemoryFunction.members, ArithLogicFunction.members, JUMP_OPCODE_FUNC_MAP,
      RegisterIndex.members, List.lookup] at h
    split at h
    · cases h
    · split at h
      · cases h
      · rename_i i0 hpi
        cases hv : BusValue.make INSTRUCTION_ADDRESS_WIDTH i0 with
        | error m =>
          rw [hv] at h
          simp at h
        | ok v =>
          rw [hv] at h
          simp only [] at h
          injection h with h2
          subst h2
          have hb := make_ok_u_lt hv
          norm_num [INSTRUCTION_ADDRESS_WIDTH] at hb
          exact Or.inr (Or.inr (Or.inr (Or.inr (Or.inr ⟨rfl, ⟨BranchCondition.CARRY_SET, rfl⟩, rfl, rfl, rfl, rfl, v, rfl, hb⟩))))
  · -- BCC
    unfold Assembler.parse_instruction_body at h
    simp [NO_OPERAND, REG_OPERAND, DATA_IMM_OPERAND, ADDR_IMM_OPERAND,
      ARITH_LOGIC_OPCODE_TEXTS, ARITH_LOGIC_IMM_OPCODE_TEXTS, JUMP_REG_OPCODE_TEXTS,
      MEMORY_OPCODE_TEXTS, REG_OPCODE_TEXTS, REG_IMM_OPCODE_TEXTS,
      JUMP_IMM_OPCODE_TEXTS, BRANCH_OPCODE_TEXTS, BRANCH_OPCODE_CONDITION_MAP,
      RegMemoryFunction.members, ArithLogicFunction.members, JUMP_OPCODE_FUNC_MAP,
      RegisterIndex.members, List.lookup] at h
    split at h
    · cases h
    · split at h
      · cases h
      · rename_i i0 hpi
        cases hv : BusValue.make INSTRUCTION_ADDRESS_WIDTH i0 with
        | error m =>
          rw [hv] at h
          simp at h
        | ok v =>
          rw [hv] at h
          simp only [] at h
          injection h with h2
          subst h2
          have hb := make_ok_u_lt hv
          norm_num [INSTRUCTION_ADDRESS_WIDTH] at hb
          exact Or.inr (Or.inr (Or.inr (Or.inr (Or.inr ⟨rfl, ⟨BranchCondition.CARRY_CLEARED, rfl⟩, rfl, rfl, rfl, rfl, v, rfl, hb⟩))))
  · -- BOS
    unfold Assembler.parse_instruction_body at h
    simp [NO_OPERAND, REG_OPERAND, DATA_IMM_OPERAND, ADDR_IMM_OPERAND,
      ARITH_LOGIC_OPCODE_TEXTS, ARITH_LOGIC_IMM_OPCODE_TEXTS, JUMP_REG_OPCODE_TEXTS,
      MEMORY_OPCODE_TEXTS, REG_OPCODE_TEXTS, REG_IMM_OPCODE_TEXTS,
      JUMP_IMM_OPCODE_TEXTS, BRANCH_OPCODE_TEXTS, BRANCH_OPCODE_CONDITION_MAP,
      RegMemoryFunction.members, ArithLogicFunction.members, JUMP_OPCODE_FUNC_MAP,
      RegisterIndex.members, List.lookup] at h
    split at h
    · cases h
    · split at h
      · cases h
      · rename_i i0 hpi
        cases hv : BusValue.make INSTRUCTION_ADDRESS_WIDTH i0 with
        | error m =>
          rw [hv] at h
          simp at h
        | ok v =>
          rw [hv] at h
          simp only [] at h
          injection h with h2
          subst h2
          have hb := make_ok_u_lt hv
          norm_num [INSTRUCTION_ADDRESS_WIDTH] at hb
          exact Or.inr (Or.inr (Or.inr (Or.inr (Or.inr ⟨rfl, ⟨BranchCondition.OVERFLOW_SET, rfl⟩, rfl, rfl, rfl, rfl, v, rfl, hb⟩))))
  · -- BOC
    unfold Assembler.parse_instruction_body at h
    simp [NO_OPERAND, REG_OPERAND, DATA_IMM_OPERAND, ADDR_IMM_OPERAND,
      ARITH_LOGIC_OPCODE_TEXTS, ARITH_LOGIC_IMM_OPCODE_TEXTS, JUMP_REG_OPCODE_TEXTS,
      MEMORY_OPCODE_TEXTS, REG_OPCODE_TEXTS, REG_IMM_OPCODE_TEXTS,
      JUMP_IMM_OPCODE_TEXTS, BRANCH_OPCODE_TEXTS, BRANCH_OPCODE_CONDITION_MAP,
      RegMemoryFunction.members, ArithLogicFunction.members, JUMP_OPCODE_FUNC_MAP,
      RegisterIndex.members, List.lookup] at h
    split at h
    · cases h
    · split at h
      · cases h
      · rename_i i0 hpi
        cases hv : BusValue.make INSTRUCTION_ADDRESS_WIDTH i0 with
        | error m =>
          rw [hv] at h
          simp at h
        | ok v =>
          rw [hv] at h
          simp only [] at h
          injection h with h2
          subst h2
          have hb := make_ok_u_lt hv
          norm_num [INSTRUCTION_ADDRESS_WIDTH] at hb
          exact Or.inr (Or.inr (Or.inr (Or.inr (Or.inr ⟨rfl, ⟨BranchCondition.OVERFLOW_CLEARED, rfl⟩, rfl, rfl, rfl, rfl, v, rfl, hb⟩))))

/-- The two record shapes the first pass appends for a deferred label
reference, before the second pass fills in the address immediate. -/
def deferred_shape (i : Instruction) : Prop :=
  (i.conditional_branch = true ∧ (∃ c, i.branch_conditon = some c) ∧
    i.opcode = .ARITH_LOGIC_IMM ∧ i.function = .alf .ADD ∧ i.register = none ∧
    i.data_immediate = some ⟨0⟩ ∧ i.address_immediate = none) ∨
  (i.conditional_branch = false ∧ i.branch_conditon = none ∧ i.opcode = .JUMP_IMM ∧
    i.function = .alf .ADD ∧ i.register = none ∧ i.data_immediate = some ⟨0⟩ ∧
    i.address_immediate = none)

/-- The invariant carried by the first pass over recorded instructions. -/
def pass_one_instr_shape : PassOneInstr → Prop
  | .done i => parser_shape i
  | .deferred i _ _ => deferred_shape i

lemma mem_branch_lookup_some (s : String) (h : s ∈ BRANCH_OPCODE_TEXTS) :
    ∃ c, BRANCH_OPCODE_CONDITION_MAP.lookup s = some c := by
  simp only [BRANCH_OPCODE_TEXTS, BRANCH_OPCODE_CONDITION_MAP, List.map, List.mem_cons,
    List.mem_singleton, List.not_mem_nil, or_false] at h
  rcases h with rfl | rfl | rfl | rfl | rfl | rfl | rfl | rfl <;> exact ⟨_, rfl⟩

lemma pass_one_shapes (lines : List String) :
    ∀ st st2, Assembler.pass_one lines st = .ok st2 →
      (∀ q ∈ st.instructions, pass_one_instr_shape q) →
      ∀ q ∈ st2.instructions, pass_one_instr_shape q := by
  induction lines with
  | nil =>
    intro st st2 hok hinv0 q hq
    unfold Assembler.pass_one at hok
    injection hok with h
    subst h
    exact hinv0 q hq
  | cons line rest ih =>
    intro st st2 hok hinv
    unfold Assembler.pass_one at hok
    simp only [] at hok
    split at hok
    · exact ih st st2 hok hinv
    · split at hok
      · cases hok
      · rename_i label instrTok operand0 hlex
        cases label with
        | none =>
          simp only [] at hok
          cases instrTok with
          | none => exact ih st st2 hok hinv
          | some instrRaw =>
            simp only [] at hok
            split at hok
            · cases hok
            · rename_i instr operand hmac
              split at hok
              · rename_i instruction hparse
                refine ih _ st2 hok ?_
                intro q hq
                rcases List.mem_append.mp hq with hm | hm
                · exact hinv q hm
                · rw [List.mem_singleton.mp hm]
                  exact parse_body_shape _ _ _ hparse
              · rename_i msg hparse
                split at hok
                · rename_i hcond
                  refine ih _ st2 hok ?_
                  intro q hq
                  rcases List.mem_append.mp hq with hm | hm
                  · exact hinv q hm
                  · rw [List.mem_singleton.mp hm]
                    show deferred_shape _
                    by_cases hB : (pyUpper instr) ∈ BRANCH_OPCODE_TEXTS
                    · rw [if_pos hB]
                      exact Or.inl ⟨rfl, mem_branch_lookup_some _ hB, rfl, rfl, rfl,
                        rfl, rfl⟩
                    · rw [if_neg hB]
                      simp only [Bool.and_eq_true, decide_eq_true_eq] at hcond
                      rcases hcond.2 with hBm | hJ
                      · exact absurd hBm hB
                      · rw [if_pos hJ]
                        exact Or.inr ⟨rfl, rfl, rfl, rfl, rfl, rfl, rfl⟩
                · cases hok
              · cases hok
        | some l =>
          simp only [] at hok
          cases instrTok with
          | none => exact ih _ st2 hok hinv
          | some instrRaw =>
            simp only [] at hok
            split at hok
            · cases hok
            · rename_i instr operand hmac
              split at hok
              · rename_i instruction hparse
                refine ih _ st2 hok ?_
                intro q hq
                rcases List.mem_append.mp hq with hm | hm
                · exact hinv q hm
                · rw [List.mem_singleton.mp hm]
                  exact parse_body_shape _ _ _ hparse
              · rename_i msg hparse
                split at hok
                · rename_i hcond
                  refine ih _ st2 hok ?_
                  intro q hq
                  rcases List.mem_append.mp hq with hm | hm
                  · exact hinv q hm
                  · rw [List.mem_singleton.mp hm]
                    show deferred_shape _
                    by_cases hB : (pyUpper instr) ∈ BRANCH_OPCODE_TEXTS
                    · rw [if_pos hB]
                      exact Or.inl ⟨rfl, mem_branch_lookup_some _ hB, rfl, rfl, rfl,
                        rfl, rfl⟩
                    · rw [if_neg hB]
                      simp only [Bool.and_eq_true, decide_eq_true_eq] at hcond
                      rcases hcond.2 with hBm | hJ
                      · exact absurd hBm hB
                      · rw [if_pos hJ]
                        exact Or.inr ⟨rfl, rfl, rfl, rfl, rfl, rfl, rfl⟩
                · cases hok
              · cases hok

lemma pass_two_shapes (labels : List (String × Nat)) :
    ∀ ps instrs, Assembler.pass_two labels ps = .ok instrs →
      (∀ q ∈ ps, pass_one_instr_shape q) →
      ∀ i ∈ instrs, parser_shape i := by
  intro ps
  induction ps with
  | nil =>
    intro instrs h hq i hi
    unfold Assembler.pass_two at h
    injection h with h2
    rw [← h2] at hi
    exact absurd hi (List.not_mem_nil i)
  | cons q rest ih =>
    intro instrs h hq
    cases q with
    | done i0 =>
      unfold Assembler.pass_two at h
      simp only [bind, Except.bind] at h
      cases htl : Assembler.pass_two labels rest with
      | error e =>
        rw [htl] at h
        cases h
      | ok tl =>
        rw [htl] at h
        simp only [pure, Except.pure] at h
        injection h with h2
        intro i hi
        rw [← h2] at hi
        rcases List.mem_cons.mp hi with hh | hh
        · rw [hh]
          exact hq (.done i0) (List.mem_cons_self _ _)
        · exact ih tl htl (fun q hq0 => hq q (List.mem_cons_of_mem _ hq0)) i hh
    | deferred i0 lref addr =>
      unfold Assembler.pass_two at h
      cases hlk : labels.lookup lref with
      | none =>
        rw [hlk] at h
        cases h
      | some target =>
        rw [hlk] at h
        simp only [] at h
        cases hmk : BusValue.make INSTRUCTION_ADDRESS_WIDTH
            ((target : Int) - (addr : Int)) with
        | error m =>
          rw [hmk] at h
          cases h
        | ok v =>
          rw [hmk] at h
          simp only [bind, Except.bind] at h
          cases htl : Assembler.pass_two labels rest with
          | error e =>
            rw [htl] at h
            cases h
          | ok tl =>
            rw [htl] at h
            simp only [pure, Except.pure] at h
            injection h with h2
            intro i hi
            rw [← h2] at hi
            rcases List.mem_cons.mp hi with hh | hh
            · rw [hh]
              have hdef : deferred_shape i0 := hq (.deferred i0 lref addr)
                (List.mem_cons_self _ _)
              have hv : v.u < 65536 := by
                have hb := make_ok_u_lt hmk
                norm_num [INSTRUCTION_ADDRESS_WIDTH] at hb
                exact hb
              rcases hdef with ⟨h1, ⟨c, h2c⟩, h3, h4, h5, h6, h7⟩ |
                ⟨h1, h2c, h3, h4, h5, h6, h7⟩
              · exact Or.inr (Or.inr (Or.inr (Or.inr (Or.inr
                  ⟨h1, ⟨c, h2c⟩, h3, h4, h5, h6, v, rfl, hv⟩))))
              · exact Or.inr (Or.inr (Or.inr (Or.inr (Or.inl
                  ⟨h1, h2c, h3, h4, h5, h6, v, rfl, hv⟩))))
            · exact ih tl htl (fun q hq0 => hq q (List.mem_cons_of_mem _ hq0)) i hh

/-- Every instruction produced by `parse_assembly` has a parser shape. -/
lemma parse_assembly_shapes (lines : List String) (instrs : List Instruction)
    (labels : List (String × Nat))
    (h : Assembler.parse_assembly lines = .ok (instrs, labels)) :
    ∀ i ∈ instrs, parser_shape i := by
  unfold Assembler.parse_assembly at h
  simp only [bind, Except.bind] at h
  cases h1 : Assembler.pass_one lines {} with
  | error e =>
    rw [h1] at h
    cases h
  | ok st =>
    rw [h1] at h
    simp only [] at h
    cases h2 : Assembler.pass_two st.labels st.instructions with
    | error e =>
      rw [h2] at h
      cases h
    | ok instrs2 =>
      rw [h2] at h
      simp only [pure, Except.pure] at h
      injection h with h3
      injection h3 with h4 h5
      subst h4
      have hq := pass_one_shapes lines {} st h1
        (fun q hq0 => absurd hq0 (List.not_mem_nil q))
      exact pass_two_shapes st.labels st.instructions instrs2 h2 hq

/-- The instruction `parse_instruction` returns for `SET 11`. -/
def set_11_instr : Instruction := {
  opcode := .REG_MEMORY
  function := .rmf .SET
  data_immediate := some ⟨11⟩
}

/-- C6, counterexample: the assembler/decoder round trip fails on the
assemblable one-line program `SET 11`.  `SET 11` parses and assembles to the
word 0x0B44 (bytes `44 0B`), but its data immediate 11 lands in bits 8-11,
which the decoder also reads as a register index — and 11 is not a
`RegisterIndex` value, so `decode` raises `ValueError` instead of returning
the instruction. -/
theorem set_11_roundtrip_fails :
    Assembler.parse_instruction "SET" (some "11") = .ok set_11_instr ∧
      Assembler.assemble ["SET 11"] = .ok [0x44, 0x0B] ∧
      DecodeUnit.decode_bytes 0x44 0x0B = .error "is not a valid RegisterIndex" ∧
      decode_agrees set_11_instr 0x0B44 = false :=
  ⟨rfl, rfl, rfl, rfl⟩

/-- C6, amended: for every instruction of a program accepted by
`parse_assembly` whose encoding succeeds (`encode_word`/`encode_instruction`)
and whose encoded word carries a valid register-index field in bits 8-11,
decoding the two little-endian bytes recovers the word and all applicable
instruction fields agree (`decode_agrees`: branch flag, branch condition,
opcode bits, ALU function, register/memory function bits, register index,
data immediate, address immediate). -/
theorem assembled_roundtrip_on_valid_register_field (lines : List String)
    (instrs : List Instruction) (labels : List (String × Nat)) (i : Instruction)
    (w : Nat) (bytes : List Nat)
    (hp : Assembler.parse_assembly lines = .ok (instrs, labels))
    (hi : i ∈ instrs)
    (hw : Assembler.encode_word i = .ok w)
    (hb : Assembler.encode_instruction i = .ok bytes)
    (hreg : (RegisterIndex.ofValue ((w >>> 8) &&& 0xF)).isOk = true) :
    bytes = [w % 256, w / 256] ∧
      DecodeUnit.decode_bytes (w % 256) (w / 256) = DecodeUnit.decode w ∧
      decode_agrees i w = true := by
  have hlt : w < 2 ^ 16 ∧ bytes = [w % 256, w / 256] := by
    unfold Assembler.encode_instruction at hb
    simp only [bind, Except.bind] at hb
    rw [hw] at hb
    simp only [] at hb
    split at hb
    · rename_i hcond
      simp only [pure, Except.pure] at hb
      injection hb with h2
      exact ⟨hcond, h2.symm⟩
    · cases hb
  refine ⟨hlt.2, ?_, ?_⟩
  · unfold DecodeUnit.decode_bytes
    congr 1
    omega
  · exact shape_roundtrip i w (parse_assembly_shapes lines instrs labels hp i hi)
      hw hlt.1 hreg

/-- The instruction `parse_assembly` produces for the program `GET R3`. -/
def roundtrip_demo_instr : Instruction := {
  opcode := .REG_MEMORY
  function := .rmf .GET
  register := some .R3
}

/-- Witness for `assembled_roundtrip_on_valid_register_field`: the one-line
program `GET R3`, encoded as the word 0x0324. -/
theorem assembled_roundtrip_on_valid_register_field_witness :
    [0x24, 0x03] = [0x324 % 256, 0x324 / 256] ∧
      DecodeUnit.decode_bytes (0x324 % 256) (0x324 / 256) = DecodeUnit.decode 0x324 ∧
      decode_agrees roundtrip_demo_instr 0x324 = true :=
  assembled_roundtrip_on_valid_register_field ["GET R3"] [roundtrip_demo_instr] []
    roundtrip_demo_instr 0x324 [0x24, 0x03] (by rfl)
    (List.mem_singleton.mpr rfl) (by rfl) (by rfl) (by rfl)

end TurtleToolkit
